import Mathlib

/-!
# Sensitive field extractor (PostgreSQL) — shallow embedding

Embedding of `backend/plugin/parser/pg/masking.go`.

* Go slices are `List`s; Go `map[string]T` values are functions `String → Option T`.
* A method on `*SensitiveFieldExtractor` takes the extractor state and returns the
  pair `(result or error, extractor state at return)`; deferred functions are applied
  to the state on every return path.
* The evaluator recurses through the syntax tree and, for recursive CTEs, loops until
  a fixpoint; every function of that recursion takes a `fuel : Nat` that is decremented
  at each call, and returns `Error.outOfFuel` at `0`.
* A Go run-time panic (nil dereference, index out of range) is the error `Error.panic`.
-/

namespace Bytebase

/-! ## Data model -/

/-- Modelled from the spec: `storepb.MaskingLevel` is generated code that is not among the
source files; §6 lists its four values in increasing integer order. -/
inductive MaskingLevel where
  | MASKING_LEVEL_UNSPECIFIED
  | NONE
  | PARTIAL
  | FULL
  deriving DecidableEq, Repr

namespace MaskingLevel

/-- Integer value of the enumeration (§6). -/
def toNat : MaskingLevel → Nat
  | MASKING_LEVEL_UNSPECIFIED => 0
  | NONE => 1
  | PARTIAL => 2
  | FULL => 3

instance : LinearOrder MaskingLevel :=
  LinearOrder.lift' toNat (by
    intro a b h
    cases a <;> cases b <;> first | rfl | (exact absurd h (by decide)))

end MaskingLevel

/-- Modelled from the spec: `base.DefaultMaskingLevel` is declared outside the source files;
§6 gives `NONE (1, default)`. -/
def DefaultMaskingLevel : MaskingLevel := .NONE

/-- Modelled from the spec: `base.MaxMaskingLevel` is declared outside the source files;
§6 gives `FULL (3, also MaxMaskingLevel)`. -/
def MaxMaskingLevel : MaskingLevel := .FULL

/-- The Go call `cmp.Less[storepb.MaskingLevel](a, b)`: `a < b` by integer value. -/
def cmpLess (a b : MaskingLevel) : Bool := decide (a.toNat < b.toNat)

/-- `db.ColumnInfo`. -/
structure ColumnInfo where
  Name : String
  MaskingLevel : MaskingLevel
  deriving DecidableEq, Repr

/-- `db.TableSchema`. -/
structure TableSchema where
  Name : String
  ColumnList : List ColumnInfo
  deriving DecidableEq, Repr

/-- `db.SchemaSchema`: a named schema with its tables. -/
structure SchemaSchema where
  Name : String
  TableList : List TableSchema
  deriving DecidableEq, Repr

/-- `db.DatabaseSchema`: a named database with its schemas. -/
structure DatabaseSchema where
  Name : String
  SchemaList : List SchemaSchema
  deriving DecidableEq, Repr

/-- `db.SensitiveSchemaInfo`: the catalog snapshot. -/
structure SensitiveSchemaInfo where
  DatabaseList : List DatabaseSchema
  deriving DecidableEq, Repr

/-- `base.FieldInfo`. -/
structure FieldInfo where
  Schema : String := ""
  Table : String := ""
  Name : String
  MaskingLevel : MaskingLevel
  deriving DecidableEq, Repr

/-- `db.SensitiveField`. -/
structure SensitiveField where
  Name : String
  MaskingLevel : MaskingLevel
  deriving DecidableEq, Repr

/-- `ast.TableDef`, as far as `extractSchemaTableColumnName` reads it. -/
structure TableDef where
  Schema : String
  Name : String
  deriving DecidableEq, Repr

/-- `ast.ColumnNameDef`. -/
structure ColumnNameDef where
  Table : TableDef
  ColumnName : String
  deriving DecidableEq, Repr

/-- The errors the extractor returns, one constructor per `errors.Errorf` site
(the formatted Go type names are dropped), plus the two outcomes of the embedding. -/
inductive Error where
  /-- `Table %q not found` with the table name. -/
  | tableNotFound (tableName : String)
  /-- `expect Node_String_ but found %T`. -/
  | expectNodeString
  /-- `expect Node_List but found %T`. -/
  | expectNodeList
  /-- `expect CommonTableExpr but found %T`. -/
  | expectCommonTableExpr
  /-- `expect Node_ResTarget but found %T`. -/
  | expectNodeResTarget
  /-- `expect equal length but found %d and %d`. -/
  | expectEqualLength (a b : Nat)
  /-- `The common table expression and column names list have different column counts`. -/
  | cteColumnCount
  /-- `each UNION/INTERSECT/EXCEPT query must have the same number of columns`. -/
  | setOpColumnCount
  /-- `unknown select op %v`. -/
  | unknownSelectOp
  /-- `expect one statement but found %d`. -/
  | expectOneStatement (found : Nat)
  /-- `expect a query statement but found %T`. -/
  | expectQueryStatement
  /-- An error returned by the parser `pgquery.Parse`. -/
  | parse
  /-- An error returned by `pgrawparser.ConvertNodeListToColumnNameDef`. -/
  | convert
  /-- A Go run-time panic: nil pointer dereference or index out of range. -/
  | panic
  /-- The fuel of the embedding ran out. -/
  | outOfFuel
  deriving DecidableEq, Repr

/-- `pgquery.SetOperation`. -/
inductive SetOperation where
  | SET_OPERATION_UNDEFINED
  | SETOP_NONE
  | SETOP_UNION
  | SETOP_INTERSECT
  | SETOP_EXCEPT
  deriving DecidableEq, Repr

/-- `pgquery.XmlExprOp`. -/
inductive XmlExprOp where
  | XML_EXPR_OP_UNDEFINED
  | IS_XMLCONCAT
  | IS_XMLELEMENT
  | IS_XMLFOREST
  | IS_XMLPARSE
  | IS_XMLPI
  | IS_XMLROOT
  | IS_XMLSERIALIZE
  | IS_DOCUMENT
  deriving DecidableEq, Repr

/-- `pgquery.SubLinkType`. -/
inductive SubLinkType where
  | SUB_LINK_TYPE_UNDEFINED
  | EXISTS_SUBLINK
  | ALL_SUBLINK
  | ANY_SUBLINK
  | ROWCOMPARE_SUBLINK
  | EXPR_SUBLINK
  | MULTIEXPR_SUBLINK
  | ARRAY_SUBLINK
  | CTE_SUBLINK
  deriving DecidableEq, Repr

/-- `pgquery.SQLValueFunctionOp`. -/
inductive SQLValueFunctionOp where
  | SQLVALUE_FUNCTION_OP_UNDEFINED
  | SVFOP_CURRENT_DATE
  | SVFOP_CURRENT_TIME
  | SVFOP_CURRENT_TIME_N
  | SVFOP_CURRENT_TIMESTAMP
  | SVFOP_CURRENT_TIMESTAMP_N
  | SVFOP_LOCALTIME
  | SVFOP_LOCALTIME_N
  | SVFOP_LOCALTIMESTAMP
  | SVFOP_LOCALTIMESTAMP_N
  | SVFOP_CURRENT_ROLE
  | SVFOP_CURRENT_USER
  | SVFOP_USER
  | SVFOP_SESSION_USER
  | SVFOP_CURRENT_CATALOG
  | SVFOP_CURRENT_SCHEMA
  deriving DecidableEq, Repr

/-- `pgquery.MinMaxOp`. -/
inductive MinMaxOp where
  | MIN_MAX_OP_UNDEFINED
  | IS_GREATEST
  | IS_LEAST
  deriving DecidableEq, Repr

mutual
/-- `pgquery.Node`: one constructor per node kind the extractor matches on, with the fields
it reads; `other` is every remaining kind (and a wrapper whose `Node` is nil). A child
pointer that may be nil is an `Option`. -/
inductive Node where
  | SelectStmt (SelectStmt : SelectStmt)
  | ExplainStmt
  | RangeVar (Schemaname Relname : String) (Alias : Option Alias)
  | RangeSubselect (Subquery : Option Node) (Alias : Option Alias)
  | JoinExpr (IsNatural : Bool) (Larg Rarg : Option Node) (UsingClause : List Node)
  | String_ (Sval : String)
  | AStar
  | CommonTableExpr (Ctename : String) (Aliascolnames : List Node) (Ctequery : Option Node)
  | List (Items : List Node)
  | ResTarget (Name : String) (Val : Option Node)
  | ColumnRef (Fields : List Node)
  | FuncCall (Funcname Args AggOrder : List Node) (AggFilter : Option Node)
  | SortBy (Node : Option Node)
  | XmlExpr (Op : XmlExprOp) (Args NamedArgs : List Node)
  | TypeCast (Arg : Option Node) (TypeName : Option TypeName)
  | AConst
  | AExpr (Lexpr Rexpr : Option Node)
  | CaseExpr (Arg : Option Node) (Args : List Node) (Defresult : Option Node)
  | CaseWhen (Expr Result : Option Node)
  | AArrayExpr (Elements : List Node)
  | NullTest (Arg : Option Node)
  | XmlSerialize (Expr : Option Node)
  | ParamRef
  | BoolExpr (Args : List Node)
  | SubLink (SubLinkType : SubLinkType) (Testexpr Subselect : Option Node)
  | RowExpr (Args : List Node)
  | CoalesceExpr (Args : List Node)
  | SetToDefault
  | AIndirection (Arg : Option Node)
  | CollateClause (Arg : Option Node)
  | CurrentOfExpr
  | SqlvalueFunction (Op : SQLValueFunctionOp)
  | MinMaxExpr (Op : MinMaxOp) (Args : List Node)
  | BooleanTest (Arg : Option Node)
  | GroupingFunc (Args : List Node)
  | other
/-- `pgquery.SelectStmt`, the fields `pgExtractSelect` reads. -/
inductive SelectStmt where
  | mk (WithClause : Option WithClause) (ValuesLists : List Node) (Op : SetOperation)
      (Larg Rarg : Option SelectStmt) (FromClause TargetList : List Node)
/-- `pgquery.WithClause`. -/
inductive WithClause where
  | mk (Ctes : List Node) (Recursive : Bool)
/-- `pgquery.Alias`. -/
inductive Alias where
  | mk (Aliasname : String) (Colnames : List Node)
/-- `pgquery.TypeName`. -/
inductive TypeName where
  | mk (Names : List Node)
end

namespace SelectStmt

def WithClause : SelectStmt → Option Bytebase.WithClause
  | mk w _ _ _ _ _ _ => w

def ValuesLists : SelectStmt → List Node
  | mk _ v _ _ _ _ _ => v

def Op : SelectStmt → SetOperation
  | mk _ _ o _ _ _ _ => o

def Larg : SelectStmt → Option SelectStmt
  | mk _ _ _ l _ _ _ => l

def Rarg : SelectStmt → Option SelectStmt
  | mk _ _ _ _ r _ _ => r

def FromClause : SelectStmt → List Node
  | mk _ _ _ _ _ f _ => f

def TargetList : SelectStmt → List Node
  | mk _ _ _ _ _ _ t => t

end SelectStmt

namespace WithClause

def Ctes : WithClause → List Node
  | mk c _ => c

def Recursive : WithClause → Bool
  | mk _ r => r

end WithClause

namespace Alias

def Aliasname : Alias → String
  | mk a _ => a

def Colnames : Alias → List Node
  | mk _ c => c

end Alias

namespace TypeName

def Names : TypeName → List Node
  | mk n => n

end TypeName

/-- `SensitiveFieldExtractor`. -/
structure SensitiveFieldExtractor where
  SchemaInfo : SensitiveSchemaInfo
  outerSchemaInfo : List FieldInfo := []
  cteOuterSchemaInfo : List TableSchema := []
  fromFieldList : List FieldInfo := []
  deriving DecidableEq, Repr

/-- What a method returns: its result or error, and the extractor state at return. -/
abbrev Result (α : Type) := Except Error α × SensitiveFieldExtractor

/-- `pgUnknownFieldName`. -/
def pgUnknownFieldName : String := "?column?"

/-- `isSystemSchema`. -/
def isSystemSchema (schema : String) : Bool :=
  schema = "information_schema" || schema = "pg_catalog" || schema = "rw_catalog"

/-! ## Pure helpers -/

/-- A Go `map[string]base.FieldInfo` filled by `m[field.Name] = field` over a slice:
a later field overwrites an earlier one of the same name. -/
def fieldMap (fields : List FieldInfo) : String → Option FieldInfo :=
  fields.foldl (fun m field => fun name => if name = field.Name then some field else m name)
    (fun _ => none)

/-- The loop `name, yes := nameNode.Node.(*pgquery.Node_String_)` over a node list: the
string values, or the error of the first node that is not a string node. -/
def stringNodeList : List Node → Except Error (List String)
  | [] => .ok []
  | .String_ sval :: rest =>
    match stringNodeList rest with
    | .ok l => .ok (sval :: l)
    | .error e => .error e
  | _ :: _ => .error .expectNodeString

/-- `pgMergeJoinField` (masking.go 111-177); `IsNatural` and `UsingClause` are the two fields
of the join node it reads. -/
def pgMergeJoinField (IsNatural : Bool) (UsingClause : List Node)
    (leftField rightField : List FieldInfo) : Except Error (List FieldInfo) :=
  let leftFieldMap := fieldMap leftField
  let rightFieldMap := fieldMap rightField
  if IsNatural then
    .ok (leftField.map (fun field =>
            match rightFieldMap field.Name with
            | some rField =>
              if cmpLess field.MaskingLevel rField.MaskingLevel then
                { field with MaskingLevel := rField.MaskingLevel }
              else field
            | none => field)
          ++ rightField.filter (fun field => (leftFieldMap field.Name).isNone))
  else if UsingClause.length > 0 then
    match stringNodeList UsingClause with
    | .error e => .error e
    | .ok usingList =>
      let usingMap : String → Bool := fun column => decide (column ∈ usingList)
      .ok (leftField.map (fun field =>
              match rightFieldMap field.Name with
              | some rField =>
                if usingMap field.Name && cmpLess field.MaskingLevel rField.MaskingLevel then
                  { field with MaskingLevel := rField.MaskingLevel }
                else field
              | none => field)
            ++ rightField.filter (fun field =>
                !(usingMap field.Name && (leftFieldMap field.Name).isSome)))
  else
    .ok (leftField ++ rightField)

/-- `pgExtractAlias` (masking.go 210-223). -/
def pgExtractAlias (aliasNode : Option Alias) : Except Error (String × List String) :=
  match aliasNode with
  | none => .ok ("", [])
  | some aliasNode =>
    match stringNodeList aliasNode.Colnames with
    | .error e => .error e
    | .ok columnNameList => .ok (aliasNode.Aliasname, columnNameList)

/-- `pgFindTableSchema` (masking.go 266-295); it reads the extractor and never writes it. -/
def pgFindTableSchema (extractor : SensitiveFieldExtractor) (schemaName tableName : String) :
    Except Error TableSchema :=
  match extractor.cteOuterSchemaInfo.reverse.find? (fun table => table.Name = tableName) with
  | some table => .ok table
  | none =>
    match extractor.SchemaInfo.DatabaseList.findSome? (fun database =>
        database.SchemaList.findSome? (fun schema =>
          if (schemaName = "" ∧ schema.Name = "public") ∨ schemaName = schema.Name then
            schema.TableList.find? (fun table => tableName = table.Name)
          else none)) with
    | some table => .ok table
    | none => .error (.tableNotFound tableName)

/-- The body of `pgExtractRangeVar` and of the aliased branch of `pgExtractRangeSubselect`
(masking.go 249-260, 193-204): rename positionally when the alias has column names. -/
def aliasFields {α : Type} (aliasName : String) (columnNameList : List String)
    (name : α → String) (level : α → MaskingLevel) (items : List α) : List FieldInfo :=
  items.enum.map (fun (i, item) =>
    { Schema := "public"
      Table := aliasName
      Name := if columnNameList.length > 0 then columnNameList.getD i "" else name item
      MaskingLevel := level item })

/-- `pgExtractRangeVar` (masking.go 225-264); it reads the extractor and never writes it. -/
def pgExtractRangeVar (extractor : SensitiveFieldExtractor) (Schemaname Relname : String)
    (Alias : Option Alias) : Result (List FieldInfo) :=
  match pgFindTableSchema extractor Schemaname Relname with
  | .error e => (.error e, extractor)
  | .ok tableSchema =>
    match Alias with
    | none =>
      (.ok (tableSchema.ColumnList.map (fun column =>
        { Name := column.Name, Table := tableSchema.Name, MaskingLevel := column.MaskingLevel })),
       extractor)
    | some aliasNode =>
      match pgExtractAlias (some aliasNode) with
      | .error e => (.error e, extractor)
      | .ok (aliasName, columnNameList) =>
        if columnNameList.length ≠ 0 ∧ columnNameList.length ≠ tableSchema.ColumnList.length then
          (.error (.expectEqualLength aliasNode.Colnames.length tableSchema.ColumnList.length),
           extractor)
        else
          (.ok (aliasFields aliasName columnNameList ColumnInfo.Name ColumnInfo.MaskingLevel
            tableSchema.ColumnList), extractor)

/-- `extractSchemaTableColumnName` (masking.go 723-725). -/
def extractSchemaTableColumnName (columnName : ColumnNameDef) : String × String × String :=
  (columnName.Table.Schema, columnName.Table.Name, columnName.ColumnName)

/-- `pgCheckFieldMaskingLevel` (masking.go 727-761). -/
def pgCheckFieldMaskingLevel (extractor : SensitiveFieldExtractor)
    (schemaName tableName fieldName : String) : MaskingLevel :=
  match extractor.outerSchemaInfo.reverse.find? (fun field =>
      ((schemaName = "" ∧ field.Schema = "public") ∨ schemaName = field.Schema) ∧
      ((tableName = field.Table ∨ tableName = "") ∧ fieldName = field.Name)) with
  | some field => field.MaskingLevel
  | none =>
    match extractor.fromFieldList.find? (fun field =>
        (tableName = field.Table ∨ tableName = "") ∧ fieldName = field.Name) with
    | some field => field.MaskingLevel
    | none => DefaultMaskingLevel

/-- Modelled from the spec: `pgrawparser.ConvertNodeListToColumnNameDef` is declared outside
the source files. §4.4 has a `ColumnRef` "decompose into (schema, table, column)" and §4.7
names the column `*`: one to three name parts, the last one the column (a string, or the
star), the one before it the table, the first of three the schema. -/
def ConvertNodeListToColumnNameDef : List Node → Except Error ColumnNameDef
  | [.String_ column] => .ok { Table := { Schema := "", Name := "" }, ColumnName := column }
  | [.AStar] => .ok { Table := { Schema := "", Name := "" }, ColumnName := "*" }
  | [.String_ table, .String_ column] =>
    .ok { Table := { Schema := "", Name := table }, ColumnName := column }
  | [.String_ table, .AStar] =>
    .ok { Table := { Schema := "", Name := table }, ColumnName := "*" }
  | [.String_ schema, .String_ table, .String_ column] =>
    .ok { Table := { Schema := schema, Name := table }, ColumnName := column }
  | [.String_ schema, .String_ table, .AStar] =>
    .ok { Table := { Schema := schema, Name := table }, ColumnName := "*" }
  | _ => .error .convert

/-! ## Name derivation -/

section Extractor

/- The helper `pgrawparser.ConvertNodeListToColumnNameDef` is declared outside the source
files; the extractor is embedded for an arbitrary such decomposition of a `ColumnRef`. -/
variable (conv : List Node → Except Error ColumnNameDef)

/-- The last node of a qualified name must be a string node
(`Funcname[len(Funcname)-1].Node.(*pgquery.Node_String_)`, masking.go 589-593 and 624-628). -/
def lastStringNode (names : List Node) : Except Error String :=
  match names.getLast? with
  | none => .error .panic
  | some (.String_ sval) => .ok sval
  | some _ => .error .expectNodeString

mutual
/-- The type switch of `pgExtractFieldName` (masking.go 576-721) on a non-nil node. -/
def pgExtractFieldNameNode : Node → Except Error String
  | .ResTarget name val => if name ≠ "" then .ok name else pgExtractFieldName val
  | .ColumnRef fields =>
    match conv fields with
    | .error e => .error e
    | .ok columnRef => .ok columnRef.ColumnName
  | .FuncCall funcname _ _ _ => lastStringNode funcname
  | .XmlExpr op _ _ =>
    match op with
    | .IS_XMLCONCAT => .ok "xmlconcat"
    | .IS_XMLELEMENT => .ok "xmlelement"
    | .IS_XMLFOREST => .ok "xmlforest"
    | .IS_XMLPARSE => .ok "xmlparse"
    | .IS_XMLPI => .ok "xmlpi"
    | .IS_XMLROOT => .ok "xmlroot"
    | .IS_XMLSERIALIZE => .ok "xmlserialize"
    | .IS_DOCUMENT => .ok pgUnknownFieldName
    | .XML_EXPR_OP_UNDEFINED => .ok pgUnknownFieldName
  | .TypeCast arg typeName =>
    match pgExtractFieldName arg with
    | .error e => .error e
    | .ok columnName =>
      if columnName ≠ pgUnknownFieldName then .ok columnName
      else
        match typeName with
        | some typeName => lastStringNode typeName.Names
        | none => .ok pgUnknownFieldName
  | .AConst => .ok pgUnknownFieldName
  | .AExpr _ _ => .ok pgUnknownFieldName
  | .CaseExpr _ _ _ => .ok "case"
  | .AArrayExpr _ => .ok "array"
  | .NullTest _ => .ok pgUnknownFieldName
  | .XmlSerialize _ => .ok "xmlserialize"
  | .ParamRef => .ok pgUnknownFieldName
  | .BoolExpr _ => .ok pgUnknownFieldName
  | .SubLink .EXISTS_SUBLINK _ _ => .ok "exists"
  | .SubLink .ARRAY_SUBLINK _ _ => .ok "array"
  | .SubLink .EXPR_SUBLINK _ (some (.SelectStmt (.mk _ _ _ _ _ _ [target]))) =>
    pgExtractFieldNameNode target
  | .SubLink _ _ _ => .ok pgUnknownFieldName
  | .RowExpr _ => .ok "row"
  | .CoalesceExpr _ => .ok "coalesce"
  | .SetToDefault => .ok pgUnknownFieldName
  | .AIndirection _ => .ok pgUnknownFieldName
  | .CollateClause arg => pgExtractFieldName arg
  | .CurrentOfExpr => .ok pgUnknownFieldName
  | .SqlvalueFunction op =>
    match op with
    | .SVFOP_CURRENT_DATE => .ok "current_date"
    | .SVFOP_CURRENT_TIME | .SVFOP_CURRENT_TIME_N => .ok "current_time"
    | .SVFOP_CURRENT_TIMESTAMP | .SVFOP_CURRENT_TIMESTAMP_N => .ok "current_timestamp"
    | .SVFOP_LOCALTIME | .SVFOP_LOCALTIME_N => .ok "localtime"
    | .SVFOP_LOCALTIMESTAMP | .SVFOP_LOCALTIMESTAMP_N => .ok "localtimestamp"
    | .SVFOP_CURRENT_ROLE => .ok "current_role"
    | .SVFOP_CURRENT_USER => .ok "current_user"
    | .SVFOP_USER => .ok "user"
    | .SVFOP_SESSION_USER => .ok "session_user"
    | .SVFOP_CURRENT_CATALOG => .ok "current_catalog"
    | .SVFOP_CURRENT_SCHEMA => .ok "current_schema"
    | .SQLVALUE_FUNCTION_OP_UNDEFINED => .ok pgUnknownFieldName
  | .MinMaxExpr op _ =>
    match op with
    | .IS_GREATEST => .ok "greatest"
    | .IS_LEAST => .ok "least"
    | .MIN_MAX_OP_UNDEFINED => .ok pgUnknownFieldName
  | .BooleanTest _ => .ok pgUnknownFieldName
  | .GroupingFunc _ => .ok "grouping"
  | _ => .ok pgUnknownFieldName
/-- `pgExtractFieldName` (masking.go 572-721). -/
def pgExtractFieldName : Option Node → Except Error String
  | none => .ok pgUnknownFieldName
  | some node => pgExtractFieldNameNode node
end

/-! ## Loops of the evaluator

Each loop whose body calls back into the recursion is a function of the callee(s). -/

/-- The loop of `pgExtractColumnRefFromExpressionNodeList` (masking.go 875-887), from a
running `finalLevel`. -/
def nodeListLoop (level : SensitiveFieldExtractor → Option Node → Result MaskingLevel) :
    SensitiveFieldExtractor → MaskingLevel → List (Option Node) → Result MaskingLevel
  | extractor, finalLevel, [] => (.ok finalLevel, extractor)
  | extractor, finalLevel, node :: rest =>
    match level extractor node with
    | (.error e, extractor) => (.error e, extractor)
    | (.ok maskingLevel, extractor) =>
      let finalLevel := if cmpLess finalLevel maskingLevel then maskingLevel else finalLevel
      if finalLevel = MaxMaskingLevel then (.ok finalLevel, extractor)
      else nodeListLoop level extractor finalLevel rest

/-- The loop over the sub-select's fields in the `SubLink` case (masking.go 840-848). -/
def subLinkLoop : MaskingLevel → List FieldInfo → MaskingLevel
  | maskingLevel, [] => maskingLevel
  | maskingLevel, field :: rest =>
    let maskingLevel :=
      if cmpLess maskingLevel field.MaskingLevel then field.MaskingLevel else maskingLevel
    if maskingLevel = MaxMaskingLevel then maskingLevel
    else subLinkLoop maskingLevel rest

/-- The explicit column names of a CTE (masking.go 309-320 and 377-392): when the list is
non-empty it must have the arity of the field list and hold string nodes, and it renames
the fields positionally. -/
def applyAliascolnames (Aliascolnames : List Node) (fieldList : List FieldInfo) :
    Except Error (List FieldInfo) :=
  if Aliascolnames.length > 0 then
    if Aliascolnames.length ≠ fieldList.length then .error .cteColumnCount
    else
      match stringNodeList Aliascolnames with
      | .error e => .error e
      | .ok nameList =>
        .ok (List.zipWith (fun field name => { field with Name := name }) fieldList nameList)
  else .ok fieldList

/-- The `TableSchema` built from a CTE's fields (masking.go 322-328 and 393-403). -/
def cteTableSchema (Ctename : String) (fieldList : List FieldInfo) : TableSchema :=
  { Name := Ctename
    ColumnList := fieldList.map (fun field =>
      { Name := field.Name, MaskingLevel := field.MaskingLevel }) }

/-- The loop over `WithClause.Ctes` (masking.go 414-430). -/
def withClauseLoop
    (recursiveCTE nonRecursiveCTE :
      SensitiveFieldExtractor → String → List Node → Option Node → Result TableSchema)
    (Recursive : Bool) : SensitiveFieldExtractor → List Node → Result Unit
  | extractor, [] => (.ok (), extractor)
  | extractor, cte :: rest =>
    match cte with
    | .CommonTableExpr ctename aliascolnames ctequery =>
      match (if Recursive then recursiveCTE extractor ctename aliascolnames ctequery
             else nonRecursiveCTE extractor ctename aliascolnames ctequery) with
      | (.error e, extractor) => (.error e, extractor)
      | (.ok cteTable, extractor) =>
        withClauseLoop recursiveCTE nonRecursiveCTE Recursive
          { extractor with cteOuterSchemaInfo := extractor.cteOuterSchemaInfo ++ [cteTable] } rest
    | _ => (.error .expectCommonTableExpr, extractor)

/-- The loop over the items of one VALUES row (masking.go 442-449). -/
def valuesRowLoop (level : SensitiveFieldExtractor → Option Node → Result MaskingLevel) :
    SensitiveFieldExtractor → List MaskingLevel → List Node → Result (List MaskingLevel)
  | extractor, maskingLevelList, [] => (.ok maskingLevelList, extractor)
  | extractor, maskingLevelList, item :: rest =>
    match level extractor (some item) with
    | (.error e, extractor) => (.error e, extractor)
    | (.ok maskingLevel, extractor) =>
      valuesRowLoop level extractor (maskingLevelList ++ [maskingLevel]) rest

/-- The loop over `ValuesLists` (masking.go 436-458). -/
def valuesLoop (level : SensitiveFieldExtractor → Option Node → Result MaskingLevel) :
    SensitiveFieldExtractor → List FieldInfo → List Node → Result (List FieldInfo)
  | extractor, result, [] => (.ok result, extractor)
  | extractor, result, row :: rest =>
    match row with
    | .List items =>
      match valuesRowLoop level extractor [] items with
      | (.error e, extractor) => (.error e, extractor)
      | (.ok maskingLevelList, extractor) =>
        let result :=
          if result.length = 0 then
            maskingLevelList.enum.map (fun (i, item) =>
              ({ Name := "column" ++ toString (i + 1), MaskingLevel := item } : FieldInfo))
          else result
        valuesLoop level extractor result rest
    | _ => (.error .expectNodeList, extractor)

/-- The loop over `FromClause` (masking.go 500-506). -/
def fromClauseLoop (extractNode : SensitiveFieldExtractor → Option Node → Result (List FieldInfo)) :
    SensitiveFieldExtractor → List FieldInfo → List Node → Result (List FieldInfo)
  | extractor, fromFieldList, [] => (.ok fromFieldList, extractor)
  | extractor, _, item :: rest =>
    match extractNode extractor (some item) with
    | (.error e, extractor) => (.error e, extractor)
    | (.ok fromFieldList, extractor) =>
      fromClauseLoop extractNode { extractor with fromFieldList := fromFieldList }
        fromFieldList rest

/-- The loop over `TargetList` (masking.go 514-567). -/
def targetListLoop (level : SensitiveFieldExtractor → Option Node → Result MaskingLevel)
    (fromFieldList : List FieldInfo) :
    SensitiveFieldExtractor → List FieldInfo → List Node → Result (List FieldInfo)
  | extractor, result, [] => (.ok result, extractor)
  | extractor, result, field :: rest =>
    match field with
    | .ResTarget name val =>
      match val with
      | none => (.error .panic, extractor)
      | some (.ColumnRef fields) =>
        match conv fields with
        | .error e => (.error e, extractor)
        | .ok columnRef =>
          if columnRef.ColumnName = "*" then
            if columnRef.Table.Name = "" then
              targetListLoop level fromFieldList extractor (result ++ fromFieldList) rest
            else
              let (schemaName, tableName, _) := extractSchemaTableColumnName columnRef
              targetListLoop level fromFieldList extractor
                (result ++ fromFieldList.filter (fun fromField =>
                  fromField.Schema = schemaName ∧ fromField.Table = tableName)) rest
          else
            match level extractor val with
            | (.error e, extractor) => (.error e, extractor)
            | (.ok maskingLevel, extractor) =>
              let columnName := if name ≠ "" then name else columnRef.ColumnName
              targetListLoop level fromFieldList extractor
                (result ++ [{ Name := columnName, MaskingLevel := maskingLevel }]) rest
      | some _ =>
        match level extractor val with
        | (.error e, extractor) => (.error e, extractor)
        | (.ok maskingLevel, extractor) =>
          match (if name = "" then pgExtractFieldName conv val else .ok name) with
          | .error e => (.error e, extractor)
          | .ok fieldName =>
            targetListLoop level fromFieldList extractor
              (result ++ [{ Name := fieldName, MaskingLevel := maskingLevel }]) rest
    | _ => (.error .expectNodeResTarget, extractor)

/-- The loop body of the set-operation case (masking.go 476-489). -/
def setOpFields (leftField rightField : List FieldInfo) : List FieldInfo :=
  List.zipWith (fun field rField =>
    let finalLevel := DefaultMaskingLevel
    let finalLevel := if cmpLess finalLevel field.MaskingLevel then field.MaskingLevel else finalLevel
    let finalLevel := if cmpLess finalLevel rField.MaskingLevel then rField.MaskingLevel else finalLevel
    ({ Name := field.Name, Table := field.Table, MaskingLevel := finalLevel } : FieldInfo))
    leftField rightField

/-- `pgExtractSelect` after the WITH clause (masking.go 433-569), given the callees. -/
def pgExtractSelectBody
    (extractSelect : SensitiveFieldExtractor → SelectStmt → Result (List FieldInfo))
    (extractNode : SensitiveFieldExtractor → Option Node → Result (List FieldInfo))
    (level : SensitiveFieldExtractor → Option Node → Result MaskingLevel)
    (extractor : SensitiveFieldExtractor) (node : SelectStmt) : Result (List FieldInfo) :=
  if node.ValuesLists.length > 0 then
    valuesLoop level extractor [] node.ValuesLists
  else
    match node.Op with
    | .SETOP_UNION | .SETOP_INTERSECT | .SETOP_EXCEPT =>
      match node.Larg with
      | none => (.error .panic, extractor)
      | some larg =>
        match extractSelect extractor larg with
        | (.error e, extractor) => (.error e, extractor)
        | (.ok leftField, extractor) =>
          match node.Rarg with
          | none => (.error .panic, extractor)
          | some rarg =>
            match extractSelect extractor rarg with
            | (.error e, extractor) => (.error e, extractor)
            | (.ok rightField, extractor) =>
              if leftField.length ≠ rightField.length then (.error .setOpColumnCount, extractor)
              else (.ok (setOpFields leftField rightField), extractor)
    | .SETOP_NONE =>
      match fromClauseLoop extractNode extractor [] node.FromClause with
      | (.error e, extractor) => (.error e, extractor)
      | (.ok fromFieldList, extractor) =>
        let r := targetListLoop conv level fromFieldList extractor [] node.TargetList
        (r.1, { r.2 with fromFieldList := [] })
    | .SET_OPERATION_UNDEFINED => (.error .unknownSelectOp, extractor)

/-- One pass of the fixpoint loop over the columns (masking.go 353-359): the raised
`cteInfo` and `changed`. -/
def raiseColumns (cteInfo : TableSchema) (fieldList : List FieldInfo) : TableSchema × Bool :=
  ({ cteInfo with
      ColumnList := List.zipWith (fun column field =>
        if cmpLess column.MaskingLevel field.MaskingLevel then
          { column with MaskingLevel := field.MaskingLevel }
        else column) cteInfo.ColumnList fieldList },
   (List.zip cteInfo.ColumnList fieldList).any (fun (column, field) =>
      cmpLess column.MaskingLevel field.MaskingLevel))

/-! ## The evaluator -/

mutual
/-- `pgExtractNode` (masking.go 81-97). -/
def pgExtractNode : Nat → SensitiveFieldExtractor → Option Node → Result (List FieldInfo)
  | 0, extractor, _ => (.error .outOfFuel, extractor)
  | _ + 1, extractor, none => (.ok [], extractor)
  | fuel + 1, extractor, some node =>
    match node with
    | .SelectStmt selectStmt => pgExtractSelect fuel extractor selectStmt
    | .RangeVar schemaname relname aliasNode =>
      pgExtractRangeVar extractor schemaname relname aliasNode
    | .RangeSubselect subquery aliasNode =>
      pgExtractRangeSubselect fuel extractor subquery aliasNode
    | .JoinExpr isNatural larg rarg usingClause =>
      pgExtractJoin fuel extractor isNatural larg rarg usingClause
    | _ => (.ok [], extractor)
/-- `pgExtractJoin` (masking.go 99-109). -/
def pgExtractJoin : Nat → SensitiveFieldExtractor → Bool → Option Node → Option Node →
    List Node → Result (List FieldInfo)
  | 0, extractor, _, _, _, _ => (.error .outOfFuel, extractor)
  | fuel + 1, extractor, isNatural, larg, rarg, usingClause =>
    match pgExtractNode fuel extractor larg with
    | (.error e, extractor) => (.error e, extractor)
    | (.ok leftFieldInfo, extractor) =>
      match pgExtractNode fuel extractor rarg with
      | (.error e, extractor) => (.error e, extractor)
      | (.ok rightFieldInfo, extractor) =>
        (pgMergeJoinField isNatural usingClause leftFieldInfo rightFieldInfo, extractor)
/-- `pgExtractRangeSubselect` (masking.go 179-208). -/
def pgExtractRangeSubselect : Nat → SensitiveFieldExtractor → Option Node → Option Alias →
    Result (List FieldInfo)
  | 0, extractor, _, _ => (.error .outOfFuel, extractor)
  | fuel + 1, extractor, subquery, aliasNode =>
    match pgExtractNode fuel extractor subquery with
    | (.error e, extractor) => (.error e, extractor)
    | (.ok fieldList, extractor) =>
      match aliasNode with
      | some aliasNode =>
        match pgExtractAlias (some aliasNode) with
        | .error e => (.error e, extractor)
        | .ok (aliasName, columnNameList) =>
          if columnNameList.length ≠ 0 ∧ columnNameList.length ≠ fieldList.length then
            (.error (.expectEqualLength columnNameList.length fieldList.length), extractor)
          else
            (.ok (aliasFields aliasName columnNameList FieldInfo.Name FieldInfo.MaskingLevel
              fieldList), extractor)
      | none => (.ok fieldList, extractor)
/-- `pgExtractRecursiveCTE` (masking.go 297-370) up to the fixpoint loop; the deferred pop
(341-343) is applied to the state the loop returns. -/
def pgExtractRecursiveCTE : Nat → SensitiveFieldExtractor → String → List Node → Option Node →
    Result TableSchema
  | 0, extractor, _, _, _ => (.error .outOfFuel, extractor)
  | fuel + 1, extractor, ctename, aliascolnames, ctequery =>
    match ctequery with
    | none => (.error .panic, extractor)
    | some (.SelectStmt selectNode) =>
      if selectNode.Op ≠ .SETOP_UNION then
        pgExtractNonRecursiveCTE fuel extractor ctename aliascolnames ctequery
      else
        match selectNode.Larg with
        | none => (.error .panic, extractor)
        | some larg =>
          match pgExtractSelect fuel extractor larg with
          | (.error e, extractor) => (.error e, extractor)
          | (.ok initialField, extractor) =>
            match applyAliascolnames aliascolnames initialField with
            | .error e => (.error e, extractor)
            | .ok initialField =>
              let cteInfo := cteTableSchema ctename initialField
              let r := pgExtractRecursiveCTELoop fuel
                { extractor with
                    cteOuterSchemaInfo := extractor.cteOuterSchemaInfo ++ [cteInfo] }
                selectNode.Rarg cteInfo
              (r.1, { r.2 with cteOuterSchemaInfo := r.2.cteOuterSchemaInfo.dropLast })
    | some _ => pgExtractNonRecursiveCTE fuel extractor ctename aliascolnames ctequery
/-- The fixpoint loop `for { ... }` of `pgExtractRecursiveCTE` (masking.go 344-366), from the
current `cteInfo`; one unit of fuel per iteration. -/
def pgExtractRecursiveCTELoop : Nat → SensitiveFieldExtractor → Option SelectStmt →
    TableSchema → Result TableSchema
  | 0, extractor, _, _ => (.error .outOfFuel, extractor)
  | fuel + 1, extractor, rarg, cteInfo =>
    match rarg with
    | none => (.error .panic, extractor)
    | some rargNode =>
      match pgExtractSelect fuel extractor rargNode with
      | (.error e, extractor) => (.error e, extractor)
      | (.ok fieldList, extractor) =>
        if fieldList.length ≠ cteInfo.ColumnList.length then (.error .cteColumnCount, extractor)
        else
          let (cteInfo, changed) := raiseColumns cteInfo fieldList
          if !changed then (.ok cteInfo, extractor)
          else
            pgExtractRecursiveCTELoop fuel
              { extractor with
                  cteOuterSchemaInfo :=
                    extractor.cteOuterSchemaInfo.set (extractor.cteOuterSchemaInfo.length - 1)
                      cteInfo }
              rarg cteInfo
/-- `pgExtractNonRecursiveCTE` (masking.go 372-406). -/
def pgExtractNonRecursiveCTE : Nat → SensitiveFieldExtractor → String → List Node →
    Option Node → Result TableSchema
  | 0, extractor, _, _, _ => (.error .outOfFuel, extractor)
  | fuel + 1, extractor, ctename, aliascolnames, ctequery =>
    match pgExtractNode fuel extractor ctequery with
    | (.error e, extractor) => (.error e, extractor)
    | (.ok fieldList, extractor) =>
      match applyAliascolnames aliascolnames fieldList with
      | .error e => (.error e, extractor)
      | .ok fieldList => (.ok (cteTableSchema ctename fieldList), extractor)
/-- `pgExtractSelect` (masking.go 408-570): the WITH clause with its deferred truncation of
the CTE stack (409-431), then the body. -/
def pgExtractSelect : Nat → SensitiveFieldExtractor → SelectStmt → Result (List FieldInfo)
  | 0, extractor, _ => (.error .outOfFuel, extractor)
  | fuel + 1, extractor, node =>
    match node.WithClause with
    | none =>
      pgExtractSelectBody conv (pgExtractSelect fuel) (pgExtractNode fuel)
        (pgExtractColumnRefFromExpressionNode fuel) extractor node
    | some withClause =>
      let cteOuterLength := extractor.cteOuterSchemaInfo.length
      match withClauseLoop (pgExtractRecursiveCTE fuel) (pgExtractNonRecursiveCTE fuel)
          withClause.Recursive extractor withClause.Ctes with
      | (.error e, extractor) =>
        (.error e, { extractor with
          cteOuterSchemaInfo := extractor.cteOuterSchemaInfo.take cteOuterLength })
      | (.ok (), extractor) =>
        let r := pgExtractSelectBody conv (pgExtractSelect fuel) (pgExtractNode fuel)
          (pgExtractColumnRefFromExpressionNode fuel) extractor node
        (r.1, { r.2 with cteOuterSchemaInfo := r.2.cteOuterSchemaInfo.take cteOuterLength })
/-- `pgExtractColumnRefFromExpressionNode` (masking.go 763-871). -/
def pgExtractColumnRefFromExpressionNode : Nat → SensitiveFieldExtractor → Option Node →
    Result MaskingLevel
  | 0, extractor, _ => (.error .outOfFuel, extractor)
  | _ + 1, extractor, none => (.ok DefaultMaskingLevel, extractor)
  | fuel + 1, extractor, some node =>
    match node with
    | .List items =>
      pgExtractColumnRefFromExpressionNodeList fuel extractor (items.map some)
    | .FuncCall _ args aggOrder aggFilter =>
      pgExtractColumnRefFromExpressionNodeList fuel extractor
        (args.map some ++ aggOrder.map some ++ [aggFilter])
    | .SortBy arg => pgExtractColumnRefFromExpressionNode fuel extractor arg
    | .XmlExpr _ args namedArgs =>
      pgExtractColumnRefFromExpressionNodeList fuel extractor
        (args.map some ++ namedArgs.map some)
    | .ResTarget _ val => pgExtractColumnRefFromExpressionNode fuel extractor val
    | .TypeCast arg _ => pgExtractColumnRefFromExpressionNode fuel extractor arg
    | .AConst => (.ok DefaultMaskingLevel, extractor)
    | .ColumnRef fields =>
      match conv fields with
      | .error e => (.error e, extractor)
      | .ok columnNameDef =>
        let (schemaName, tableName, fieldName) := extractSchemaTableColumnName columnNameDef
        (.ok (pgCheckFieldMaskingLevel extractor schemaName tableName fieldName), extractor)
    | .AExpr lexpr rexpr =>
      pgExtractColumnRefFromExpressionNodeList fuel extractor [lexpr, rexpr]
    | .CaseExpr arg args defresult =>
      pgExtractColumnRefFromExpressionNodeList fuel extractor
        ([arg] ++ args.map some ++ [defresult])
    | .CaseWhen expr result =>
      pgExtractColumnRefFromExpressionNodeList fuel extractor [expr, result]
    | .AArrayExpr elements =>
      pgExtractColumnRefFromExpressionNodeList fuel extractor (elements.map some)
    | .NullTest arg => pgExtractColumnRefFromExpressionNode fuel extractor arg
    | .XmlSerialize expr => pgExtractColumnRefFromExpressionNode fuel extractor expr
    | .ParamRef => (.ok DefaultMaskingLevel, extractor)
    | .BoolExpr args =>
      pgExtractColumnRefFromExpressionNodeList fuel extractor (args.map some)
    | .SubLink _ testexpr subselect =>
      match pgExtractColumnRefFromExpressionNode fuel extractor testexpr with
      | (.error e, extractor) => (.error e, extractor)
      | (.ok maskingLevel, extractor) =>
        let subqueryExtractor : SensitiveFieldExtractor :=
          { SchemaInfo := extractor.SchemaInfo
            outerSchemaInfo := extractor.outerSchemaInfo ++ extractor.fromFieldList }
        match pgExtractNode fuel subqueryExtractor subselect with
        | (.error e, _) => (.error e, extractor)
        | (.ok fieldList, _) => (.ok (subLinkLoop maskingLevel fieldList), extractor)
    | .RowExpr args =>
      pgExtractColumnRefFromExpressionNodeList fuel extractor (args.map some)
    | .CoalesceExpr args =>
      pgExtractColumnRefFromExpressionNodeList fuel extractor (args.map some)
    | .SetToDefault => (.ok DefaultMaskingLevel, extractor)
    | .AIndirection arg => pgExtractColumnRefFromExpressionNode fuel extractor arg
    | .CollateClause arg => pgExtractColumnRefFromExpressionNode fuel extractor arg
    | .CurrentOfExpr => (.ok DefaultMaskingLevel, extractor)
    | .SqlvalueFunction _ => (.ok DefaultMaskingLevel, extractor)
    | .MinMaxExpr _ args =>
      pgExtractColumnRefFromExpressionNodeList fuel extractor (args.map some)
    | .BooleanTest arg => pgExtractColumnRefFromExpressionNode fuel extractor arg
    | .GroupingFunc args =>
      pgExtractColumnRefFromExpressionNodeList fuel extractor (args.map some)
    | _ => (.ok DefaultMaskingLevel, extractor)
/-- `pgExtractColumnRefFromExpressionNodeList` (masking.go 873-888). -/
def pgExtractColumnRefFromExpressionNodeList : Nat → SensitiveFieldExtractor →
    List (Option Node) → Result MaskingLevel
  | 0, extractor, _ => (.error .outOfFuel, extractor)
  | fuel + 1, extractor, list =>
    nodeListLoop (pgExtractColumnRefFromExpressionNode fuel) extractor DefaultMaskingLevel list
end

end Extractor

/-! ## Entry point -/

/-- The test of masking.go 62-64 on the text of an error: the first submatch `content[1]` of
the regular expression `^Table "(.*)\.(.*)" not found$`, when the text matches. Only the
text `Table %q not found` of `tableNotFound` starts with `Table`; it matches when the quoted
table name holds a dot, and the greedy first group is then what stands before the last dot.
The name is taken as `%q` prints it when it holds no quote, backslash or non-printable
character; for any other name the first group holds an escape and is no system schema
either way. -/
def tableNotFoundSubmatch : Error → Option String
  | .tableNotFound tableName =>
    if '.' ∈ tableName.data then
      some (String.mk (tableName.data.reverse.dropWhile (fun c => c ≠ '.')).tail.reverse)
    else none
  | _ => none

section EntryPoint

/- The parser `pgquery.Parse` is outside the source files: the entry point is embedded for
an arbitrary parser, which returns an error or the `Stmt` pointer of each parsed statement. -/
variable (parse : String → Except Error (List (Option Node)))
variable (conv : List Node → Except Error ColumnNameDef)

/-- `ExtractSensitiveField` (masking.go 41-79). The result `none` is Go's `nil, nil`. -/
def ExtractSensitiveField (fuel : Nat) (extractor : SensitiveFieldExtractor)
    (statement : String) : Result (Option (List SensitiveField)) :=
  match parse statement with
  | .error e => (.error e, extractor)
  | .ok stmts =>
    if stmts.length ≠ 1 then (.error (.expectOneStatement stmts.length), extractor)
    else
      match stmts.head? with
      | none => (.error .panic, extractor)
      | some none => (.error .panic, extractor)
      | some (some node) =>
        match node with
        | .SelectStmt _ =>
          match pgExtractNode conv fuel extractor (some node) with
          | (.error e, extractor) =>
            match tableNotFoundSubmatch e with
            | some schema =>
              if isSystemSchema schema then (.ok none, extractor) else (.error e, extractor)
            | none => (.error e, extractor)
          | (.ok fieldList, extractor) =>
            (.ok (some (fieldList.map (fun field =>
              ({ Name := field.Name, MaskingLevel := field.MaskingLevel } : SensitiveField)))),
             extractor)
        | .ExplainStmt => (.ok none, extractor)
        | _ => (.error .expectQueryStatement, extractor)

end EntryPoint

/-! ## Notions the properties are stated with -/

/-- The field of a given name in a field list: the last one when several share the name. -/
def sameNamed (fields : List FieldInfo) (name : String) : Option FieldInfo :=
  fields.reverse.find? (fun field => field.Name = name)

mutual
/-- The `Fields` of the `ColumnRef` descendants of an expression node, in order, through the
child expressions of §4.4; the sub-select of a `SubLink` is a scope of its own. -/
def exprColumnRefs : Node → List (List Node)
  | .ColumnRef fields => [fields]
  | .List items => exprColumnRefsList items
  | .FuncCall _ args aggOrder aggFilter =>
    exprColumnRefsList args ++ exprColumnRefsList aggOrder ++ exprColumnRefsOpt aggFilter
  | .SortBy arg => exprColumnRefsOpt arg
  | .XmlExpr _ args namedArgs => exprColumnRefsList args ++ exprColumnRefsList namedArgs
  | .ResTarget _ val => exprColumnRefsOpt val
  | .TypeCast arg _ => exprColumnRefsOpt arg
  | .AExpr lexpr rexpr => exprColumnRefsOpt lexpr ++ exprColumnRefsOpt rexpr
  | .CaseExpr arg args defresult =>
    exprColumnRefsOpt arg ++ exprColumnRefsList args ++ exprColumnRefsOpt defresult
  | .CaseWhen expr result => exprColumnRefsOpt expr ++ exprColumnRefsOpt result
  | .AArrayExpr elements => exprColumnRefsList elements
  | .NullTest arg => exprColumnRefsOpt arg
  | .XmlSerialize expr => exprColumnRefsOpt expr
  | .BoolExpr args => exprColumnRefsList args
  | .SubLink _ testexpr _ => exprColumnRefsOpt testexpr
  | .RowExpr args => exprColumnRefsList args
  | .CoalesceExpr args => exprColumnRefsList args
  | .AIndirection arg => exprColumnRefsOpt arg
  | .CollateClause arg => exprColumnRefsOpt arg
  | .MinMaxExpr _ args => exprColumnRefsList args
  | .BooleanTest arg => exprColumnRefsOpt arg
  | .GroupingFunc args => exprColumnRefsList args
  | _ => []
/-- The `ColumnRef` descendants of a child pointer that may be nil. -/
def exprColumnRefsOpt : Option Node → List (List Node)
  | none => []
  | some node => exprColumnRefs node
/-- The `ColumnRef` descendants of a node list. -/
def exprColumnRefsList : List Node → List (List Node)
  | [] => []
  | node :: rest => exprColumnRefs node ++ exprColumnRefsList rest
end

mutual
/-- Whether an expression node is, or contains among its child expressions, a `SubLink`. -/
def containsSubLink : Node → Bool
  | .SubLink _ _ _ => true
  | .List items => containsSubLinkList items
  | .FuncCall _ args aggOrder aggFilter =>
    containsSubLinkList args || containsSubLinkList aggOrder || containsSubLinkOpt aggFilter
  | .SortBy arg => containsSubLinkOpt arg
  | .XmlExpr _ args namedArgs => containsSubLinkList args || containsSubLinkList namedArgs
  | .ResTarget _ val => containsSubLinkOpt val
  | .TypeCast arg _ => containsSubLinkOpt arg
  | .AExpr lexpr rexpr => containsSubLinkOpt lexpr || containsSubLinkOpt rexpr
  | .CaseExpr arg args defresult =>
    containsSubLinkOpt arg || containsSubLinkList args || containsSubLinkOpt defresult
  | .CaseWhen expr result => containsSubLinkOpt expr || containsSubLinkOpt result
  | .AArrayExpr elements => containsSubLinkList elements
  | .NullTest arg => containsSubLinkOpt arg
  | .XmlSerialize expr => containsSubLinkOpt expr
  | .BoolExpr args => containsSubLinkList args
  | .RowExpr args => containsSubLinkList args
  | .CoalesceExpr args => containsSubLinkList args
  | .AIndirection arg => containsSubLinkOpt arg
  | .CollateClause arg => containsSubLinkOpt arg
  | .MinMaxExpr _ args => containsSubLinkList args
  | .BooleanTest arg => containsSubLinkOpt arg
  | .GroupingFunc args => containsSubLinkList args
  | _ => false
/-- `containsSubLink` of a child pointer that may be nil. -/
def containsSubLinkOpt : Option Node → Bool
  | none => false
  | some node => containsSubLink node
/-- `containsSubLink` of some node of a list. -/
def containsSubLinkList : List Node → Bool
  | [] => false
  | node :: rest => containsSubLink node || containsSubLinkList rest
end

/-- The Name Resolver levels of a list of column references: `pgCheckFieldMaskingLevel` of
each one that decomposes into (schema, table, column). -/
def resolvedLevels (conv : List Node → Except Error ColumnNameDef)
    (extractor : SensitiveFieldExtractor) (refs : List (List Node)) : List MaskingLevel :=
  refs.filterMap (fun fields =>
    match conv fields with
    | .ok columnNameDef =>
      some (pgCheckFieldMaskingLevel extractor columnNameDef.Table.Schema
        columnNameDef.Table.Name columnNameDef.ColumnName)
    | .error _ => none)

/-- The maximum of a list of levels, `DefaultMaskingLevel` when there are none. -/
def maxLevel : List MaskingLevel → MaskingLevel
  | [] => DefaultMaskingLevel
  | level :: rest => rest.foldl max level


/-- The `ColumnRef` descendants of a list of child pointers. -/
def exprColumnRefsOpts : List (Option Node) → List (List Node)
  | [] => []
  | node :: rest => exprColumnRefsOpt node ++ exprColumnRefsOpts rest

/-- `containsSubLink` of some pointer of a list. -/
def containsSubLinkOpts : List (Option Node) → Bool
  | [] => false
  | node :: rest => containsSubLinkOpt node || containsSubLinkOpts rest


/-- What the evaluator returns for an expression, against its column references. -/
def LevelSpec (conv : List Node → Except Error ColumnNameDef)
    (ext : SensitiveFieldExtractor) (refs : List (List Node)) (v : MaskingLevel) : Prop :=
  max DefaultMaskingLevel v = (resolvedLevels conv ext refs).foldl max DefaultMaskingLevel ∧
  (v = DefaultMaskingLevel ∨ v ∈ resolvedLevels conv ext refs)


section SelectNotions

variable (conv : List Node → Except Error ColumnNameDef)

/-- The WITH clause of `pgExtractSelect` (masking.go 409-431), run from the state at entry:
nothing when the SELECT has none. -/
def withClausePhase (fuel : Nat) (extractor : SensitiveFieldExtractor) (node : SelectStmt) :
    Result Unit :=
  match node.WithClause with
  | none => (.ok (), extractor)
  | some withClause =>
    withClauseLoop (pgExtractRecursiveCTE conv fuel) (pgExtractNonRecursiveCTE conv fuel)
      withClause.Recursive extractor withClause.Ctes

/-- The deferred truncation of the CTE stack (masking.go 410-413), registered only when the
SELECT has a WITH clause: `entry` is the state at entry, `st` the state at return. -/
def withClauseDefer (entry : SensitiveFieldExtractor) (node : SelectStmt)
    (st : SensitiveFieldExtractor) : SensitiveFieldExtractor :=
  match node.WithClause with
  | none => st
  | some _ =>
    { st with cteOuterSchemaInfo := st.cteOuterSchemaInfo.take entry.cteOuterSchemaInfo.length }

/-- Whether a target expression is a `*` column reference. -/
def isStarTarget (val : Node) : Bool :=
  match val with
  | .ColumnRef fields =>
    match conv fields with
    | .ok columnRef => columnRef.ColumnName = "*"
    | .error _ => false
  | _ => false

/-- The name of a target that is not a star: its AS alias when non-empty, otherwise the
column-name part of a `ColumnRef` and the derived name (§4.7.1) of any other expression. -/
def targetFieldName (name : String) (val : Node) : Except Error String :=
  if name ≠ "" then .ok name
  else
    match val with
    | .ColumnRef fields =>
      match conv fields with
      | .ok columnRef => .ok columnRef.ColumnName
      | .error e => .error e
    | _ => pgExtractFieldName conv (some val)

/-- What a `*` target expands to (masking.go 525-536): the whole FROM list when the star has
no table qualifier, otherwise its entries of that schema and table. -/
def starFields (fromFieldList : List FieldInfo) (val : Node) : List FieldInfo :=
  match val with
  | .ColumnRef fields =>
    match conv fields with
    | .ok columnRef =>
      if columnRef.Table.Name = "" then fromFieldList
      else fromFieldList.filter (fun fromField =>
        fromField.Schema = columnRef.Table.Schema ∧ fromField.Table = columnRef.Table.Name)
    | .error _ => []
  | _ => []

/-- What the target loop emits for one target of a successful run: the target is
`val AS name`; a `*` column reference emits its expansion, and any other expression emits
the single field with the target's name and the level of the expression in the state
`ext`, which the evaluation leaves unchanged. -/
def EmitsTarget (level : SensitiveFieldExtractor → Option Node → Result MaskingLevel)
    (fromFieldList : List FieldInfo) (ext : SensitiveFieldExtractor) (target : Node)
    (fields : List FieldInfo) : Prop :=
  ∃ name val, target = .ResTarget name (some val) ∧
    ((isStarTarget conv val = true ∧ fields = starFields conv fromFieldList val) ∨
     (isStarTarget conv val = false ∧
      ∃ maskingLevel fieldName,
        level ext (some val) = (.ok maskingLevel, ext) ∧
        targetFieldName conv name val = .ok fieldName ∧
        fields = [{ Name := fieldName, MaskingLevel := maskingLevel }]))

end SelectNotions

/-- Whether the kind of a node is one of those the name-derivation table of §4.7.1 lists:
ColumnRef, FuncCall, TypeCast, XmlExpr, CaseExpr, ArrayExpr, CoalesceExpr, MinMaxExpr,
GroupingFunc, XmlSerialize, SubLink, SqlvalueFunction, CollateClause. -/
def inNameDerivationTable : Node → Bool
  | .ColumnRef _ => true
  | .FuncCall _ _ _ _ => true
  | .TypeCast _ _ => true
  | .XmlExpr _ _ _ => true
  | .CaseExpr _ _ _ => true
  | .AArrayExpr _ => true
  | .CoalesceExpr _ => true
  | .MinMaxExpr _ _ => true
  | .GroupingFunc _ => true
  | .XmlSerialize _ => true
  | .SubLink _ _ _ => true
  | .SqlvalueFunction _ => true
  | .CollateClause _ => true
  | _ => false

/-- Two extractor states with the same catalog, outer scope and CTE stack: they differ at
most in the FROM list. -/
def SameScope (a b : SensitiveFieldExtractor) : Prop :=
  a.SchemaInfo = b.SchemaInfo ∧ a.outerSchemaInfo = b.outerSchemaInfo ∧
  a.cteOuterSchemaInfo = b.cteOuterSchemaInfo

instance (a b : SensitiveFieldExtractor) : Decidable (SameScope a b) := by
  unfold SameScope
  infer_instance

/-- The FROM list of `b` is the one of `a`, or empty. -/
def FromKept (a b : SensitiveFieldExtractor) : Prop :=
  b.fromFieldList = a.fromFieldList ∨ b.fromFieldList = []

/-- A method's return, when it is a success, left the FROM list as it was or empty. -/
def ResultFromKept {α : Type} (entry : SensitiveFieldExtractor) (r : Result α) : Prop :=
  match r with
  | (.ok _, extractor) => FromKept entry extractor
  | (.error _, _) => True

instance (a b : SensitiveFieldExtractor) : Decidable (FromKept a b) := by
  unfold FromKept
  infer_instance

instance {α : Type} (entry : SensitiveFieldExtractor) (r : Result α) :
    Decidable (ResultFromKept entry r) := by
  unfold ResultFromKept
  split <;> infer_instance

/-- The fixpoint loop of `pgExtractRecursiveCTE` (masking.go 344-366) once more, returning
also the number of times it evaluated the recursive arm; `arm fuel` is the evaluation of the
arm (`extractor.pgExtractSelect(selectNode.SelectStmt.Rarg)`, line 345) with the fuel the
embedding has left for it. -/
def pgExtractRecursiveCTELoopCount
    (arm : Nat → SensitiveFieldExtractor → Result (List FieldInfo)) :
    Nat → SensitiveFieldExtractor → TableSchema → Result TableSchema × Nat
  | 0, extractor, _ => ((.error .outOfFuel, extractor), 0)
  | fuel + 1, extractor, cteInfo =>
    match arm fuel extractor with
    | (.error e, extractor) => ((.error e, extractor), 1)
    | (.ok fieldList, extractor) =>
      if fieldList.length ≠ cteInfo.ColumnList.length then
        ((.error .cteColumnCount, extractor), 1)
      else
        let (cteInfo, changed) := raiseColumns cteInfo fieldList
        if !changed then ((.ok cteInfo, extractor), 1)
        else
          let r := pgExtractRecursiveCTELoopCount arm fuel
            { extractor with
                cteOuterSchemaInfo :=
                  extractor.cteOuterSchemaInfo.set (extractor.cteOuterSchemaInfo.length - 1)
                    cteInfo }
            cteInfo
          (r.1, r.2 + 1)

/-- The sum of the integer values of the levels of a column list. -/
def levelSum (columns : List ColumnInfo) : Nat :=
  (columns.map (fun column => column.MaskingLevel.toNat)).sum

/-- No field of the list has the level MASKING_LEVEL_UNSPECIFIED. -/
def FieldsSpecified (fields : List FieldInfo) : Prop :=
  ∀ field ∈ fields, field.MaskingLevel ≠ .MASKING_LEVEL_UNSPECIFIED

/-- No column of the table has the level MASKING_LEVEL_UNSPECIFIED. -/
def TableSpecified (table : TableSchema) : Prop :=
  ∀ column ∈ table.ColumnList, column.MaskingLevel ≠ .MASKING_LEVEL_UNSPECIFIED

/-- No column of the catalog has the level MASKING_LEVEL_UNSPECIFIED. -/
def SchemaInfoSpecified (info : SensitiveSchemaInfo) : Prop :=
  ∀ database ∈ info.DatabaseList, ∀ schema ∈ database.SchemaList,
    ∀ table ∈ schema.TableList, TableSpecified table

/-- No level held by the extractor (catalog, outer scope, CTE stack, FROM list) is
MASKING_LEVEL_UNSPECIFIED. -/
def ExtractorSpecified (extractor : SensitiveFieldExtractor) : Prop :=
  SchemaInfoSpecified extractor.SchemaInfo ∧ FieldsSpecified extractor.outerSchemaInfo ∧
  (∀ table ∈ extractor.cteOuterSchemaInfo, TableSpecified table) ∧
  FieldsSpecified extractor.fromFieldList

/-- A method's return, when it is a success: the extractor holds no unspecified level and
the result satisfies `Q`. -/
def ResultSpecified {α : Type} (Q : α → Prop) (r : Result α) : Prop :=
  match r with
  | (.ok v, extractor) => ExtractorSpecified extractor ∧ Q v
  | (.error _, _) => True

instance (fields : List FieldInfo) : Decidable (FieldsSpecified fields) := by
  unfold FieldsSpecified
  infer_instance

instance (table : TableSchema) : Decidable (TableSpecified table) := by
  unfold TableSpecified
  infer_instance

instance (info : SensitiveSchemaInfo) : Decidable (SchemaInfoSpecified info) := by
  unfold SchemaInfoSpecified
  infer_instance

instance (extractor : SensitiveFieldExtractor) : Decidable (ExtractorSpecified extractor) := by
  unfold ExtractorSpecified
  infer_instance

instance {α : Type} (Q : α → Prop) [DecidablePred Q] (r : Result α) :
    Decidable (ResultSpecified Q r) := by
  unfold ResultSpecified
  split <;> infer_instance

/-- The Name Resolver in the words of §4.3: the last entry of the outer scope that matches
on schema (equal, or the reference's schema empty and the entry's `"public"`), on table
(the reference's table empty, or equal) and on name; failing that the first entry of the
FROM list that matches on table and name; failing that `DefaultMaskingLevel`. -/
def nameResolverSpec (extractor : SensitiveFieldExtractor)
    (schemaName tableName fieldName : String) : MaskingLevel :=
  match (extractor.outerSchemaInfo.filter (fun field =>
      (field.Schema = schemaName ∨ (schemaName = "" ∧ field.Schema = "public")) ∧
      (tableName = "" ∨ tableName = field.Table) ∧ fieldName = field.Name)).getLast? with
  | some field => field.MaskingLevel
  | none =>
    match (extractor.fromFieldList.filter (fun field =>
        (tableName = "" ∨ tableName = field.Table) ∧ fieldName = field.Name)).head? with
    | some field => field.MaskingLevel
    | none => DefaultMaskingLevel

/-- The catalog tables a reference with schema name `schemaName` may resolve to, in scan
order over databases, schemas and tables: those of the schemas named `schemaName`, or named
`"public"` when `schemaName` is empty. -/
def catalogCandidates (info : SensitiveSchemaInfo) (schemaName : String) : List TableSchema :=
  info.DatabaseList.flatMap (fun database =>
    database.SchemaList.flatMap (fun schema =>
      if schema.Name = schemaName ∨ (schemaName = "" ∧ schema.Name = "public") then
        schema.TableList
      else []))

/-- The table lookup in the words of §4.2 and §3: the most recently pushed CTE of the name,
otherwise the first catalog candidate of the name. -/
def findTableSpec (extractor : SensitiveFieldExtractor) (schemaName tableName : String) :
    Option TableSchema :=
  match (extractor.cteOuterSchemaInfo.filter (fun table => table.Name = tableName)).getLast? with
  | some table => some table
  | none =>
    ((catalogCandidates extractor.SchemaInfo schemaName).filter
      (fun table => table.Name = tableName)).head?

/-- The maximum masking level among the fields of a list that are named `name`; the least
level when there is none. -/
def namedMax (fields : List FieldInfo) (name : String) : MaskingLevel :=
  ((fields.filter (fun field => field.Name = name)).map (fun field => field.MaskingLevel)).foldl
    max .MASKING_LEVEL_UNSPECIFIED

/-- A field without its masking level. -/
def eraseField (field : FieldInfo) : FieldInfo :=
  { field with MaskingLevel := .MASKING_LEVEL_UNSPECIFIED }

/-- A column without its masking level. -/
def eraseColumn (column : ColumnInfo) : ColumnInfo :=
  { column with MaskingLevel := .MASKING_LEVEL_UNSPECIFIED }

/-- A table without the masking levels of its columns. -/
def eraseTable (table : TableSchema) : TableSchema :=
  { table with ColumnList := table.ColumnList.map eraseColumn }

/-- A schema without the masking levels of its columns. -/
def eraseSchema (schema : SchemaSchema) : SchemaSchema :=
  { schema with TableList := schema.TableList.map eraseTable }

/-- A database without the masking levels of its columns. -/
def eraseDatabase (database : DatabaseSchema) : DatabaseSchema :=
  { database with SchemaList := database.SchemaList.map eraseSchema }

/-- A catalog without the masking levels of its columns: two catalogs with the same image
have the same databases, schemas, tables and column names, and differ at most in masking
levels. -/
def eraseCatalog (info : SensitiveSchemaInfo) : SensitiveSchemaInfo :=
  { DatabaseList := info.DatabaseList.map eraseDatabase }

/-- Two extractor states that see the same tables up to masking levels: in the catalog and
on the CTE stack. -/
def SameShape (a b : SensitiveFieldExtractor) : Prop :=
  eraseCatalog a.SchemaInfo = eraseCatalog b.SchemaInfo ∧
  a.cteOuterSchemaInfo.map eraseTable = b.cteOuterSchemaInfo.map eraseTable

instance (a b : SensitiveFieldExtractor) : Decidable (SameShape a b) := by
  unfold SameShape
  infer_instance

/-! ## Example inputs -/

/-- The catalog of the end-to-end scenarios (§8): database `db1`, schema `public`, tables
`t(a NONE, b FULL)` and `s(x PARTIAL, y NONE)`. -/
def scenarioCatalog : SensitiveSchemaInfo :=
  { DatabaseList :=
      [{ Name := "db1"
         SchemaList :=
           [{ Name := "public"
              TableList :=
                [{ Name := "t", ColumnList := [⟨"a", .NONE⟩, ⟨"b", .FULL⟩] },
                 { Name := "s", ColumnList := [⟨"x", .PARTIAL⟩, ⟨"y", .NONE⟩] }] }] }] }

/-- A catalog whose only table `u(a)` has a column without a masking level set. -/
def unspecifiedCatalog : SensitiveSchemaInfo :=
  { DatabaseList :=
      [{ Name := "db1"
         SchemaList :=
           [{ Name := "public"
              TableList :=
                [{ Name := "u", ColumnList := [⟨"a", .MASKING_LEVEL_UNSPECIFIED⟩] }] }] }] }

/-- The column reference `name`. -/
def columnRef (name : String) : Node := .ColumnRef [.String_ name]

/-- The target `val AS name` (`name` empty when there is no alias). -/
def resTarget (name : String) (val : Node) : Node := .ResTarget name (some val)

/-- The FROM item `relname`, without schema or alias. -/
def rangeVar (relname : String) : Node := .RangeVar "" relname none

/-- `SELECT targetList FROM fromClause`, without WITH clause. -/
def selectFrom (fromClause targetList : List Node) : SelectStmt :=
  .mk none [] .SETOP_NONE none none fromClause targetList

/-- A catalog with tables `t0(x FULL)` and `t1(x NONE, w, p PARTIAL)`, the level of `t1.w`
left open. -/
def nestedCatalog (w : MaskingLevel) : SensitiveSchemaInfo :=
  { DatabaseList :=
      [{ Name := "db1"
         SchemaList :=
           [{ Name := "public"
              TableList :=
                [{ Name := "t0", ColumnList := [⟨"x", .FULL⟩] },
                 { Name := "t1",
                   ColumnList := [⟨"x", .NONE⟩, ⟨"w", w⟩, ⟨"p", .PARTIAL⟩] }] }] }] }

/-- The CTE body `VALUES (w, 1) UNION SELECT p, (SELECT x)`. -/
def nestedCteQuery : SelectStmt :=
  .mk none [] .SETOP_UNION
    (some (.mk none [.List [columnRef "w", .AConst]] .SETOP_NONE none none [] []))
    (some (selectFrom []
      [resTarget "" (columnRef "p"),
       resTarget "" (.SubLink .EXPR_SUBLINK none
         (some (.SelectStmt (selectFrom [] [resTarget "" (columnRef "x")]))))]))
    [] []

/-- The query
`SELECT (SELECT * FROM t1, (WITH RECURSIVE r AS (VALUES (w, 1) UNION SELECT p, (SELECT x))
SELECT * FROM r) AS sub) AS v FROM t0`. -/
def nestedQuery : SelectStmt :=
  selectFrom [rangeVar "t0"]
    [resTarget "v" (.SubLink .EXPR_SUBLINK none (some (.SelectStmt
      (selectFrom
        [rangeVar "t1",
         .RangeSubselect
           (some (.SelectStmt
             (.mk (some (.mk [.CommonTableExpr "r" [] (some (.SelectStmt nestedCteQuery))] true))
               [] .SETOP_NONE none none [rangeVar "r"] [resTarget "" (.ColumnRef [.AStar])])))
           (some (.mk "sub" []))]
        [resTarget "" (.ColumnRef [.AStar])]))))]

/-- The CTE body `SELECT a FROM t UNION SELECT b FROM t`. -/
def unionCteQuery : SelectStmt :=
  .mk none [] .SETOP_UNION
    (some (selectFrom [rangeVar "t"] [resTarget "" (columnRef "a")]))
    (some (selectFrom [rangeVar "t"] [resTarget "" (columnRef "b")]))
    [] []

/-- The state of the extractor after the FROM item `t` of the scenario catalog: the FROM list
holds the fields of `t`. -/
def leakState : SensitiveFieldExtractor :=
  { SchemaInfo := scenarioCatalog
    fromFieldList := [{ Table := "t", Name := "a", MaskingLevel := .NONE },
                      { Table := "t", Name := "b", MaskingLevel := .FULL }] }

/-- The recursive arm `SELECT b`. -/
def leakArm : SelectStmt := selectFrom [] [resTarget "" (columnRef "b")]

/-- The CTE body `SELECT 1 AS u UNION SELECT b`. -/
def leakCteQuery : SelectStmt :=
  .mk none [] .SETOP_UNION (some (selectFrom [] [resTarget "u" .AConst])) (some leakArm) [] []

/-- The query
`SELECT * FROM t, (WITH RECURSIVE r AS (SELECT 1 AS u UNION SELECT b) SELECT * FROM r) AS sub`,
whose second FROM item is evaluated in `leakState`. -/
def leakQuery : SelectStmt :=
  selectFrom
    [rangeVar "t",
     .RangeSubselect
       (some (.SelectStmt
         (.mk (some (.mk [.CommonTableExpr "r" [] (some (.SelectStmt leakCteQuery))] true))
           [] .SETOP_NONE none none [rangeVar "r"] [resTarget "" (.ColumnRef [.AStar])])))
       (some (.mk "sub" []))]
    [resTarget "" (.ColumnRef [.AStar])]

/-- The catalog `db1.public{t0(x FULL, p PARTIAL)}`. -/
def closureCatalog : SensitiveSchemaInfo :=
  { DatabaseList :=
      [{ Name := "db1"
         SchemaList :=
           [{ Name := "public"
              TableList := [{ Name := "t0", ColumnList := [⟨"x", .FULL⟩, ⟨"p", .PARTIAL⟩] }] }] }] }

/-- The state of the extractor that evaluates a subquery expression in the target list of
`SELECT .. FROM t0` over `closureCatalog`: the outer scope holds the fields of `t0`. -/
def closureState : SensitiveFieldExtractor :=
  { SchemaInfo := closureCatalog
    outerSchemaInfo := [{ Table := "t0", Name := "x", MaskingLevel := .FULL },
                        { Table := "t0", Name := "p", MaskingLevel := .PARTIAL }] }

/-- The query
`WITH RECURSIVE r2 AS (VALUES (u, 1) UNION SELECT p, (SELECT x)) SELECT * FROM r2`. -/
def closureInnerQuery : SelectStmt :=
  .mk (some (.mk [.CommonTableExpr "r2" [] (some (.SelectStmt
      (.mk none [] .SETOP_UNION
        (some (.mk none [.List [columnRef "u", .AConst]] .SETOP_NONE none none [] []))
        (some (selectFrom []
          [resTarget "" (columnRef "p"),
           resTarget "" (.SubLink .EXPR_SUBLINK none
             (some (.SelectStmt (selectFrom [] [resTarget "" (columnRef "x")]))))]))
        [] [])))] true))
    [] .SETOP_NONE none none [rangeVar "r2"] [resTarget "" (.ColumnRef [.AStar])]

/-- The initial arm `VALUES (1, 1)`. -/
def closureSeed : SelectStmt :=
  .mk none [.List [.AConst, .AConst]] .SETOP_NONE none none [] []

/-- The recursive arm `SELECT column1, column2 FROM r, (closureInnerQuery) AS sub`. -/
def closureArm : SelectStmt :=
  selectFrom
    [rangeVar "r", .RangeSubselect (some (.SelectStmt closureInnerQuery)) (some (.mk "sub" []))]
    [resTarget "" (columnRef "column1"), resTarget "" (columnRef "column2")]

/-- The body `VALUES (1, 1) UNION closureArm` of the recursive CTE `r(u, x)`. -/
def closureCteQuery : SelectStmt :=
  .mk none [] .SETOP_UNION (some closureSeed) (some closureArm) [] []

/-- The extractor state of `closureState` with the schema `r(u, x)` of the given levels on
top of the CTE stack. -/
def closureStateWith (u x : MaskingLevel) : SensitiveFieldExtractor :=
  { closureState with
      cteOuterSchemaInfo := [{ Name := "r", ColumnList := [⟨"u", u⟩, ⟨"x", x⟩] }] }

/-- The catalog `db1.public{t(a NONE, b)}` with the given level of `t.b`. -/
def shortCircuitCatalog (b : MaskingLevel) : SensitiveSchemaInfo :=
  { DatabaseList :=
      [{ Name := "db1"
         SchemaList :=
           [{ Name := "public"
              TableList := [{ Name := "t", ColumnList := [⟨"a", .NONE⟩, ⟨"b", b⟩] }] }] }] }

/-- The query `SELECT b + (SELECT 1 FROM relname) AS v FROM t`. -/
def shortCircuitQuery (relname : String) : SelectStmt :=
  selectFrom [rangeVar "t"]
    [resTarget "v" (.AExpr (some (columnRef "b"))
      (some (.SubLink .EXPR_SUBLINK none
        (some (.SelectStmt (selectFrom [rangeVar relname] [resTarget "" .AConst]))))))]

/-! ## Naming advisor for auto-increment columns (MySQL)

Embedding of `backend/plugin/advisor/mysqlwip/advisor_naming_auto_increment_column.go`.
The parse tree (package `mysql`, generated) is modelled by the accessors the checker calls:
an accessor that may return nil is an `Option`, a token accessor is the `Bool` "not nil", and
a name node is the text its normaliser in package `mysqlparser` returns for it. -/

namespace Advisor

/-- Modelled from the spec: `advisor.Status` is declared outside the source files; §6 gives
`Status ∈ {Success, Warn, Error}`. -/
inductive Status where
  | Success
  | Warn
  | Error
  deriving DecidableEq, Repr

/-- `advisor.Code`: the codes the source files name. -/
inductive Code where
  | Ok
  | NamingAutoIncrementColumnConventionMismatch
  | DatabaseNotEmpty
  deriving DecidableEq, Repr

/-- The `Content` of an advice: one constructor per text of the checker (lines 64, 156 and
165), holding the values that are formatted into it. -/
inductive Content where
  /-- The empty text of the OK advice. -/
  | empty
  /-- `... mismatches auto_increment column naming convention, naming format should be %q`. -/
  | namingFormat (tableName columnName format : String)
  /-- `... mismatches auto_increment column naming convention, its length should be within %d
  characters`. -/
  | lengthWithin (tableName columnName : String) (maxLength : Int)
  deriving DecidableEq, Repr

/-- `advisor.Advice`. -/
structure Advice where
  Status : Status
  Code : Code
  Title : String
  Content : Content
  Line : Int := 0
  deriving DecidableEq, Repr

/-- `*regexp.Regexp` as far as the checker uses it: its text and `MatchString`. -/
structure Regexp where
  text : String
  MatchString : String → Bool

/-- `mysql.IFieldDefinitionContext`: for each entry of `AllColumnAttribute()`, whether its
`AUTO_INCREMENT_SYMBOL()` is not nil. -/
structure FieldDefinitionContext where
  AllColumnAttribute : List Bool
  deriving DecidableEq, Repr

/-- `mysql.IColumnDefinitionContext`. -/
structure ColumnDefinitionContext where
  ColumnName : Option String
  FieldDefinition : Option FieldDefinitionContext
  deriving DecidableEq, Repr

/-- `mysql.ITableElementContext`; `Line` is `GetStart().GetLine()`. -/
structure TableElementContext where
  ColumnDefinition : Option ColumnDefinitionContext
  Line : Int
  deriving DecidableEq, Repr

/-- `mysql.CreateTableContext`; `TableElementList` holds `AllTableElement()`. -/
structure CreateTableContext where
  TableName : Option String
  TableElementList : Option (List (Option TableElementContext))
  deriving DecidableEq, Repr

/-- `mysql.IAlterListItemContext`. The checker reads neither `DROP_SYMBOL` nor
`FieldDefinition`. -/
structure AlterListItemContext where
  ADD_SYMBOL : Bool := false
  MODIFY_SYMBOL : Bool := false
  CHANGE_SYMBOL : Bool := false
  DROP_SYMBOL : Bool := false
  Identifier : Option String := none
  ColumnInternalRef : Option String := none
  FieldDefinition : Option FieldDefinitionContext := none
  deriving DecidableEq, Repr

/-- `mysql.IAlterListContext`: `AllAlterListItem()`. -/
structure AlterListContext where
  AllAlterListItem : List (Option AlterListItemContext)
  deriving DecidableEq, Repr

/-- `mysql.IAlterCommandListContext`. -/
structure AlterCommandListContext where
  AlterList : Option AlterListContext
  deriving DecidableEq, Repr

/-- `mysql.IAlterTableActionsContext`. -/
structure AlterTableActionsContext where
  AlterCommandList : Option AlterCommandListContext
  deriving DecidableEq, Repr

/-- `mysql.AlterTableContext`; `TableRef` is the table name `NormalizeMySQLTableRef` returns,
`Line` is `GetStart().GetLine()`. -/
structure AlterTableContext where
  AlterTableActions : Option AlterTableActionsContext
  TableRef : String
  Line : Int
  deriving DecidableEq, Repr

/-- `namingAutoIncrementColumnChecker`. -/
structure namingAutoIncrementColumnChecker where
  baseLine : Int
  adviceList : List Advice
  level : Status
  title : String
  format : Regexp
  maxLength : Int

/-- The value of an operation on Go's `int` (64 bits): the mathematical result wrapped into
the range from -2^63 to 2^63 - 1. -/
def wrapInt (x : Int) : Int := (x + 2 ^ 63) % 2 ^ 64 - 2 ^ 63

namespace namingAutoIncrementColumnChecker

/-- `handleColumn` (lines 149-169); `lineNumber += checker.baseLine` is an addition of Go
`int`s, and `len(columnName)` is the length in bytes. -/
def handleColumn (checker : namingAutoIncrementColumnChecker) (tableName columnName : String)
    (lineNumber : Int) : namingAutoIncrementColumnChecker :=
  let lineNumber := wrapInt (lineNumber + checker.baseLine)
  let checker :=
    if !checker.format.MatchString columnName then
      { checker with
          adviceList := checker.adviceList ++
            [{ Status := checker.level
               Code := .NamingAutoIncrementColumnConventionMismatch
               Title := checker.title
               Content := .namingFormat tableName columnName checker.format.text
               Line := lineNumber }] }
    else checker
  if checker.maxLength > 0 ∧ (columnName.utf8ByteSize : Int) > checker.maxLength then
    { checker with
        adviceList := checker.adviceList ++
          [{ Status := checker.level
             Code := .NamingAutoIncrementColumnConventionMismatch
             Title := checker.title
             Content := .lengthWithin tableName columnName checker.maxLength
             Line := lineNumber }] }
  else checker

/-- `isAutoIncrement` (lines 105-112). -/
def isAutoIncrement (ctx : FieldDefinitionContext) : Bool :=
  ctx.AllColumnAttribute.any (fun attr => attr)

/-- The body of the loop of `EnterCreateTable` (lines 88-101). -/
def createTableElement (tableName : String) (checker : namingAutoIncrementColumnChecker)
    (tableElement : Option TableElementContext) : namingAutoIncrementColumnChecker :=
  match tableElement with
  | none => checker
  | some tableElement =>
    match tableElement.ColumnDefinition with
    | none => checker
    | some columnDefinition =>
      match columnDefinition.ColumnName, columnDefinition.FieldDefinition with
      | some columnName, some fieldDefinition =>
        if isAutoIncrement fieldDefinition then
          checker.handleColumn tableName columnName tableElement.Line
        else checker
      | _, _ => checker

/-- `EnterCreateTable` (lines 81-103). -/
def EnterCreateTable (checker : namingAutoIncrementColumnChecker) (ctx : CreateTableContext) :
    namingAutoIncrementColumnChecker :=
  match ctx.TableName, ctx.TableElementList with
  | some tableName, some tableElementList =>
    tableElementList.foldl (createTableElement tableName) checker
  | _, _ => checker

/-- The body of the loop of `EnterAlterTable` (lines 129-145). -/
def alterListItem (tableName : String) (line : Int)
    (checker : namingAutoIncrementColumnChecker) (item : Option AlterListItemContext) :
    namingAutoIncrementColumnChecker :=
  match item with
  | none => checker
  | some item =>
    let columnName : String :=
      match item.ADD_SYMBOL, item.Identifier with
      | true, some identifier => identifier
      | _, _ =>
        match item.MODIFY_SYMBOL, item.ColumnInternalRef with
        | true, some columnInternalRef => columnInternalRef
        | _, _ =>
          match item.CHANGE_SYMBOL, item.ColumnInternalRef, item.Identifier with
          | true, some _, some identifier => identifier
          | _, _, _ => ""
    checker.handleColumn tableName columnName line

/-- `EnterAlterTable` (lines 115-147). -/
def EnterAlterTable (checker : namingAutoIncrementColumnChecker) (ctx : AlterTableContext) :
    namingAutoIncrementColumnChecker :=
  match ctx.AlterTableActions with
  | none => checker
  | some alterTableActions =>
    match alterTableActions.AlterCommandList with
    | none => checker
    | some alterCommandList =>
      match alterCommandList.AlterList with
      | none => checker
      | some alterList =>
        alterList.AllAlterListItem.foldl (alterListItem ctx.TableRef ctx.Line) checker

end namingAutoIncrementColumnChecker

/-- A rule node of a statement's parse tree, as the listener sees it: the checker has an
`Enter` method for `createTable` and for `alterTable` only. -/
inductive RuleContext where
  | CreateTable (ctx : CreateTableContext)
  | AlterTable (ctx : AlterTableContext)
  | other
  deriving DecidableEq, Repr

/-- `mysqlparser.ParseResult`: `Tree` is the sequence of the rule nodes of the tree, in the
order in which `antlr.ParseTreeWalkerDefault.Walk` enters them. -/
structure ParseResult where
  Tree : List RuleContext
  BaseLine : Int
  deriving DecidableEq, Repr

/-- `antlr.ParseTreeWalkerDefault.Walk(checker, tree)`: the walker (outside the source files)
calls the listener's `Enter` method of each rule node it enters. -/
def Walk (checker : namingAutoIncrementColumnChecker) (tree : List RuleContext) :
    namingAutoIncrementColumnChecker :=
  tree.foldl (fun checker node =>
    match node with
    | .CreateTable ctx => checker.EnterCreateTable ctx
    | .AlterTable ctx => checker.EnterAlterTable ctx
    | .other => checker) checker

/-- `advisor.SQLReviewRule`: `RuleType` is its field `Type`. -/
structure SQLReviewRule where
  RuleType : String
  Level : String
  Payload : String
  deriving DecidableEq, Repr

/-- `advisor.Context`, the fields `Check` reads: `AST` is `none` when the type assertion
`ctx.AST.([]*mysqlparser.ParseResult)` fails. -/
structure Context where
  AST : Option (List ParseResult)
  Rule : SQLReviewRule
  deriving DecidableEq, Repr

section Check

/- `advisor.NewStatusBySQLReviewRuleLevel` and `advisor.UnmarshalNamingRulePayloadAsRegexp`
are declared outside the source files: `Check` is embedded for arbitrary such functions. -/
variable (NewStatusBySQLReviewRuleLevel : String → Except String Status)
variable (UnmarshalNamingRulePayloadAsRegexp : String → Except String (Regexp × Int))

/-- `NamingAutoIncrementColumnAdvisor.Check` (lines 33-68). -/
def Check (ctx : Context) : Except String (List Advice) :=
  match ctx.AST with
  | none => .error "failed to convert to mysql parser result"
  | some stmtList =>
    match NewStatusBySQLReviewRuleLevel ctx.Rule.Level with
    | .error err => .error err
    | .ok level =>
      match UnmarshalNamingRulePayloadAsRegexp ctx.Rule.Payload with
      | .error err => .error err
      | .ok (format, maxLength) =>
        let checker : namingAutoIncrementColumnChecker :=
          { baseLine := 0
            adviceList := []
            level := level
            title := ctx.Rule.RuleType
            format := format
            maxLength := maxLength }
        let checker := stmtList.foldl (fun checker stmt =>
          Walk { checker with baseLine := stmt.BaseLine } stmt.Tree) checker
        if checker.adviceList.length = 0 then
          .ok [{ Status := .Success, Code := .Ok, Title := "OK", Content := .empty }]
        else .ok checker.adviceList

end Check

/-- Whether a table element is a column definition that offends: it has a name and a field
definition with the AUTO_INCREMENT attribute, and the name fails the format or, the maximum
length being positive, is longer than it. -/
def Offends (checker : namingAutoIncrementColumnChecker)
    (tableElement : Option TableElementContext) : Prop :=
  ∃ element columnDefinition columnName fieldDefinition,
    tableElement = some element ∧ element.ColumnDefinition = some columnDefinition ∧
    columnDefinition.ColumnName = some columnName ∧
    columnDefinition.FieldDefinition = some fieldDefinition ∧
    true ∈ fieldDefinition.AllColumnAttribute ∧
    (checker.format.MatchString columnName = false ∨
      (0 < checker.maxLength ∧ checker.maxLength < (columnName.utf8ByteSize : Int)))

/-- The format `^id$`. -/
def idFormat : Regexp := { text := "^id$", MatchString := fun s => s == "id" }

/-- A column definition `name type [AUTO_INCREMENT]` on line `line`. -/
def columnElement (name : String) (autoIncrement : Bool) (line : Int) :
    Option TableElementContext :=
  some { ColumnDefinition := some { ColumnName := some name
                                    FieldDefinition := some { AllColumnAttribute := [autoIncrement] } }
         Line := line }

/-- A checker at the start of a statement. -/
def idChecker (maxLength : Int) : namingAutoIncrementColumnChecker :=
  { baseLine := 0, adviceList := [], level := .Warn, title := "naming.column.auto-increment",
    format := idFormat, maxLength := maxLength }

/-- The statement `ALTER TABLE tableName item, ..` on line 1, as the only statement. -/
def alterTableContext (tableName : String) (items : List AlterListItemContext) : Context :=
  { AST := some [{ Tree := [.AlterTable
                     { AlterTableActions :=
                         some ⟨some ⟨some ⟨items.map some⟩⟩⟩
                       TableRef := tableName
                       Line := 1 }]
                   BaseLine := 0 }]
    Rule := { RuleType := "naming.column.auto-increment", Level := "WARNING", Payload := "" } }

end Advisor

/-! # Properties -/

/-! ## Order on masking levels -/

theorem cmpLess_iff (a b : MaskingLevel) : cmpLess a b = true ↔ a < b := by
  simp [cmpLess]; rfl

theorem ite_cmpLess (a b : MaskingLevel) : (if cmpLess a b = true then b else a) = max a b := by
  by_cases h : a < b
  · rw [if_pos ((cmpLess_iff a b).2 h), max_eq_right h.le]
  · rw [if_neg (fun h' => h ((cmpLess_iff a b).1 h')), max_eq_left (not_lt.1 h)]

theorem MaskingLevel.le_FULL (a : MaskingLevel) : a ≤ MaskingLevel.FULL := by
  cases a <;> decide

/-! ## Join merger -/

theorem fieldMap_foldl (fields : List FieldInfo) (m : String → Option FieldInfo) (name : String) :
    fields.foldl (fun m field => fun name => if name = field.Name then some field else m name)
        m name
      = (sameNamed fields name).or (m name) := by
  induction fields generalizing m with
  | nil => simp [sameNamed]
  | cons a l ih =>
    rw [List.foldl_cons, ih]
    simp only [sameNamed, List.reverse_cons, List.find?_append]
    cases h : List.find? (fun field => decide (field.Name = name)) l.reverse with
    | some x => simp
    | none =>
      by_cases hn : name = a.Name
      · simp [hn]
      · have : ¬ a.Name = name := fun h => hn h.symm
        simp [hn, this]

theorem fieldMap_eq (fields : List FieldInfo) (name : String) :
    fieldMap fields name = sameNamed fields name := by
  unfold fieldMap
  rw [fieldMap_foldl]
  cases sameNamed fields name <;> rfl

theorem sameNamed_isNone (fields : List FieldInfo) (name : String) :
    (sameNamed fields name).isNone = true ↔ ∀ l ∈ fields, l.Name ≠ name := by
  simp [sameNamed]

theorem sameNamed_isSome (fields : List FieldInfo) (name : String) :
    (sameNamed fields name).isSome = true ↔ ∃ l ∈ fields, l.Name = name := by
  simp [sameNamed]

theorem stringNodeList_map (U : List String) : stringNodeList (U.map Node.String_) = .ok U := by
  induction U with
  | nil => rfl
  | cons a l ih => simp [stringNodeList, ih]

theorem stringNodeList_error (l : List Node) (h : ∃ n ∈ l, ∀ s, n ≠ Node.String_ s) :
    stringNodeList l = .error .expectNodeString := by
  induction l with
  | nil => simp at h
  | cons a l ih =>
    cases a with
    | String_ s =>
      have h' : ∃ n ∈ l, ∀ s, n ≠ Node.String_ s := by
        obtain ⟨n, hn, hs⟩ := h
        rcases List.mem_cons.1 hn with rfl | hn
        · exact absurd rfl (hs s)
        · exact ⟨n, hn, hs⟩
      simp [stringNodeList, ih h']
    | _ => simp [stringNodeList]

/-- C6. NATURAL join merge: `pgMergeJoinField` on a NATURAL join never fails and returns
every field of `L` in order, an `L`-field whose name occurs in `R` carrying the maximum of
its level and the level of the same-named `R`-field (the last one, should several share the
name), every other `L`-field unchanged, followed by the `R`-fields whose name does not occur
in `L`, unchanged and in order. -/
theorem pgMergeJoinField_natural (UsingClause : List Node) (L R : List FieldInfo) :
    pgMergeJoinField true UsingClause L R =
      .ok (L.map (fun l =>
              match sameNamed R l.Name with
              | some r => { l with MaskingLevel := max l.MaskingLevel r.MaskingLevel }
              | none => l)
            ++ R.filter (fun r => decide (∀ l ∈ L, l.Name ≠ r.Name))) := by
  unfold pgMergeJoinField
  simp only [if_true]
  congr 2
  · apply List.map_congr_left
    intro l _
    rw [fieldMap_eq]
    cases sameNamed R l.Name with
    | none => rfl
    | some r =>
      by_cases h : l.MaskingLevel < r.MaskingLevel
      · simp [(cmpLess_iff _ _).2 h, max_eq_right h.le]
      · have h' : ¬ cmpLess l.MaskingLevel r.MaskingLevel = true :=
          fun h' => h ((cmpLess_iff _ _).1 h')
        simp [h', max_eq_left (not_lt.1 h)]
  · apply List.filter_congr
    intro r _
    rw [fieldMap_eq]
    by_cases h : ∀ l ∈ L, l.Name ≠ r.Name
    · rw [(sameNamed_isNone L r.Name).2 h, decide_eq_true h]
    · have : ¬ (sameNamed L r.Name).isNone = true :=
        fun h' => h ((sameNamed_isNone L r.Name).1 h')
      simp only [Bool.not_eq_true] at this
      rw [this, decide_eq_false h]

/-- C7. USING join merge: on a join that is not NATURAL and has a non-empty USING list of
string nodes `U`, `pgMergeJoinField` returns every field of `L` in order, an `L`-field whose
name is in `U` and occurs in `R` raised to the maximum of its level and the same-named
`R`-field's level, every other `L`-field unchanged, followed in order by every `R`-field
except those whose name is both in `U` and in `L`; when some USING node is not a string
node it fails. -/
theorem pgMergeJoinField_using (UsingClause : List Node) (L R : List FieldInfo) :
    (∀ U : List String, U ≠ [] → UsingClause = U.map Node.String_ →
      pgMergeJoinField false UsingClause L R =
        .ok (L.map (fun l =>
                match sameNamed R l.Name with
                | some r =>
                  if l.Name ∈ U then { l with MaskingLevel := max l.MaskingLevel r.MaskingLevel }
                  else l
                | none => l)
              ++ R.filter (fun r => decide (¬ (r.Name ∈ U ∧ ∃ l ∈ L, l.Name = r.Name))))) ∧
    ((∃ n ∈ UsingClause, ∀ s, n ≠ Node.String_ s) →
      pgMergeJoinField false UsingClause L R = .error .expectNodeString) := by
  constructor
  · intro U hU hUC
    subst hUC
    have hlen : (List.map Node.String_ U).length > 0 := by
      cases U with
      | nil => exact absurd rfl hU
      | cons a l => simp
    unfold pgMergeJoinField
    simp only [Bool.false_eq_true, if_false, hlen, if_true, stringNodeList_map]
    congr 2
    · apply List.map_congr_left
      intro l _
      rw [fieldMap_eq]
      cases sameNamed R l.Name with
      | none => rfl
      | some r =>
        by_cases hu : l.Name ∈ U
        · by_cases h : l.MaskingLevel < r.MaskingLevel
          · simp [hu, (cmpLess_iff _ _).2 h, max_eq_right h.le]
          · have h' : ¬ cmpLess l.MaskingLevel r.MaskingLevel = true :=
              fun h' => h ((cmpLess_iff _ _).1 h')
            simp [hu, h', max_eq_left (not_lt.1 h)]
        · simp [hu]
    · apply List.filter_congr
      intro r _
      rw [fieldMap_eq]
      by_cases hu : r.Name ∈ U
      · by_cases h : ∃ l ∈ L, l.Name = r.Name
        · rw [(sameNamed_isSome L r.Name).2 h]
          simp [hu, h]
        · have : ¬ (sameNamed L r.Name).isSome = true :=
            fun h' => h ((sameNamed_isSome L r.Name).1 h')
          simp only [Bool.not_eq_true] at this
          rw [this]
          simp [hu, h]
      · simp [hu]
  · intro h
    have hlen : UsingClause.length > 0 := by
      obtain ⟨n, hn, _⟩ := h
      exact List.length_pos_of_mem hn
    unfold pgMergeJoinField
    simp only [Bool.false_eq_true, if_false, hlen, if_true, stringNodeList_error _ h]

/-- Witness of C7: `t(a NONE, b NONE) JOIN s(a FULL, b FULL) USING (a)` merges `a` only, and
a USING list holding a star node fails. -/
theorem pgMergeJoinField_using_witness :
    pgMergeJoinField false [Node.String_ "a"]
        [{ Table := "t", Name := "a", MaskingLevel := .NONE },
         { Table := "t", Name := "b", MaskingLevel := .NONE }]
        [{ Table := "s", Name := "a", MaskingLevel := .FULL },
         { Table := "s", Name := "b", MaskingLevel := .FULL }] =
      .ok [{ Table := "t", Name := "a", MaskingLevel := .FULL },
           { Table := "t", Name := "b", MaskingLevel := .NONE },
           { Table := "s", Name := "b", MaskingLevel := .FULL }] ∧
    pgMergeJoinField false [Node.String_ "a", Node.AStar]
        [{ Table := "t", Name := "a", MaskingLevel := .NONE }]
        [{ Table := "s", Name := "a", MaskingLevel := .FULL }] = .error .expectNodeString :=
  ⟨((pgMergeJoinField_using _ _ _).1 ["a"] (by decide) rfl).trans (by rfl),
   (pgMergeJoinField_using _ _ _).2 ⟨Node.AStar, by simp, fun s h => by cases h⟩⟩

/-- C8. Plain join is concatenation: on a join that is neither NATURAL nor has a USING list
`pgMergeJoinField` returns exactly `L` followed by `R`; hence the outputs for the two orders
of the sides are permutations of one another as lists of (name, masking level). -/
theorem pgMergeJoinField_plain (L R : List FieldInfo) :
    pgMergeJoinField false [] L R = .ok (L ++ R) ∧
    pgMergeJoinField false [] R L = .ok (R ++ L) ∧
    ((L ++ R).map (fun f => (f.Name, f.MaskingLevel))).Perm
      ((R ++ L).map (fun f => (f.Name, f.MaskingLevel))) := by
  refine ⟨by simp [pgMergeJoinField], by simp [pgMergeJoinField], ?_⟩
  exact (List.perm_append_comm).map _

/-! ## Expression Level Evaluator -/

section ExpressionLevel

variable (conv : List Node → Except Error ColumnNameDef)

theorem nodeListLoop_cons (level : SensitiveFieldExtractor → Option Node → Result MaskingLevel)
    (ext : SensitiveFieldExtractor) (acc : MaskingLevel) (n : Option Node)
    (rest : List (Option Node)) :
    nodeListLoop level ext acc (n :: rest) =
      match level ext n with
      | (.error e, ext1) => (.error e, ext1)
      | (.ok v, ext1) =>
        if max acc v = MaxMaskingLevel then (.ok (max acc v), ext1)
        else nodeListLoop level ext1 (max acc v) rest := by
  rw [nodeListLoop]
  rcases level ext n with ⟨r, ext1⟩
  cases r with
  | error e => rfl
  | ok v => simp only [ite_cmpLess]

theorem nodeListLoop_state (level : SensitiveFieldExtractor → Option Node → Result MaskingLevel)
    (h : ∀ ext n, (level ext n).2 = ext) (ext : SensitiveFieldExtractor) (acc : MaskingLevel)
    (l : List (Option Node)) : (nodeListLoop level ext acc l).2 = ext := by
  induction l generalizing acc with
  | nil => rfl
  | cons n rest ih =>
    rw [nodeListLoop_cons]
    have h1 := h ext n
    rcases hr : level ext n with ⟨r, ext1⟩
    rw [hr] at h1
    simp only at h1
    subst h1
    cases r with
    | error e => rfl
    | ok v =>
      simp only
      split
      · rfl
      · exact ih _

/-- Evaluating an expression leaves the extractor as it was, whatever the outcome. -/
theorem level_state (fuel : Nat) :
    (∀ ext e, (pgExtractColumnRefFromExpressionNode conv fuel ext e).2 = ext) ∧
    (∀ ext l, (pgExtractColumnRefFromExpressionNodeList conv fuel ext l).2 = ext) := by
  induction fuel with
  | zero => exact ⟨fun _ _ => rfl, fun _ _ => rfl⟩
  | succ fuel ih =>
    obtain ⟨ih1, ih2⟩ := ih
    refine ⟨?_, ?_⟩
    · intro ext e
      cases e with
      | none => rfl
      | some node =>
        cases node <;> simp only [pgExtractColumnRefFromExpressionNode, ih1, ih2]
        case ColumnRef fields => cases conv fields <;> rfl
        case SubLink t testexpr subselect =>
          have h1 := ih1 ext testexpr
          rcases hr : pgExtractColumnRefFromExpressionNode conv fuel ext testexpr with ⟨r, ext1⟩
          rw [hr] at h1
          simp only at h1
          subst h1
          cases r with
          | error e => rfl
          | ok v =>
            simp only
            split <;> rfl
    · intro ext l
      simp only [pgExtractColumnRefFromExpressionNodeList]
      exact nodeListLoop_state _ ih1 _ _ _

theorem level_state_node (fuel : Nat) (ext : SensitiveFieldExtractor) (e : Option Node) :
    (pgExtractColumnRefFromExpressionNode conv fuel ext e).2 = ext :=
  (level_state conv fuel).1 ext e

theorem subLinkLoop_eq (level : MaskingLevel) (fieldList : List FieldInfo) :
    subLinkLoop level fieldList = (fieldList.map (fun f => f.MaskingLevel)).foldl max level := by
  induction fieldList generalizing level with
  | nil => rfl
  | cons f rest ih =>
    rw [subLinkLoop]
    simp only [ite_cmpLess, List.map_cons, List.foldl_cons]
    split
    · rename_i h
      rw [h]
      clear ih h
      generalize List.map (fun f => f.MaskingLevel) rest = l
      induction l with
      | nil => rfl
      | cons a l ih =>
        rw [List.foldl_cons, MaxMaskingLevel, max_eq_left (MaskingLevel.le_FULL a)]
        exact ih
    · exact ih _

/-- C10. Subquery expression level and scope: evaluating a `SubLink` node leaves the
extractor (outer stack, CTE stack, FROM list) as it was, whatever the outcome; and when its
test expression evaluates to `level` in the current extractor and its sub-select evaluates
to `fieldList` in a fresh extractor whose outer stack is the current outer stack followed by
the current FROM list, with empty CTE stack and FROM list, the level returned is the maximum
of `level` and the levels of `fieldList`. -/
theorem pgExtractColumnRefFromExpressionNode_subLink (fuel : Nat)
    (ext : SensitiveFieldExtractor) (t : SubLinkType) (testexpr subselect : Option Node) :
    (pgExtractColumnRefFromExpressionNode conv fuel ext (some (.SubLink t testexpr subselect))).2
      = ext ∧
    ∀ level fieldList ext1 ext2,
      pgExtractColumnRefFromExpressionNode conv fuel ext testexpr = (.ok level, ext1) →
      pgExtractNode conv fuel
        { SchemaInfo := ext.SchemaInfo
          outerSchemaInfo := ext.outerSchemaInfo ++ ext.fromFieldList
          cteOuterSchemaInfo := []
          fromFieldList := [] } subselect = (.ok fieldList, ext2) →
      pgExtractColumnRefFromExpressionNode conv (fuel + 1) ext
          (some (.SubLink t testexpr subselect))
        = (.ok ((fieldList.map (fun f => f.MaskingLevel)).foldl max level), ext) := by
  refine ⟨level_state_node conv _ _ _, ?_⟩
  intro level fieldList ext1 ext2 h1 h2
  have hs := level_state_node conv fuel ext testexpr
  rw [h1] at hs
  simp only at hs
  subst hs
  simp only [pgExtractColumnRefFromExpressionNode, h1, h2, subLinkLoop_eq]


theorem foldl_max_max (a b : MaskingLevel) (l : List MaskingLevel) :
    l.foldl max (max a b) = max a (l.foldl max b) := by
  induction l generalizing b with
  | nil => rfl
  | cons x l ih => rw [List.foldl_cons, List.foldl_cons, max_assoc, ih]

theorem foldl_max_of_le {a b : MaskingLevel} (h : b ≤ a) (l : List MaskingLevel) :
    l.foldl max a = max a (l.foldl max b) := by
  rw [← foldl_max_max, max_eq_left h]

theorem foldl_max_FULL (l : List MaskingLevel) : l.foldl max MaxMaskingLevel = MaxMaskingLevel := by
  induction l with
  | nil => rfl
  | cons a l ih =>
    rw [List.foldl_cons, MaxMaskingLevel, max_eq_left (MaskingLevel.le_FULL a)]
    exact ih

theorem exprColumnRefsOpts_append (l₁ l₂ : List (Option Node)) :
    exprColumnRefsOpts (l₁ ++ l₂) = exprColumnRefsOpts l₁ ++ exprColumnRefsOpts l₂ := by
  induction l₁ with
  | nil => rfl
  | cons a l ih => simp [exprColumnRefsOpts, ih]

theorem exprColumnRefsOpts_map_some (l : List Node) :
    exprColumnRefsOpts (l.map some) = exprColumnRefsList l := by
  induction l with
  | nil => simp [exprColumnRefsOpts, exprColumnRefsList]
  | cons a l ih => simp [exprColumnRefsOpts, exprColumnRefsList, exprColumnRefsOpt, ih]

theorem containsSubLinkOpts_append (l₁ l₂ : List (Option Node)) :
    containsSubLinkOpts (l₁ ++ l₂) = (containsSubLinkOpts l₁ || containsSubLinkOpts l₂) := by
  induction l₁ with
  | nil => simp [containsSubLinkOpts]
  | cons a l ih => simp [containsSubLinkOpts, ih, Bool.or_assoc]

theorem containsSubLinkOpts_map_some (l : List Node) :
    containsSubLinkOpts (l.map some) = containsSubLinkList l := by
  induction l with
  | nil => simp [containsSubLinkOpts, containsSubLinkList]
  | cons a l ih => simp [containsSubLinkOpts, containsSubLinkList, containsSubLinkOpt, ih]

theorem resolvedLevels_append (ext : SensitiveFieldExtractor) (l₁ l₂ : List (List Node)) :
    resolvedLevels conv ext (l₁ ++ l₂) = resolvedLevels conv ext l₁ ++ resolvedLevels conv ext l₂ := by
  simp [resolvedLevels, List.filterMap_append]

theorem nodeListLoop_spec (level : SensitiveFieldExtractor → Option Node → Result MaskingLevel)
    (ext : SensitiveFieldExtractor) (hstate : ∀ n, (level ext n).2 = ext)
    (hP : ∀ n v ext', containsSubLinkOpt n = false → level ext n = (.ok v, ext') →
      LevelSpec conv ext (exprColumnRefsOpt n) v)
    (l : List (Option Node)) (acc v : MaskingLevel) (ext' : SensitiveFieldExtractor)
    (hacc : DefaultMaskingLevel ≤ acc) (hl : containsSubLinkOpts l = false)
    (h : nodeListLoop level ext acc l = (.ok v, ext')) :
    v = (resolvedLevels conv ext (exprColumnRefsOpts l)).foldl max acc ∧
    (v = acc ∨ v ∈ resolvedLevels conv ext (exprColumnRefsOpts l)) := by
  induction l generalizing acc with
  | nil =>
    simp only [nodeListLoop, Prod.mk.injEq, Except.ok.injEq] at h
    simp [exprColumnRefsOpts, resolvedLevels, h.1]
  | cons n rest ih =>
    rw [nodeListLoop_cons] at h
    simp only [containsSubLinkOpts, Bool.or_eq_false_iff] at hl
    have h1 := hstate n
    rcases hr : level ext n with ⟨r, ext1⟩
    rw [hr] at h1 h
    simp only at h1
    subst h1
    cases r with
    | error e => simp at h
    | ok v1 =>
      obtain ⟨hv1, hm1⟩ := hP n v1 _ hl.1 hr
      have hacc' : max acc v1 =
          (resolvedLevels conv ext1 (exprColumnRefsOpt n)).foldl max acc := by
        rw [foldl_max_of_le hacc, ← hv1, ← max_assoc, max_eq_left hacc]
      have hmem : max acc v1 = acc ∨ max acc v1 ∈ resolvedLevels conv ext1 (exprColumnRefsOpt n) := by
        rcases le_total v1 acc with hle | hle
        · exact Or.inl (max_eq_left hle)
        · rw [max_eq_right hle]
          rcases hm1 with hd | hm
          · left
            rw [hd] at hle ⊢
            exact le_antisymm hacc hle
          · exact Or.inr hm
      simp only [exprColumnRefsOpts, resolvedLevels_append, List.foldl_append, List.mem_append]
      simp only at h
      split at h
      · rename_i hfull
        simp only [Prod.mk.injEq, Except.ok.injEq] at h
        rw [← hacc', ← h.1, hfull, foldl_max_FULL]
        refine ⟨rfl, ?_⟩
        rw [← hfull]
        rcases hmem with hm | hm
        · exact Or.inl hm
        · exact Or.inr (Or.inl hm)
      · obtain ⟨ih1, ih2⟩ := ih (max acc v1) (le_trans hacc (le_max_left _ _)) hl.2 h
        rw [← hacc']
        refine ⟨ih1, ?_⟩
        rcases ih2 with hm | hm
        · rw [hm]
          rcases hmem with hm | hm
          · exact Or.inl hm
          · exact Or.inr (Or.inl hm)
        · exact Or.inr (Or.inr hm)

theorem levelSpec_of_list {ext : SensitiveFieldExtractor} {refs : List (List Node)}
    {v : MaskingLevel}
    (h : v = (resolvedLevels conv ext refs).foldl max DefaultMaskingLevel ∧
      (v = DefaultMaskingLevel ∨ v ∈ resolvedLevels conv ext refs)) :
    LevelSpec conv ext refs v := by
  refine ⟨?_, h.2⟩
  have : DefaultMaskingLevel ≤ v := by
    rw [h.1, foldl_max_of_le (le_refl _)]
    exact le_max_left _ _
  rw [max_eq_right this]
  exact h.1

theorem levelSpec_default (ext : SensitiveFieldExtractor) :
    LevelSpec conv ext [] DefaultMaskingLevel := by
  simp [LevelSpec, resolvedLevels]

set_option maxHeartbeats 1000000 in
theorem level_spec (fuel : Nat) :
    (∀ ext e v ext', containsSubLinkOpt e = false →
      pgExtractColumnRefFromExpressionNode conv fuel ext e = (.ok v, ext') →
      LevelSpec conv ext (exprColumnRefsOpt e) v) ∧
    (∀ ext l v ext', containsSubLinkOpts l = false →
      pgExtractColumnRefFromExpressionNodeList conv fuel ext l = (.ok v, ext') →
      v = (resolvedLevels conv ext (exprColumnRefsOpts l)).foldl max DefaultMaskingLevel ∧
      (v = DefaultMaskingLevel ∨ v ∈ resolvedLevels conv ext (exprColumnRefsOpts l))) := by
  induction fuel with
  | zero =>
    refine ⟨?_, ?_⟩
    · intro ext e v ext' _ h
      simp [pgExtractColumnRefFromExpressionNode] at h
    · intro ext l v ext' _ h
      simp [pgExtractColumnRefFromExpressionNodeList] at h
  | succ fuel ih =>
    obtain ⟨ih1, ih2⟩ := ih
    refine ⟨?_, ?_⟩
    · intro ext e v ext' hs h
      cases e with
      | none =>
        simp only [pgExtractColumnRefFromExpressionNode, Prod.mk.injEq, Except.ok.injEq] at h
        rw [← h.1]
        exact levelSpec_default conv ext
      | some node =>
        cases node <;>
          simp only [pgExtractColumnRefFromExpressionNode, containsSubLinkOpt, containsSubLink,
            Bool.or_eq_false_iff] at h hs <;>
          simp only [exprColumnRefsOpt, exprColumnRefs]
        all_goals first
          | (simp only [Prod.mk.injEq, Except.ok.injEq] at h
             rw [← h.1]
             exact levelSpec_default conv ext)
          | exact ih1 _ _ _ _ hs h
          | (refine levelSpec_of_list conv ?_
             have := ih2 _ _ _ _ ?_ h
             · simpa [exprColumnRefsOpts, exprColumnRefsOpts_append, exprColumnRefsOpts_map_some,
                 resolvedLevels_append] using this
             · simp [containsSubLinkOpts, containsSubLinkOpts_append, containsSubLinkOpts_map_some,
                 hs])
          | skip
        case ColumnRef fields =>
          cases hc : conv fields with
          | error e => rw [hc] at h; simp at h
          | ok d =>
            rw [hc] at h
            simp only [Prod.mk.injEq, Except.ok.injEq, extractSchemaTableColumnName] at h
            simp [LevelSpec, resolvedLevels, hc, h.1]
        case SubLink => exact absurd hs (by decide)
    · intro ext l v ext' hs h
      simp only [pgExtractColumnRefFromExpressionNodeList] at h
      exact nodeListLoop_spec conv _ ext (fun n => level_state_node conv fuel ext n)
        (fun n v ext' hn hv => ih1 ext n v ext' hn hv) l _ v ext' (le_refl _) hs h


theorem foldl_max_default (l : List MaskingLevel) :
    l.foldl max DefaultMaskingLevel = max DefaultMaskingLevel (maxLevel l) := by
  cases l with
  | nil => simp [maxLevel]
  | cons a l => rw [maxLevel, List.foldl_cons, foldl_max_max]

theorem pgCheckFieldMaskingLevel_mem (ext : SensitiveFieldExtractor) (s t c : String) :
    pgCheckFieldMaskingLevel ext s t c = DefaultMaskingLevel ∨
    ∃ f ∈ ext.outerSchemaInfo ++ ext.fromFieldList, pgCheckFieldMaskingLevel ext s t c = f.MaskingLevel := by
  unfold pgCheckFieldMaskingLevel
  split
  · rename_i f hf
    have := List.mem_of_find?_eq_some hf
    exact Or.inr ⟨f, by simp at this ⊢; exact Or.inl this, rfl⟩
  · split
    · rename_i f hf
      have := List.mem_of_find?_eq_some hf
      exact Or.inr ⟨f, by simp; exact Or.inr this, rfl⟩
    · exact Or.inl rfl

theorem default_le_of_ne_unspecified {a : MaskingLevel}
    (h : a ≠ .MASKING_LEVEL_UNSPECIFIED) : DefaultMaskingLevel ≤ a := by
  cases a
  · exact absurd rfl h
  all_goals decide

theorem resolvedLevels_ge (ext : SensitiveFieldExtractor)
    (hext : ∀ f ∈ ext.outerSchemaInfo ++ ext.fromFieldList,
      f.MaskingLevel ≠ .MASKING_LEVEL_UNSPECIFIED)
    (refs : List (List Node)) : ∀ v ∈ resolvedLevels conv ext refs, DefaultMaskingLevel ≤ v := by
  intro v hv
  simp only [resolvedLevels, List.mem_filterMap] at hv
  obtain ⟨fields, _, hf⟩ := hv
  cases hc : conv fields with
  | error e => rw [hc] at hf; simp at hf
  | ok d =>
    rw [hc] at hf
    simp only [Option.some.injEq] at hf
    rw [← hf]
    rcases pgCheckFieldMaskingLevel_mem ext d.Table.Schema d.Table.Name d.ColumnName with h | ⟨f, hm, h⟩
    · rw [h]
    · rw [h]; exact default_le_of_ne_unspecified (hext f hm)

theorem default_le_maxLevel (l : List MaskingLevel) (h : ∀ v ∈ l, DefaultMaskingLevel ≤ v) :
    DefaultMaskingLevel ≤ maxLevel l := by
  cases l with
  | nil => exact le_refl _
  | cons a l =>
    rw [maxLevel, foldl_max_of_le (le_refl a)]
    exact le_trans (h a (List.mem_cons_self _ _)) (le_max_left _ _)

/-- C2, as amended. Expression level against the column references: for an expression that
contains no `SubLink`, whenever `pgExtractColumnRefFromExpressionNode` returns a level, that
level and the maximum of the Name Resolver levels of the `ColumnRef` descendants of the
expression (those reached through the child expressions of §4.4, `exprColumnRefs`;
`DefaultMaskingLevel` when there are none) agree once both are raised to at least
`DefaultMaskingLevel`; and they are equal when no entry of the extractor's outer stack or
FROM list has level UNSPECIFIED. The short-circuit of the list fold changes nothing. -/
theorem pgExtractColumnRefFromExpressionNode_max (fuel : Nat) (ext : SensitiveFieldExtractor)
    (e : Option Node) (v : MaskingLevel) (ext' : SensitiveFieldExtractor)
    (hs : containsSubLinkOpt e = false)
    (h : pgExtractColumnRefFromExpressionNode conv fuel ext e = (.ok v, ext')) :
    max DefaultMaskingLevel v =
      max DefaultMaskingLevel (maxLevel (resolvedLevels conv ext (exprColumnRefsOpt e))) ∧
    ((∀ f ∈ ext.outerSchemaInfo ++ ext.fromFieldList,
        f.MaskingLevel ≠ .MASKING_LEVEL_UNSPECIFIED) →
      v = maxLevel (resolvedLevels conv ext (exprColumnRefsOpt e))) := by
  obtain ⟨h1, h2⟩ := (level_spec conv fuel).1 ext e v ext' hs h
  rw [foldl_max_default] at h1
  refine ⟨h1, ?_⟩
  intro hext
  have hge := resolvedLevels_ge conv ext hext (exprColumnRefsOpt e)
  have hv : DefaultMaskingLevel ≤ v := by
    rcases h2 with h2 | h2
    · rw [h2]
    · exact hge v h2
  rw [max_eq_right hv, max_eq_right (default_le_maxLevel _ hge)] at h1
  exact h1

/-- Witness of C2: `a + b` with `a` NONE and `b` FULL gives FULL. -/
theorem pgExtractColumnRefFromExpressionNode_max_witness :
    max DefaultMaskingLevel MaskingLevel.FULL =
      max DefaultMaskingLevel (maxLevel (resolvedLevels ConvertNodeListToColumnNameDef
        { SchemaInfo := ⟨[]⟩
          fromFieldList := [{ Table := "t", Name := "a", MaskingLevel := .NONE },
                            { Table := "t", Name := "b", MaskingLevel := .FULL }] }
        (exprColumnRefsOpt (some (.AExpr (some (.ColumnRef [.String_ "a"]))
          (some (.ColumnRef [.String_ "b"]))))))) ∧
    ((∀ f ∈ ([] : List FieldInfo) ++
          [{ Table := "t", Name := "a", MaskingLevel := .NONE },
           { Table := "t", Name := "b", MaskingLevel := .FULL }],
        f.MaskingLevel ≠ .MASKING_LEVEL_UNSPECIFIED) →
      MaskingLevel.FULL = maxLevel (resolvedLevels ConvertNodeListToColumnNameDef
        { SchemaInfo := ⟨[]⟩
          fromFieldList := [{ Table := "t", Name := "a", MaskingLevel := .NONE },
                            { Table := "t", Name := "b", MaskingLevel := .FULL }] }
        (exprColumnRefsOpt (some (.AExpr (some (.ColumnRef [.String_ "a"]))
          (some (.ColumnRef [.String_ "b"]))))))) :=
  pgExtractColumnRefFromExpressionNode_max ConvertNodeListToColumnNameDef 3
    { SchemaInfo := ⟨[]⟩
      fromFieldList := [{ Table := "t", Name := "a", MaskingLevel := .NONE },
                        { Table := "t", Name := "b", MaskingLevel := .FULL }] }
    (some (.AExpr (some (.ColumnRef [.String_ "a"])) (some (.ColumnRef [.String_ "b"]))))
    .FULL _ rfl rfl

/-- Counterexample to C2 as stated: with `a` UNSPECIFIED in the FROM list, `a + a` contains no
`SubLink` and evaluates to NONE, while the maximum of the levels of its column references is
UNSPECIFIED. -/
theorem pgExtractColumnRefFromExpressionNode_max_counterexample :
    containsSubLinkOpt (some (.AExpr (some (.ColumnRef [.String_ "a"]))
        (some (.ColumnRef [.String_ "a"])))) = false ∧
    (pgExtractColumnRefFromExpressionNode ConvertNodeListToColumnNameDef 3
      { SchemaInfo := ⟨[]⟩
        fromFieldList := [{ Table := "u", Name := "a", MaskingLevel := .MASKING_LEVEL_UNSPECIFIED }] }
      (some (.AExpr (some (.ColumnRef [.String_ "a"])) (some (.ColumnRef [.String_ "a"]))))).1
      = .ok .NONE ∧
    maxLevel (resolvedLevels ConvertNodeListToColumnNameDef
      { SchemaInfo := ⟨[]⟩
        fromFieldList := [{ Table := "u", Name := "a", MaskingLevel := .MASKING_LEVEL_UNSPECIFIED }] }
      (exprColumnRefsOpt (some (.AExpr (some (.ColumnRef [.String_ "a"]))
        (some (.ColumnRef [.String_ "a"])))))) = .MASKING_LEVEL_UNSPECIFIED :=
  ⟨rfl, rfl, rfl⟩

end ExpressionLevel

/-! ## Select Evaluator -/

section SelectEvaluator

variable (conv : List Node → Except Error ColumnNameDef)

theorem pgExtractSelect_succ (fuel : Nat) (ext : SensitiveFieldExtractor) (node : SelectStmt) :
    pgExtractSelect conv (fuel + 1) ext node =
      match withClausePhase conv fuel ext node with
      | (.error e, ext1) => (.error e, withClauseDefer ext node ext1)
      | (.ok (), ext1) =>
        ((pgExtractSelectBody conv (pgExtractSelect conv fuel) (pgExtractNode conv fuel)
            (pgExtractColumnRefFromExpressionNode conv fuel) ext1 node).1,
         withClauseDefer ext node
          (pgExtractSelectBody conv (pgExtractSelect conv fuel) (pgExtractNode conv fuel)
            (pgExtractColumnRefFromExpressionNode conv fuel) ext1 node).2) := by
  rw [pgExtractSelect]
  unfold withClausePhase withClauseDefer
  cases node.WithClause with
  | none => rfl
  | some w => simp only

/-- The level of a set-operation column (masking.go 477-483). -/
theorem setOpFields_eq (L R : List FieldInfo) :
    setOpFields L R = List.zipWith (fun l r =>
      ({ Name := l.Name, Table := l.Table,
         MaskingLevel := max (max DefaultMaskingLevel l.MaskingLevel) r.MaskingLevel } : FieldInfo))
      L R := by
  unfold setOpFields
  simp only [ite_cmpLess]

theorem targetListLoop_other (level : SensitiveFieldExtractor → Option Node → Result MaskingLevel)
    (fromFieldList : List FieldInfo) (ext : SensitiveFieldExtractor) (acc : List FieldInfo)
    (name : String) (val : Node) (rest : List Node) (hcr : ∀ fields, val ≠ .ColumnRef fields) :
    targetListLoop conv level fromFieldList ext acc (.ResTarget name (some val) :: rest) =
      match level ext (some val) with
      | (.error e, extractor) => (.error e, extractor)
      | (.ok maskingLevel, extractor) =>
        match targetFieldName conv name val with
        | .error e => (.error e, extractor)
        | .ok fieldName =>
          targetListLoop conv level fromFieldList extractor
            (acc ++ [{ Name := fieldName, MaskingLevel := maskingLevel }]) rest := by
  have hn : targetFieldName conv name val =
      (if name = "" then pgExtractFieldName conv (some val) else .ok name) := by
    unfold targetFieldName
    by_cases hne : name = ""
    · subst hne
      cases val with
      | ColumnRef fields => exact absurd rfl (hcr fields)
      | _ => rfl
    · simp [hne]
  rw [hn]
  cases val with
  | ColumnRef fields => exact absurd rfl (hcr fields)
  | _ => simp only [targetListLoop]

theorem targetListLoop_columnRef
    (level : SensitiveFieldExtractor → Option Node → Result MaskingLevel)
    (fromFieldList : List FieldInfo) (ext : SensitiveFieldExtractor) (acc : List FieldInfo)
    (name : String) (fields : List Node) (rest : List Node) :
    targetListLoop conv level fromFieldList ext acc
        (.ResTarget name (some (.ColumnRef fields)) :: rest) =
      if isStarTarget conv (.ColumnRef fields) = true then
        targetListLoop conv level fromFieldList ext
          (acc ++ starFields conv fromFieldList (.ColumnRef fields)) rest
      else
        match conv fields with
        | .error e => (.error e, ext)
        | .ok _ =>
          match level ext (some (.ColumnRef fields)) with
          | (.error e, extractor) => (.error e, extractor)
          | (.ok maskingLevel, extractor) =>
            match targetFieldName conv name (.ColumnRef fields) with
            | .error e => (.error e, extractor)
            | .ok fieldName =>
              targetListLoop conv level fromFieldList extractor
                (acc ++ [{ Name := fieldName, MaskingLevel := maskingLevel }]) rest := by
  rw [targetListLoop]
  unfold isStarTarget starFields targetFieldName
  cases hc : conv fields with
  | error e => simp [hc]
  | ok columnRef =>
    simp only [hc]
    by_cases hstar : columnRef.ColumnName = "*"
    · simp only [hstar, if_true, decide_True, extractSchemaTableColumnName]
      split <;> rfl
    · simp only [hstar, if_false, decide_False, Bool.false_eq_true]
      rcases level ext _ with ⟨r, ext1⟩
      cases r with
      | error e => rfl
      | ok v =>
        simp only
        by_cases hne : name = "" <;> simp [hne]

/-- The target loop succeeds exactly with the concatenation of what each target emits. -/
theorem targetListLoop_ok_iff
    (level : SensitiveFieldExtractor → Option Node → Result MaskingLevel)
    (fromFieldList : List FieldInfo) (ext : SensitiveFieldExtractor)
    (hstate : ∀ e, (level ext e).2 = ext)
    (hconv : ∀ f e v ext', conv f = .error e →
      level ext (some (.ColumnRef f)) ≠ (.ok v, ext'))
    (targets : List Node) (acc result : List FieldInfo)
    (ext' : SensitiveFieldExtractor) :
    targetListLoop conv level fromFieldList ext acc targets = (.ok result, ext') ↔
      ext' = ext ∧
      ∃ emitted : List (List FieldInfo), result = acc ++ emitted.flatten ∧
        List.Forall₂ (EmitsTarget conv level fromFieldList ext) targets emitted := by
  induction targets generalizing acc with
  | nil =>
    simp only [targetListLoop, Prod.mk.injEq, Except.ok.injEq, List.forall₂_nil_left_iff]
    constructor
    · rintro ⟨rfl, rfl⟩
      exact ⟨rfl, [], by simp, rfl⟩
    · rintro ⟨rfl, emitted, hres, rfl⟩
      exact ⟨by simpa using hres.symm, rfl⟩
  | cons target rest ih =>
    -- reduce to: the head emits `fields` and the loop continues from `acc ++ fields`
    have key : ∀ fields, EmitsTarget conv level fromFieldList ext target fields →
        targetListLoop conv level fromFieldList ext acc (target :: rest) =
          targetListLoop conv level fromFieldList ext (acc ++ fields) rest := by
      rintro fields ⟨name, val, rfl, hf⟩
      by_cases hcr : ∃ f, val = .ColumnRef f
      · obtain ⟨f, rfl⟩ := hcr
        rw [targetListLoop_columnRef]
        rcases hf with ⟨hs, rfl⟩ | ⟨hs, l, m, hl, hm, rfl⟩
        · rw [if_pos hs]
        · rw [if_neg (by rw [hs]; decide)]
          cases hc : conv f with
          | error e => exact absurd hl (hconv f e l ext hc)
          | ok c => simp only [hl, hm]
      · have hcr' : ∀ f, val ≠ .ColumnRef f := fun f h => hcr ⟨f, h⟩
        rw [targetListLoop_other conv level fromFieldList ext acc name val rest hcr']
        rcases hf with ⟨hs, rfl⟩ | ⟨hs, l, m, hl, hm, rfl⟩
        · exfalso
          cases val with
          | ColumnRef f => exact hcr ⟨f, rfl⟩
          | _ => simp [isStarTarget] at hs
        · simp only [hl, hm]
    constructor
    · intro h
      -- a successful run: the head target emits something
      have hemit : ∃ fields, EmitsTarget conv level fromFieldList ext target fields := by
        cases target
        case ResTarget name val =>
          cases val with
          | none => simp [targetListLoop] at h
          | some valNode =>
            by_cases hs : isStarTarget conv valNode = true
            · exact ⟨_, name, valNode, rfl, Or.inl ⟨hs, rfl⟩⟩
            · have hs' : isStarTarget conv valNode = false := by simpa using hs
              have hst := hstate (some valNode)
              by_cases hcr : ∃ f, valNode = .ColumnRef f
              · obtain ⟨f, rfl⟩ := hcr
                rw [targetListLoop_columnRef, if_neg hs] at h
                cases hc : conv f with
                | error e => rw [hc] at h; simp at h
                | ok c =>
                  rw [hc] at h
                  simp only at h
                  rcases hl : level ext (some (.ColumnRef f)) with ⟨r, ext1⟩
                  rw [hl] at h hst
                  simp only at hst
                  subst hst
                  cases r with
                  | error e => simp at h
                  | ok v =>
                    simp only at h
                    cases hm : targetFieldName conv name (.ColumnRef f) with
                    | error e => rw [hm] at h; simp at h
                    | ok fieldName =>
                      exact ⟨_, name, _, rfl, Or.inr ⟨hs', v, fieldName, hl, hm, rfl⟩⟩
              · have hcr' : ∀ f, valNode ≠ .ColumnRef f := fun f h => hcr ⟨f, h⟩
                rw [targetListLoop_other conv level fromFieldList ext acc name valNode rest hcr']
                  at h
                rcases hl : level ext (some valNode) with ⟨r, ext1⟩
                rw [hl] at h hst
                simp only at hst
                subst hst
                cases r with
                | error e => simp at h
                | ok v =>
                  simp only at h
                  cases hm : targetFieldName conv name valNode with
                  | error e => rw [hm] at h; simp at h
                  | ok fieldName =>
                    exact ⟨_, name, _, rfl, Or.inr ⟨hs', v, fieldName, hl, hm, rfl⟩⟩
        all_goals simp [targetListLoop] at h
      obtain ⟨fields, hf⟩ := hemit
      rw [key fields hf] at h
      obtain ⟨he, emitted, hres, hall⟩ := (ih _).1 h
      exact ⟨he, fields :: emitted, by rw [hres]; simp, List.Forall₂.cons hf hall⟩
    · rintro ⟨he, emitted, hres, hall⟩
      cases hall with
      | cons hf hrest =>
        rename_i fields emitted'
        rw [key fields hf]
        exact (ih _).2 ⟨he, emitted', by rw [hres]; simp, hrest⟩


theorem level_columnRef_error (fuel : Nat) (ext : SensitiveFieldExtractor) (f : List Node)
    (e : Error) (v : MaskingLevel) (ext' : SensitiveFieldExtractor) (hc : conv f = .error e) :
    pgExtractColumnRefFromExpressionNode conv fuel ext (some (.ColumnRef f)) ≠ (.ok v, ext') := by
  cases fuel with
  | zero => simp [pgExtractColumnRefFromExpressionNode]
  | succ fuel => simp [pgExtractColumnRefFromExpressionNode, hc]

/-- C3. Naming and level of a non-star target: the Select Evaluator succeeds on a normal
SELECT (no VALUES list, no set operation) exactly when its WITH and FROM clauses evaluate
and every target emits a field list, and its result is then the concatenation of these lists
in target-list order; a target `val AS name` that is not a `*` column reference emits
exactly the single field whose level is the Expression Level Evaluator's level of `val` (in
the state after the WITH and FROM clauses) and whose name is `name` when non-empty,
otherwise the column-name part of a `ColumnRef` and `pgExtractFieldName` of any other
expression. -/
theorem pgExtractSelect_target (fuel : Nat) (ext : SensitiveFieldExtractor) (node : SelectStmt)
    (result : List FieldInfo) (ext' : SensitiveFieldExtractor)
    (hv : node.ValuesLists = []) (hop : node.Op = .SETOP_NONE) :
    pgExtractSelect conv (fuel + 1) ext node = (.ok result, ext') ↔
      ∃ (ext0 : SensitiveFieldExtractor) (fromFieldList : List FieldInfo)
        (extF : SensitiveFieldExtractor) (emitted : List (List FieldInfo)),
        withClausePhase conv fuel ext node = (.ok (), ext0) ∧
        fromClauseLoop (pgExtractNode conv fuel) ext0 [] node.FromClause
          = (.ok fromFieldList, extF) ∧
        result = emitted.flatten ∧
        List.Forall₂
          (EmitsTarget conv (pgExtractColumnRefFromExpressionNode conv fuel) fromFieldList extF)
          node.TargetList emitted ∧
        ext' = withClauseDefer ext node { extF with fromFieldList := [] } := by
  have hbody : ∀ ext0, pgExtractSelectBody conv (pgExtractSelect conv fuel)
      (pgExtractNode conv fuel) (pgExtractColumnRefFromExpressionNode conv fuel) ext0 node =
      match fromClauseLoop (pgExtractNode conv fuel) ext0 [] node.FromClause with
      | (.error e, extractor) => (.error e, extractor)
      | (.ok fromFieldList, extractor) =>
        ((targetListLoop conv (pgExtractColumnRefFromExpressionNode conv fuel) fromFieldList
            extractor [] node.TargetList).1,
         { (targetListLoop conv (pgExtractColumnRefFromExpressionNode conv fuel) fromFieldList
            extractor [] node.TargetList).2 with fromFieldList := [] }) := by
    intro ext0
    unfold pgExtractSelectBody
    simp only [hv, List.length_nil, gt_iff_lt, lt_self_iff_false, if_false, hop]
  have hloop : ∀ fromFieldList extF (r : Except Error (List FieldInfo)) extT,
      targetListLoop conv (pgExtractColumnRefFromExpressionNode conv fuel) fromFieldList
        extF [] node.TargetList = (r, extT) →
      (r = .ok result ↔ ∃ emitted : List (List FieldInfo), result = emitted.flatten ∧
        List.Forall₂
          (EmitsTarget conv (pgExtractColumnRefFromExpressionNode conv fuel) fromFieldList extF)
          node.TargetList emitted) ∧ (∀ res, r = .ok res → extT = extF) := by
    intro fromFieldList extF r extT ht
    have hiff := fun res ext'' => targetListLoop_ok_iff conv
      (pgExtractColumnRefFromExpressionNode conv fuel) fromFieldList extF
      (fun e => level_state_node conv fuel extF e)
      (fun f e v ext' hc => level_columnRef_error conv fuel extF f e v ext' hc)
      node.TargetList [] res ext''
    refine ⟨⟨?_, ?_⟩, ?_⟩
    · rintro rfl
      obtain ⟨_, emitted, hres, hall⟩ := (hiff result extT).1 ht
      exact ⟨emitted, by simpa using hres, hall⟩
    · rintro ⟨emitted, hres, hall⟩
      have := (hiff result extF).2 ⟨rfl, emitted, by simpa using hres, hall⟩
      rw [this] at ht
      simp only [Prod.mk.injEq] at ht
      exact ht.1.symm
    · rintro res rfl
      exact ((hiff res extT).1 ht).1
  rw [pgExtractSelect_succ]
  constructor
  · intro h
    rcases hw : withClausePhase conv fuel ext node with ⟨rw, ext0⟩
    rw [hw] at h
    cases rw with
    | error e => simp at h
    | ok u =>
      simp only [Prod.mk.injEq] at h
      rw [hbody] at h
      rcases hf : fromClauseLoop (pgExtractNode conv fuel) ext0 [] node.FromClause with ⟨rf, extF⟩
      rw [hf] at h
      cases rf with
      | error e => simp at h
      | ok fromFieldList =>
        simp only at h
        rcases ht : targetListLoop conv (pgExtractColumnRefFromExpressionNode conv fuel)
          fromFieldList extF [] node.TargetList with ⟨rt, extT⟩
        rw [ht] at h
        simp only at h
        obtain ⟨h1, h2⟩ := hloop fromFieldList extF rt extT ht
        obtain ⟨emitted, hres, hall⟩ := h1.1 h.1
        have hT := h2 result h.1
        subst hT
        exact ⟨ext0, fromFieldList, extT, emitted, rfl, hf, hres, hall, h.2.symm⟩
  · rintro ⟨ext0, fromFieldList, extF, emitted, hw, hf, hres, hall, hext⟩
    rw [hw]
    simp only
    rw [hbody, hf]
    simp only
    rcases ht : targetListLoop conv (pgExtractColumnRefFromExpressionNode conv fuel)
      fromFieldList extF [] node.TargetList with ⟨rt, extT⟩
    obtain ⟨h1, h2⟩ := hloop fromFieldList extF rt extT ht
    have hr := h1.2 ⟨emitted, hres, hall⟩
    have hT := h2 result hr
    subst hT
    rw [hr, hext]

end SelectEvaluator

/-! ## Evaluations on the scenario catalog -/

/-- Witness of C3: `SELECT a AS k FROM t` gives `[(k, NONE)]`. -/
theorem pgExtractSelect_target_witness :
    pgExtractSelect ConvertNodeListToColumnNameDef 4 { SchemaInfo := scenarioCatalog }
        (selectFrom [rangeVar "t"] [resTarget "k" (columnRef "a")])
      = (.ok [{ Name := "k", MaskingLevel := .NONE }], { SchemaInfo := scenarioCatalog }) :=
  (pgExtractSelect_target ConvertNodeListToColumnNameDef 3 { SchemaInfo := scenarioCatalog }
    (selectFrom [rangeVar "t"] [resTarget "k" (columnRef "a")])
    [{ Name := "k", MaskingLevel := .NONE }] { SchemaInfo := scenarioCatalog } rfl rfl).2
    ⟨{ SchemaInfo := scenarioCatalog },
     [{ Table := "t", Name := "a", MaskingLevel := .NONE },
      { Table := "t", Name := "b", MaskingLevel := .FULL }],
     { SchemaInfo := scenarioCatalog
       fromFieldList := [{ Table := "t", Name := "a", MaskingLevel := .NONE },
                         { Table := "t", Name := "b", MaskingLevel := .FULL }] },
     [[{ Name := "k", MaskingLevel := .NONE }]],
     rfl, rfl, rfl,
     List.Forall₂.cons
       ⟨"k", columnRef "a", rfl, Or.inr ⟨rfl, .NONE, "k", rfl, rfl, rfl⟩⟩ List.Forall₂.nil,
     rfl⟩

/-- Witness of C10: in `SELECT (SELECT b FROM t) AS v FROM s` the `SubLink` evaluates to FULL
in the state after `FROM s`, and the SELECT gives `[(v, FULL)]`. -/
theorem pgExtractColumnRefFromExpressionNode_subLink_witness :
    pgExtractColumnRefFromExpressionNode ConvertNodeListToColumnNameDef 5
        { SchemaInfo := scenarioCatalog
          fromFieldList := [{ Table := "s", Name := "x", MaskingLevel := .PARTIAL },
                            { Table := "s", Name := "y", MaskingLevel := .NONE }] }
        (some (.SubLink .EXPR_SUBLINK none
          (some (.SelectStmt (selectFrom [rangeVar "t"] [resTarget "" (columnRef "b")])))))
      = (.ok .FULL,
         { SchemaInfo := scenarioCatalog
           fromFieldList := [{ Table := "s", Name := "x", MaskingLevel := .PARTIAL },
                             { Table := "s", Name := "y", MaskingLevel := .NONE }] }) ∧
    pgExtractSelect ConvertNodeListToColumnNameDef 7 { SchemaInfo := scenarioCatalog }
        (selectFrom [rangeVar "s"] [resTarget "v" (.SubLink .EXPR_SUBLINK none
          (some (.SelectStmt (selectFrom [rangeVar "t"] [resTarget "" (columnRef "b")]))))])
      = (.ok [{ Name := "v", MaskingLevel := .FULL }], { SchemaInfo := scenarioCatalog }) :=
  ⟨(pgExtractColumnRefFromExpressionNode_subLink ConvertNodeListToColumnNameDef 4
      { SchemaInfo := scenarioCatalog
        fromFieldList := [{ Table := "s", Name := "x", MaskingLevel := .PARTIAL },
                          { Table := "s", Name := "y", MaskingLevel := .NONE }] }
      .EXPR_SUBLINK none
      (some (.SelectStmt (selectFrom [rangeVar "t"] [resTarget "" (columnRef "b")])))).2
      .NONE [{ Name := "b", MaskingLevel := .FULL }] _ _ rfl rfl, rfl⟩

/-- C4, the code at `SELECT ... FROM t, s`: the items evaluate to the fields of `t` and of
`s`, but `SELECT *` returns the fields of `s` alone, and `SELECT b` resolves `b` (FULL in
`t`) against the fields of `s` alone, hence to NONE. -/
theorem pgExtractSelect_from_overwrites :
    (pgExtractNode ConvertNodeListToColumnNameDef 3 { SchemaInfo := scenarioCatalog }
        (some (rangeVar "t"))).1
      = .ok [{ Table := "t", Name := "a", MaskingLevel := .NONE },
             { Table := "t", Name := "b", MaskingLevel := .FULL }] ∧
    (pgExtractNode ConvertNodeListToColumnNameDef 3 { SchemaInfo := scenarioCatalog }
        (some (rangeVar "s"))).1
      = .ok [{ Table := "s", Name := "x", MaskingLevel := .PARTIAL },
             { Table := "s", Name := "y", MaskingLevel := .NONE }] ∧
    (pgExtractSelect ConvertNodeListToColumnNameDef 4 { SchemaInfo := scenarioCatalog }
        (selectFrom [rangeVar "t", rangeVar "s"] [resTarget "" (.ColumnRef [.AStar])])).1
      = .ok [{ Table := "s", Name := "x", MaskingLevel := .PARTIAL },
             { Table := "s", Name := "y", MaskingLevel := .NONE }] ∧
    (pgExtractSelect ConvertNodeListToColumnNameDef 4 { SchemaInfo := scenarioCatalog }
        (selectFrom [rangeVar "t", rangeVar "s"] [resTarget "" (columnRef "b")])).1
      = .ok [{ Name := "b", MaskingLevel := .NONE }] :=
  ⟨rfl, rfl, rfl, rfl⟩

/-- C5, the code at `SELECT x.* FROM t AS x`: the FROM item evaluates to the two columns of
`t` under table `x` and schema `public`, and `x.*` expands to nothing. -/
theorem pgExtractSelect_aliased_star_empty :
    (pgExtractNode ConvertNodeListToColumnNameDef 3 { SchemaInfo := scenarioCatalog }
        (some (.RangeVar "" "t" (some (.mk "x" []))))).1
      = .ok [{ Schema := "public", Table := "x", Name := "a", MaskingLevel := .NONE },
             { Schema := "public", Table := "x", Name := "b", MaskingLevel := .FULL }] ∧
    (pgExtractSelect ConvertNodeListToColumnNameDef 4 { SchemaInfo := scenarioCatalog }
        (selectFrom [.RangeVar "" "t" (some (.mk "x" []))]
          [resTarget "" (.ColumnRef [.String_ "x", .AStar])])).1
      = .ok [] :=
  ⟨rfl, rfl⟩
/-- C1, the code at `nestedQuery`: with `t1.w` NONE the query evaluates to `[(v, FULL)]`, and
with `t1.w` raised to PARTIAL (nothing else changed) it evaluates to `[(v, PARTIAL)]`; both
runs start from a fresh extractor and succeed. With `w` NONE the first pass of the fixpoint
loop raises the first CTE column, so the recursive arm is evaluated again, now with the FROM
list that its own first evaluation cleared on exit, and `x` resolves to `t0.x` (FULL) in the
outer scope instead of `t1.x` (NONE); with `w` PARTIAL the first pass changes nothing. -/
theorem pgExtractSelect_raise_lowers :
    pgExtractSelect ConvertNodeListToColumnNameDef 20 { SchemaInfo := nestedCatalog .NONE }
        nestedQuery
      = (.ok [{ Name := "v", MaskingLevel := .FULL }], { SchemaInfo := nestedCatalog .NONE }) ∧
    pgExtractSelect ConvertNodeListToColumnNameDef 20 { SchemaInfo := nestedCatalog .PARTIAL }
        nestedQuery
      = (.ok [{ Name := "v", MaskingLevel := .PARTIAL }],
         { SchemaInfo := nestedCatalog .PARTIAL }) ∧
    MaskingLevel.NONE ≤ MaskingLevel.PARTIAL ∧
    ¬ MaskingLevel.FULL ≤ MaskingLevel.PARTIAL :=
  ⟨rfl, rfl, by decide, by decide⟩

/-! ## Entry point -/

section EntryPointProperties

variable (parse : String → Except Error (List (Option Node)))
variable (conv : List Node → Except Error ColumnNameDef)

/-- C18. Entry-point dispatch on the parsed statement list `stmts`: `ExtractSensitiveField`
fails when the number of parsed statements is not 1; returns null without error (`.ok none`,
not an empty list) when the single root is EXPLAIN; fails when the single root is neither
SELECT nor EXPLAIN; and for a SELECT that `pgExtractNode` evaluates to `fieldList` returns the
non-null list with one `(Name, MaskingLevel)` per evaluated field, in order. -/
theorem ExtractSensitiveField_dispatch (fuel : Nat) (ext : SensitiveFieldExtractor)
    (statement : String) (stmts : List (Option Node)) (hp : parse statement = .ok stmts) :
    (stmts.length ≠ 1 →
      ExtractSensitiveField parse conv fuel ext statement
        = (.error (.expectOneStatement stmts.length), ext)) ∧
    (stmts = [some .ExplainStmt] →
      ExtractSensitiveField parse conv fuel ext statement = (.ok none, ext)) ∧
    (∀ node, stmts = [some node] → (∀ s, node ≠ .SelectStmt s) → node ≠ .ExplainStmt →
      ExtractSensitiveField parse conv fuel ext statement
        = (.error .expectQueryStatement, ext)) ∧
    (∀ s fieldList ext1, stmts = [some (.SelectStmt s)] →
      pgExtractNode conv fuel ext (some (.SelectStmt s)) = (.ok fieldList, ext1) →
      ExtractSensitiveField parse conv fuel ext statement
        = (.ok (some (fieldList.map (fun field =>
            ({ Name := field.Name, MaskingLevel := field.MaskingLevel } : SensitiveField)))),
           ext1)) := by
  refine ⟨?_, ?_, ?_, ?_⟩
  · intro h
    simp only [ExtractSensitiveField, hp, h, ne_eq, not_false_eq_true, if_true]
  · rintro rfl
    simp [ExtractSensitiveField, hp]
  · rintro node rfl hs he
    cases node
    case SelectStmt s => exact absurd rfl (hs s)
    case ExplainStmt => exact absurd rfl he
    all_goals simp [ExtractSensitiveField, hp]
  · rintro s fieldList ext1 rfl h
    simp [ExtractSensitiveField, hp, h]

end EntryPointProperties

/-- Witness of C18: two statements fail, `EXPLAIN SELECT a FROM t` returns null, a statement
that is no query fails, and `SELECT a FROM t` over the scenario catalog returns the non-null
list `[(a, NONE)]`. -/
theorem ExtractSensitiveField_dispatch_witness :
    ExtractSensitiveField (fun _ => .ok [some .ExplainStmt, some .ExplainStmt])
        ConvertNodeListToColumnNameDef 5 { SchemaInfo := scenarioCatalog } "EXPLAIN a; EXPLAIN b"
      = (.error (.expectOneStatement 2), { SchemaInfo := scenarioCatalog }) ∧
    ExtractSensitiveField (fun _ => .ok [some .ExplainStmt])
        ConvertNodeListToColumnNameDef 5 { SchemaInfo := scenarioCatalog }
        "EXPLAIN SELECT a FROM t"
      = (.ok none, { SchemaInfo := scenarioCatalog }) ∧
    ExtractSensitiveField (fun _ => .ok [some .other])
        ConvertNodeListToColumnNameDef 5 { SchemaInfo := scenarioCatalog } "DROP TABLE t"
      = (.error .expectQueryStatement, { SchemaInfo := scenarioCatalog }) ∧
    ExtractSensitiveField
        (fun _ => .ok [some (.SelectStmt (selectFrom [rangeVar "t"] [resTarget "" (columnRef "a")]))])
        ConvertNodeListToColumnNameDef 5 { SchemaInfo := scenarioCatalog } "SELECT a FROM t"
      = (.ok (some [{ Name := "a", MaskingLevel := .NONE }]), { SchemaInfo := scenarioCatalog }) :=
  ⟨(ExtractSensitiveField_dispatch (fun _ => .ok [some .ExplainStmt, some .ExplainStmt])
      ConvertNodeListToColumnNameDef 5 { SchemaInfo := scenarioCatalog } "EXPLAIN a; EXPLAIN b"
      [some .ExplainStmt, some .ExplainStmt] rfl).1 (by decide),
   (ExtractSensitiveField_dispatch (fun _ => .ok [some .ExplainStmt])
      ConvertNodeListToColumnNameDef 5 { SchemaInfo := scenarioCatalog }
      "EXPLAIN SELECT a FROM t" [some .ExplainStmt] rfl).2.1 rfl,
   (ExtractSensitiveField_dispatch (fun _ => .ok [some .other])
      ConvertNodeListToColumnNameDef 5 { SchemaInfo := scenarioCatalog } "DROP TABLE t"
      [some .other] rfl).2.2.1 .other rfl (fun _ h => by cases h) (fun h => by cases h),
   (ExtractSensitiveField_dispatch
      (fun _ => .ok [some (.SelectStmt (selectFrom [rangeVar "t"] [resTarget "" (columnRef "a")]))])
      ConvertNodeListToColumnNameDef 5 { SchemaInfo := scenarioCatalog } "SELECT a FROM t"
      [some (.SelectStmt (selectFrom [rangeVar "t"] [resTarget "" (columnRef "a")]))] rfl).2.2.2
      (selectFrom [rangeVar "t"] [resTarget "" (columnRef "a")])
      [{ Name := "a", MaskingLevel := .NONE }] { SchemaInfo := scenarioCatalog } rfl rfl⟩

/-- C17, the code at `SELECT a FROM pg_catalog.foo`: over the scenario catalog, which has no
schema `pg_catalog`, the table lookup fails with the text `Table "foo" not found`, made of
the table name alone (masking.go 294); the regular expression of line 62 asks for a dot
between the quotes, so it does not match and `ExtractSensitiveField` returns the error, not
null. A miss is suppressed only when the relation name itself holds the dot, as for the
relation named `pg_catalog.foo` without schema qualifier. -/
theorem ExtractSensitiveField_system_schema_miss :
    ExtractSensitiveField
        (fun _ => .ok [some (.SelectStmt
          (selectFrom [.RangeVar "pg_catalog" "foo" none] [resTarget "" (columnRef "a")]))])
        ConvertNodeListToColumnNameDef 5 { SchemaInfo := scenarioCatalog }
        "SELECT a FROM pg_catalog.foo"
      = (.error (.tableNotFound "foo"), { SchemaInfo := scenarioCatalog }) ∧
    tableNotFoundSubmatch (.tableNotFound "foo") = none ∧
    ExtractSensitiveField
        (fun _ => .ok [some (.SelectStmt
          (selectFrom [.RangeVar "" "pg_catalog.foo" none] [resTarget "" (columnRef "a")]))])
        ConvertNodeListToColumnNameDef 5 { SchemaInfo := scenarioCatalog }
        "SELECT a FROM \"pg_catalog.foo\""
      = (.ok none, { SchemaInfo := scenarioCatalog }) :=
  ⟨rfl, by decide, rfl⟩

/-! ## Name derivation fallback -/

section NameDerivation

variable (conv : List Node → Except Error ColumnNameDef)

/-- C20, as amended. Name-derivation fallback: `pgExtractFieldName` returns the sentinel
`"?column?"` for a nil node and for every node whose kind is neither one of those listed in
the name-derivation table nor RowExpr nor ResTarget. -/
theorem pgExtractFieldName_fallback :
    pgExtractFieldName conv none = .ok pgUnknownFieldName ∧
    ∀ node : Node, inNameDerivationTable node = false →
      (∀ name val, node ≠ .ResTarget name val) → (∀ args, node ≠ .RowExpr args) →
      pgExtractFieldName conv (some node) = .ok pgUnknownFieldName := by
  refine ⟨by simp [pgExtractFieldName], ?_⟩
  intro node ht hr hw
  cases node
  case ResTarget name val => exact absurd rfl (hr name val)
  case RowExpr args => exact absurd rfl (hw args)
  all_goals first
    | exact Bool.noConfusion ht
    | rfl

end NameDerivation

/-- Witness of C20: the operator expression `a + b` (an A_Expr) is named `?column?`. -/
theorem pgExtractFieldName_fallback_witness :
    pgExtractFieldName ConvertNodeListToColumnNameDef (some (.AExpr none none))
      = .ok pgUnknownFieldName :=
  (pgExtractFieldName_fallback ConvertNodeListToColumnNameDef).2 (.AExpr none none) rfl
    (fun _ _ h => by cases h) (fun _ h => by cases h)

/-- C20 fails as stated: a RowExpr and a ResTarget are not among the kinds of the
name-derivation table, yet `ROW()` is named `row` (masking.go 666-667) and a ResTarget with
a name is named by it (577-581), not `?column?`. -/
theorem pgExtractFieldName_fallback_counterexample :
    inNameDerivationTable (.RowExpr []) = false ∧
    pgExtractFieldName ConvertNodeListToColumnNameDef (some (.RowExpr [])) = .ok "row" ∧
    "row" ≠ pgUnknownFieldName ∧
    inNameDerivationTable (.ResTarget "k" none) = false ∧
    pgExtractFieldName ConvertNodeListToColumnNameDef (some (.ResTarget "k" none)) = .ok "k" ∧
    "k" ≠ pgUnknownFieldName :=
  ⟨rfl, rfl, by decide, rfl, rfl, by decide⟩

/-! ## Common table expressions -/

section CommonTableExpressions

variable (conv : List Node → Except Error ColumnNameDef)

theorem applyAliascolnames_names (names : List String) (Fl : List FieldInfo) :
    applyAliascolnames (names.map Node.String_) Fl =
      if names = [] then .ok Fl
      else if names.length ≠ Fl.length then .error .cteColumnCount
      else .ok (List.zipWith (fun field name => { field with Name := name }) Fl names) := by
  unfold applyAliascolnames
  cases names with
  | nil => simp
  | cons a l =>
    simp only [List.map_cons, List.length_cons, List.length_map, gt_iff_lt, Nat.zero_lt_succ,
      if_true, reduceCtorEq, if_false]
    split
    · rfl
    · rw [← List.map_cons, stringNodeList_map]

theorem cteTableSchema_zipWith (ctename : String) (names : List String) (Fl : List FieldInfo) :
    cteTableSchema ctename (List.zipWith (fun field name => { field with Name := name }) Fl names)
      = { Name := ctename
          ColumnList := List.zipWith (fun name f =>
            ({ Name := name, MaskingLevel := f.MaskingLevel } : ColumnInfo)) names Fl } := by
  unfold cteTableSchema
  congr 1
  induction Fl generalizing names with
  | nil => cases names <;> rfl
  | cons f Fl ih =>
    cases names with
    | nil => rfl
    | cons n names => simp [List.zipWith, ih]

/-- C11. Non-recursive CTE schema: for a CTE whose body evaluates to the field list `Fl`,
`pgExtractNonRecursiveCTE` fails when the CTE has a non-empty column-name list `names` whose
length differs from the length of `Fl`, and otherwise returns the `TableSchema` whose name is
the CTE name and whose columns are, in order, the levels of `Fl` paired positionally with
`names` when given and with the names of `Fl` otherwise. -/
theorem pgExtractNonRecursiveCTE_schema (fuel : Nat) (ext ext1 : SensitiveFieldExtractor)
    (ctename : String) (names : List String) (ctequery : Option Node) (Fl : List FieldInfo)
    (hq : pgExtractNode conv fuel ext ctequery = (.ok Fl, ext1)) :
    pgExtractNonRecursiveCTE conv (fuel + 1) ext ctename (names.map Node.String_) ctequery =
      (if names ≠ [] ∧ names.length ≠ Fl.length then .error .cteColumnCount
       else .ok
        { Name := ctename
          ColumnList :=
            if names = [] then
              Fl.map (fun f => ({ Name := f.Name, MaskingLevel := f.MaskingLevel } : ColumnInfo))
            else
              List.zipWith (fun name f =>
                ({ Name := name, MaskingLevel := f.MaskingLevel } : ColumnInfo)) names Fl },
       ext1) := by
  simp only [pgExtractNonRecursiveCTE, hq, applyAliascolnames_names]
  by_cases hn : names = []
  · simp [hn, cteTableSchema]
  · by_cases hl : names.length = Fl.length
    · simp [hn, hl, cteTableSchema_zipWith]
    · simp [hn, hl]

theorem MaskingLevel.toNat_le (a : MaskingLevel) : a.toNat ≤ 3 := by
  cases a <;> decide

theorem levelSum_le (columns : List ColumnInfo) : levelSum columns ≤ 3 * columns.length := by
  induction columns with
  | nil => simp [levelSum]
  | cons c l ih =>
    have := MaskingLevel.toNat_le c.MaskingLevel
    simp only [levelSum, List.map_cons, List.sum_cons, List.length_cons] at ih ⊢
    omega

theorem raiseColumns_length (cteInfo : TableSchema) (fieldList : List FieldInfo)
    (h : fieldList.length = cteInfo.ColumnList.length) :
    (raiseColumns cteInfo fieldList).1.ColumnList.length = cteInfo.ColumnList.length := by
  simp [raiseColumns, h]

theorem raise_zipWith_sum (columns : List ColumnInfo) (fieldList : List FieldInfo)
    (h : fieldList.length = columns.length) :
    levelSum columns ≤ levelSum (List.zipWith (fun (column : ColumnInfo) (field : FieldInfo) =>
        if cmpLess column.MaskingLevel field.MaskingLevel then
          { column with MaskingLevel := field.MaskingLevel }
        else column) columns fieldList) ∧
    ((List.zip columns fieldList).any (fun (p : ColumnInfo × FieldInfo) =>
        cmpLess p.1.MaskingLevel p.2.MaskingLevel) = true →
      levelSum columns < levelSum (List.zipWith (fun (column : ColumnInfo) (field : FieldInfo) =>
        if cmpLess column.MaskingLevel field.MaskingLevel then
          { column with MaskingLevel := field.MaskingLevel }
        else column) columns fieldList)) := by
  induction columns generalizing fieldList with
  | nil => simp [levelSum]
  | cons c l ih =>
    cases fieldList with
    | nil => simp at h
    | cons f fl =>
      have hl : fl.length = l.length := by simpa using h
      obtain ⟨ih1, ih2⟩ := ih fl hl
      simp only [List.zipWith_cons_cons, List.zip_cons_cons, List.any_cons, Bool.or_eq_true,
        levelSum, List.map_cons, List.sum_cons] at ih1 ih2 ⊢
      by_cases hc : cmpLess c.MaskingLevel f.MaskingLevel = true
      · have hlt : c.MaskingLevel.toNat < f.MaskingLevel.toNat := by
          simpa [cmpLess] using hc
        simp only [hc, if_true, true_or, forall_const]
        constructor <;> omega
      · simp only [hc, if_false, false_or, Bool.false_eq_true]
        constructor
        · omega
        · intro ha
          have := ih2 ha
          omega

theorem raiseColumns_sum (cteInfo : TableSchema) (fieldList : List FieldInfo)
    (h : fieldList.length = cteInfo.ColumnList.length) :
    levelSum cteInfo.ColumnList ≤ levelSum (raiseColumns cteInfo fieldList).1.ColumnList ∧
    ((raiseColumns cteInfo fieldList).2 = true →
      levelSum cteInfo.ColumnList < levelSum (raiseColumns cteInfo fieldList).1.ColumnList) :=
  raise_zipWith_sum cteInfo.ColumnList fieldList h

theorem loopCount_fst (fuel : Nat) (ext : SensitiveFieldExtractor) (rarg : SelectStmt)
    (cteInfo : TableSchema) :
    (pgExtractRecursiveCTELoopCount (fun f e => pgExtractSelect conv f e rarg) fuel ext
        cteInfo).1 = pgExtractRecursiveCTELoop conv fuel ext (some rarg) cteInfo := by
  induction fuel generalizing ext cteInfo with
  | zero => rfl
  | succ fuel ih =>
    rw [pgExtractRecursiveCTELoopCount, pgExtractRecursiveCTELoop]
    simp only
    rcases pgExtractSelect conv fuel ext rarg with ⟨r, ext1⟩
    cases r with
    | error e => rfl
    | ok fieldList =>
      simp only
      split
      · rfl
      · split
        · rfl
        · exact ih _ _

theorem loopCount_snd (arm : Nat → SensitiveFieldExtractor → Result (List FieldInfo))
    (fuel : Nat) (ext : SensitiveFieldExtractor) (cteInfo : TableSchema) :
    (pgExtractRecursiveCTELoopCount arm fuel ext cteInfo).2 + levelSum cteInfo.ColumnList
      ≤ 3 * cteInfo.ColumnList.length + 1 := by
  induction fuel generalizing ext cteInfo with
  | zero =>
    have := levelSum_le cteInfo.ColumnList
    simp only [pgExtractRecursiveCTELoopCount]
    omega
  | succ fuel ih =>
    have hle := levelSum_le cteInfo.ColumnList
    rw [pgExtractRecursiveCTELoopCount]
    rcases arm fuel ext with ⟨r, ext1⟩
    cases r with
    | error e => simp only; omega
    | ok fieldList =>
      simp only
      split
      · simp only; omega
      · rename_i hlen
        have hlen : fieldList.length = cteInfo.ColumnList.length := by
          simpa using hlen
        split
        · simp only; omega
        · rename_i hch
          have hch : (raiseColumns cteInfo fieldList).2 = true := by simpa using hch
          have h1 := (raiseColumns_sum cteInfo fieldList hlen).2 hch
          have h2 := raiseColumns_length cteInfo fieldList hlen
          have h3 := ih { ext1 with
                cteOuterSchemaInfo :=
                  ext1.cteOuterSchemaInfo.set (ext1.cteOuterSchemaInfo.length - 1)
                    (raiseColumns cteInfo fieldList).1 } (raiseColumns cteInfo fieldList).1
          rw [h2] at h3
          simp only
          omega

theorem loop_fuel (rarg : SelectStmt) (F : Nat)
    (harm : ∀ f ext, F ≤ f → (pgExtractSelect conv f ext rarg).1 ≠ .error .outOfFuel)
    (k : Nat) (ext : SensitiveFieldExtractor) (cteInfo : TableSchema)
    (hk : 3 * cteInfo.ColumnList.length + 1 ≤ k + levelSum cteInfo.ColumnList) :
    (pgExtractRecursiveCTELoop conv (F + k) ext (some rarg) cteInfo).1 ≠ .error .outOfFuel := by
  induction k generalizing ext cteInfo with
  | zero =>
    have := levelSum_le cteInfo.ColumnList
    omega
  | succ k ih =>
    have hle := levelSum_le cteInfo.ColumnList
    rw [← Nat.add_assoc, pgExtractRecursiveCTELoop]
    simp only
    have ha := harm (F + k) ext (Nat.le_add_right _ _)
    generalize pgExtractSelect conv (F + k) ext rarg = res at ha ⊢
    rcases res with ⟨r, ext1⟩
    cases r with
    | error e => simpa using ha
    | ok fieldList =>
      simp only
      split
      · simp
      · rename_i hlen
        have hlen : fieldList.length = cteInfo.ColumnList.length := by
          simpa using hlen
        split
        · simp
        · rename_i hch
          have hch : (raiseColumns cteInfo fieldList).2 = true := by simpa using hch
          have h1 := (raiseColumns_sum cteInfo fieldList hlen).2 hch
          have h2 := raiseColumns_length cteInfo fieldList hlen
          apply ih
          rw [h2]
          omega

/-- C13. Recursive CTE termination bound: from a CTE schema of `n` columns (in
`pgExtractRecursiveCTE` the schema of the seed, so `n` is the seed's arity), the fixpoint
loop evaluates the recursive arm at most `3 * n + 1` times, whatever fuel it is given (the
counting loop returns what the loop returns, and its count is at most `3 * n + 1`); and the
loop does not run out of fuel when it is given `3 * n + 1` units more than a fuel `F` from
which the evaluations of the arm do not run out. Each pass that continues raises the sum of
the levels, which is at most `3 * n`. -/
theorem pgExtractRecursiveCTELoop_bound (fuel : Nat) (ext : SensitiveFieldExtractor)
    (rarg : SelectStmt) (cteInfo : TableSchema) :
    (pgExtractRecursiveCTELoopCount (fun f e => pgExtractSelect conv f e rarg) fuel ext
        cteInfo).1 = pgExtractRecursiveCTELoop conv fuel ext (some rarg) cteInfo ∧
    (pgExtractRecursiveCTELoopCount (fun f e => pgExtractSelect conv f e rarg) fuel ext
        cteInfo).2 ≤ 3 * cteInfo.ColumnList.length + 1 ∧
    ∀ F, (∀ f ext1, F ≤ f → (pgExtractSelect conv f ext1 rarg).1 ≠ .error .outOfFuel) →
      F + (3 * cteInfo.ColumnList.length + 1) ≤ fuel →
      (pgExtractRecursiveCTELoop conv fuel ext (some rarg) cteInfo).1 ≠ .error .outOfFuel := by
  refine ⟨loopCount_fst conv fuel ext rarg cteInfo, ?_, ?_⟩
  · have := loopCount_snd (fun f e => pgExtractSelect conv f e rarg) fuel ext cteInfo
    omega
  · intro F harm hF
    obtain ⟨k, rfl⟩ := Nat.exists_eq_add_of_le hF
    have := loop_fuel conv rarg F harm (3 * cteInfo.ColumnList.length + 1 + k) ext cteInfo
      (by omega)
    rwa [← Nat.add_assoc] at this

theorem sameScope_refl (a : SensitiveFieldExtractor) : SameScope a a := ⟨rfl, rfl, rfl⟩

theorem sameScope_trans {a b c : SensitiveFieldExtractor} (h1 : SameScope a b)
    (h2 : SameScope b c) : SameScope a c :=
  ⟨h1.1.trans h2.1, h1.2.1.trans h2.2.1, h1.2.2.trans h2.2.2⟩

theorem sameScope_of_from (a : SensitiveFieldExtractor) (l : List FieldInfo) :
    SameScope a { a with fromFieldList := l } := ⟨rfl, rfl, rfl⟩

theorem fromClauseLoop_scope
    (extractNode : SensitiveFieldExtractor → Option Node → Result (List FieldInfo))
    (h : ∀ ext n, SameScope ext (extractNode ext n).2) (ext : SensitiveFieldExtractor)
    (acc : List FieldInfo) (l : List Node) :
    SameScope ext (fromClauseLoop extractNode ext acc l).2 := by
  induction l generalizing ext acc with
  | nil => exact sameScope_refl _
  | cons item rest ih =>
    rw [fromClauseLoop]
    have h1 := h ext (some item)
    generalize extractNode ext (some item) = res at *
    rcases res with ⟨r, ext1⟩
    cases r with
    | error e => exact h1
    | ok fl => exact sameScope_trans h1 (sameScope_trans (sameScope_of_from _ _) (ih _ _))

theorem withClauseLoop_scope
    (recursiveCTE nonRecursiveCTE :
      SensitiveFieldExtractor → String → List Node → Option Node → Result TableSchema)
    (h1 : ∀ ext a b c, SameScope ext (recursiveCTE ext a b c).2)
    (h2 : ∀ ext a b c, SameScope ext (nonRecursiveCTE ext a b c).2)
    (Recursive : Bool) (ext : SensitiveFieldExtractor) (l : List Node) :
    (withClauseLoop recursiveCTE nonRecursiveCTE Recursive ext l).2.SchemaInfo = ext.SchemaInfo ∧
    (withClauseLoop recursiveCTE nonRecursiveCTE Recursive ext l).2.outerSchemaInfo
      = ext.outerSchemaInfo ∧
    ∃ extra, (withClauseLoop recursiveCTE nonRecursiveCTE Recursive ext l).2.cteOuterSchemaInfo
      = ext.cteOuterSchemaInfo ++ extra := by
  induction l generalizing ext with
  | nil => exact ⟨rfl, rfl, [], by simp [withClauseLoop]⟩
  | cons cte rest ih =>
    cases cte
    case CommonTableExpr ctename aliascolnames ctequery =>
      rw [withClauseLoop]
      have hs : SameScope ext (if Recursive = true then recursiveCTE ext ctename aliascolnames ctequery
          else nonRecursiveCTE ext ctename aliascolnames ctequery).2 := by
        split
        · exact h1 _ _ _ _
        · exact h2 _ _ _ _
      generalize (if Recursive = true then recursiveCTE ext ctename aliascolnames ctequery
          else nonRecursiveCTE ext ctename aliascolnames ctequery) = res at *
      rcases res with ⟨r, ext1⟩
      cases r with
      | error e => exact ⟨hs.1.symm, hs.2.1.symm, [], by simp [hs.2.2]⟩
      | ok table =>
        obtain ⟨i1, i2, extra, i3⟩ := ih
          { ext1 with cteOuterSchemaInfo := ext1.cteOuterSchemaInfo ++ [table] }
        refine ⟨i1.trans hs.1.symm, i2.trans hs.2.1.symm, [table] ++ extra, ?_⟩
        rw [i3]
        simp only [hs.2.2, List.append_assoc]
    all_goals exact ⟨rfl, rfl, [], by simp [withClauseLoop]⟩

theorem valuesRowLoop_state (level : SensitiveFieldExtractor → Option Node → Result MaskingLevel)
    (h : ∀ ext n, (level ext n).2 = ext) (ext : SensitiveFieldExtractor)
    (acc : List MaskingLevel) (l : List Node) : (valuesRowLoop level ext acc l).2 = ext := by
  induction l generalizing acc with
  | nil => rfl
  | cons item rest ih =>
    rw [valuesRowLoop]
    have h1 := h ext (some item)
    generalize level ext (some item) = res at *
    rcases res with ⟨r, ext1⟩
    simp only at h1
    subst h1
    cases r with
    | error e => rfl
    | ok v => exact ih _

theorem valuesLoop_state (level : SensitiveFieldExtractor → Option Node → Result MaskingLevel)
    (h : ∀ ext n, (level ext n).2 = ext) (ext : SensitiveFieldExtractor)
    (acc : List FieldInfo) (l : List Node) : (valuesLoop level ext acc l).2 = ext := by
  induction l generalizing acc with
  | nil => rfl
  | cons row rest ih =>
    cases row
    case List items =>
      rw [valuesLoop]
      simp only
      have h1 := valuesRowLoop_state level h ext [] items
      generalize valuesRowLoop level ext [] items = res at *
      rcases res with ⟨r, ext1⟩
      simp only at h1
      subst h1
      cases r with
      | error e => rfl
      | ok v => exact ih _
    all_goals rfl

theorem targetListLoop_state
    (level : SensitiveFieldExtractor → Option Node → Result MaskingLevel)
    (h : ∀ ext n, (level ext n).2 = ext) (fromFieldList : List FieldInfo)
    (ext : SensitiveFieldExtractor) (acc : List FieldInfo) (l : List Node) :
    (targetListLoop conv level fromFieldList ext acc l).2 = ext := by
  induction l generalizing acc with
  | nil => rfl
  | cons field rest ih =>
    cases field
    case ResTarget name val =>
      cases val with
      | none => rfl
      | some v =>
        have h1 := h ext (some v)
        have hstep : ∀ fieldName : Except Error String,
            (match level ext (some v) with
              | (.error e, extractor) => ((.error e, extractor) : Result (List FieldInfo))
              | (.ok maskingLevel, extractor) =>
                match fieldName with
                | .error e => (.error e, extractor)
                | .ok fieldName =>
                  targetListLoop conv level fromFieldList extractor
                    (acc ++ [({ Name := fieldName, MaskingLevel := maskingLevel } : FieldInfo)])
                    rest).2
              = ext := by
          intro fieldName
          generalize level ext (some v) = res at h1 ⊢
          rcases res with ⟨r, ext1⟩
          simp only at h1
          subst h1
          cases r with
          | error e => rfl
          | ok lv =>
            cases fieldName with
            | error e => rfl
            | ok n => exact ih _
        by_cases hcr : ∃ fields, v = .ColumnRef fields
        · obtain ⟨fields, rfl⟩ := hcr
          rw [targetListLoop_columnRef]
          split
          · exact ih _
          · cases conv fields with
            | error e => rfl
            | ok d => exact hstep _
        · rw [targetListLoop_other conv level _ _ _ _ _ _ (fun f hf => hcr ⟨f, hf⟩)]
          exact hstep _
    all_goals rfl

theorem pgExtractSelectBody_scope
    (extractSelect : SensitiveFieldExtractor → SelectStmt → Result (List FieldInfo))
    (extractNode : SensitiveFieldExtractor → Option Node → Result (List FieldInfo))
    (level : SensitiveFieldExtractor → Option Node → Result MaskingLevel)
    (hs : ∀ ext n, SameScope ext (extractSelect ext n).2)
    (hn : ∀ ext n, SameScope ext (extractNode ext n).2)
    (hl : ∀ ext n, (level ext n).2 = ext)
    (ext : SensitiveFieldExtractor) (node : SelectStmt) :
    SameScope ext (pgExtractSelectBody conv extractSelect extractNode level ext node).2 := by
  unfold pgExtractSelectBody
  split
  · rw [valuesLoop_state level hl]
    exact sameScope_refl _
  · have hset : SameScope ext
        (match node.Larg with
          | none => ((.error .panic, ext) : Result (List FieldInfo))
          | some larg =>
            match extractSelect ext larg with
            | (.error e, extractor) => (.error e, extractor)
            | (.ok leftField, extractor) =>
              match node.Rarg with
              | none => (.error .panic, extractor)
              | some rarg =>
                match extractSelect extractor rarg with
                | (.error e, extractor) => (.error e, extractor)
                | (.ok rightField, extractor) =>
                  if leftField.length ≠ rightField.length then
                    (.error .setOpColumnCount, extractor)
                  else (.ok (setOpFields leftField rightField), extractor)).2 := by
      cases node.Larg with
      | none => exact sameScope_refl _
      | some larg =>
        simp only
        have h1 := hs ext larg
        generalize extractSelect ext larg = res at *
        rcases res with ⟨r, ext1⟩
        cases r with
        | error e => exact h1
        | ok lf =>
          simp only
          cases node.Rarg with
          | none => exact h1
          | some rarg =>
            simp only
            have h2 := hs ext1 rarg
            generalize extractSelect ext1 rarg = res at *
            rcases res with ⟨r2, ext2⟩
            cases r2 with
            | error e => exact sameScope_trans h1 h2
            | ok rf =>
              simp only
              split
              · exact sameScope_trans h1 h2
              · exact sameScope_trans h1 h2
    cases node.Op with
    | SETOP_UNION => exact hset
    | SETOP_INTERSECT => exact hset
    | SETOP_EXCEPT => exact hset
    | SET_OPERATION_UNDEFINED => exact sameScope_refl _
    | SETOP_NONE =>
      simp only
      have h1 := fromClauseLoop_scope extractNode hn ext [] node.FromClause
      generalize fromClauseLoop extractNode ext [] node.FromClause = res at *
      rcases res with ⟨r, ext1⟩
      cases r with
      | error e => exact h1
      | ok fl =>
        simp only
        rw [targetListLoop_state conv level hl]
        exact sameScope_trans h1 (sameScope_of_from _ _)

theorem dropLast_set_last {α : Type} (l : List α) (x : α) :
    (l.set (l.length - 1) x).dropLast = l.dropLast := by
  induction l with
  | nil => rfl
  | cons a l ih =>
    cases l with
    | nil => rfl
    | cons b l =>
      simp only [List.length_cons, Nat.add_sub_cancel] at ih ⊢
      rw [List.set_cons_succ, List.dropLast_cons₂]
      cases hl : (b :: l).set l.length x with
      | nil => simp at hl
      | cons c l2 =>
        rw [List.dropLast_cons₂, ← hl, ih]

/-- Every function of the evaluator returns, whatever the outcome, with the catalog, the
outer scope and the CTE stack it was entered with; the fixpoint loop may have replaced the
top entry of the CTE stack. -/
theorem scope_inv (fuel : Nat) :
    (∀ ext n, SameScope ext (pgExtractNode conv fuel ext n).2) ∧
    (∀ ext a b c d, SameScope ext (pgExtractJoin conv fuel ext a b c d).2) ∧
    (∀ ext a b, SameScope ext (pgExtractRangeSubselect conv fuel ext a b).2) ∧
    (∀ ext a b c, SameScope ext (pgExtractRecursiveCTE conv fuel ext a b c).2) ∧
    (∀ ext a b,
      (pgExtractRecursiveCTELoop conv fuel ext a b).2.SchemaInfo = ext.SchemaInfo ∧
      (pgExtractRecursiveCTELoop conv fuel ext a b).2.outerSchemaInfo = ext.outerSchemaInfo ∧
      (pgExtractRecursiveCTELoop conv fuel ext a b).2.cteOuterSchemaInfo.dropLast
        = ext.cteOuterSchemaInfo.dropLast) ∧
    (∀ ext a b c, SameScope ext (pgExtractNonRecursiveCTE conv fuel ext a b c).2) ∧
    (∀ ext n, SameScope ext (pgExtractSelect conv fuel ext n).2) := by
  induction fuel with
  | zero =>
    exact ⟨fun _ _ => sameScope_refl _, fun _ _ _ _ _ => sameScope_refl _,
      fun _ _ _ => sameScope_refl _, fun _ _ _ _ => sameScope_refl _,
      fun _ _ _ => ⟨rfl, rfl, rfl⟩, fun _ _ _ _ => sameScope_refl _,
      fun _ _ => sameScope_refl _⟩
  | succ fuel ih =>
    obtain ⟨ihNode, ihJoin, ihSub, ihRec, ihLoop, ihNon, ihSel⟩ := ih
    refine ⟨?_, ?_, ?_, ?_, ?_, ?_, ?_⟩
    · intro ext n
      cases n with
      | none => exact sameScope_refl _
      | some node =>
        cases node <;> simp only [pgExtractNode] <;> first
          | exact sameScope_refl _
          | exact ihSel _ _
          | exact ihSub _ _ _
          | exact ihJoin _ _ _ _ _
          | skip
        case RangeVar s r a =>
          unfold pgExtractRangeVar
          cases pgFindTableSchema ext s r with
          | error e => exact sameScope_refl _
          | ok t =>
            simp only
            cases a with
            | none => exact sameScope_refl _
            | some al =>
              simp only
              cases pgExtractAlias (some al) with
              | error e => exact sameScope_refl _
              | ok p =>
                simp only
                split <;> exact sameScope_refl _
    · intro ext a b c d
      rw [pgExtractJoin]
      have h1 := ihNode ext b
      generalize pgExtractNode conv fuel ext b = res at *
      rcases res with ⟨r, ext1⟩
      cases r with
      | error e => exact h1
      | ok lf =>
        simp only
        have h2 := ihNode ext1 c
        generalize pgExtractNode conv fuel ext1 c = res at *
        rcases res with ⟨r2, ext2⟩
        cases r2 with
        | error e => exact sameScope_trans h1 h2
        | ok rf => exact sameScope_trans h1 h2
    · intro ext a b
      rw [pgExtractRangeSubselect]
      have h1 := ihNode ext a
      generalize pgExtractNode conv fuel ext a = res at *
      rcases res with ⟨r, ext1⟩
      cases r with
      | error e => exact h1
      | ok fl =>
        simp only
        cases b with
        | none => exact h1
        | some al =>
          simp only
          cases pgExtractAlias (some al) with
          | error e => exact h1
          | ok p =>
            simp only
            split <;> exact h1
    · intro ext a b c
      cases c with
      | none => exact sameScope_refl _
      | some q =>
        cases q
        case SelectStmt sel =>
          simp only [pgExtractRecursiveCTE]
          split
          · exact ihNon _ _ _ _
          · cases sel.Larg with
            | none => exact sameScope_refl _
            | some larg =>
              simp only
              have h1 := ihSel ext larg
              generalize pgExtractSelect conv fuel ext larg = res at *
              rcases res with ⟨r, ext1⟩
              cases r with
              | error e => exact h1
              | ok seed =>
                simp only
                cases applyAliascolnames b seed with
                | error e => exact h1
                | ok seed2 =>
                  simp only
                  have hl := ihLoop { ext1 with
                      cteOuterSchemaInfo :=
                        ext1.cteOuterSchemaInfo ++ [cteTableSchema a seed2] }
                    sel.Rarg (cteTableSchema a seed2)
                  obtain ⟨l1, l2, l3⟩ := hl
                  refine ⟨h1.1.trans l1.symm, h1.2.1.trans l2.symm, ?_⟩
                  simp only [l3, List.dropLast_concat]
                  exact h1.2.2
        all_goals (simp only [pgExtractRecursiveCTE]; exact ihNon _ _ _ _)
    · intro ext a b
      cases a with
      | none => exact ⟨rfl, rfl, rfl⟩
      | some rarg =>
        simp only [pgExtractRecursiveCTELoop]
        have h1 := ihSel ext rarg
        generalize pgExtractSelect conv fuel ext rarg = res at *
        rcases res with ⟨r, ext1⟩
        cases r with
        | error e => exact ⟨h1.1.symm, h1.2.1.symm, by rw [h1.2.2]⟩
        | ok fl =>
          simp only
          split
          · exact ⟨h1.1.symm, h1.2.1.symm, by rw [h1.2.2]⟩
          · split
            · exact ⟨h1.1.symm, h1.2.1.symm, by rw [h1.2.2]⟩
            · have hl := ihLoop { ext1 with
                    cteOuterSchemaInfo :=
                      ext1.cteOuterSchemaInfo.set (ext1.cteOuterSchemaInfo.length - 1)
                        (raiseColumns b fl).1 } (some rarg) (raiseColumns b fl).1
              obtain ⟨l1, l2, l3⟩ := hl
              refine ⟨l1.trans h1.1.symm, l2.trans h1.2.1.symm, ?_⟩
              rw [l3]
              simp only [dropLast_set_last, h1.2.2]
    · intro ext a b c
      rw [pgExtractNonRecursiveCTE]
      have h1 := ihNode ext c
      generalize pgExtractNode conv fuel ext c = res at *
      rcases res with ⟨r, ext1⟩
      cases r with
      | error e => exact h1
      | ok fl =>
        simp only
        cases applyAliascolnames b fl with
        | error e => exact h1
        | ok fl2 => exact h1
    · intro ext node
      have hl := (level_state conv fuel).1
      rw [pgExtractSelect]
      cases node.WithClause with
      | none =>
        exact pgExtractSelectBody_scope conv _ _ _ ihSel ihNode hl ext node
      | some w =>
        simp only
        obtain ⟨w1, w2, extra, w3⟩ := withClauseLoop_scope (pgExtractRecursiveCTE conv fuel)
          (pgExtractNonRecursiveCTE conv fuel) ihRec ihNon w.Recursive ext w.Ctes
        generalize withClauseLoop (pgExtractRecursiveCTE conv fuel)
          (pgExtractNonRecursiveCTE conv fuel) w.Recursive ext w.Ctes = res at *
        rcases res with ⟨r, ext1⟩
        simp only at w1 w2 w3
        cases r with
        | error e =>
          refine ⟨w1.symm, w2.symm, ?_⟩
          simp [w3]
        | ok u =>
          simp only
          have hb := pgExtractSelectBody_scope conv (pgExtractSelect conv fuel)
            (pgExtractNode conv fuel) (pgExtractColumnRefFromExpressionNode conv fuel)
            ihSel ihNode hl ext1 node
          refine ⟨w1.symm.trans hb.1, w2.symm.trans hb.2.1, ?_⟩
          simp only
          rw [← hb.2.2, w3]
          simp

theorem forall₂_le_trans {α β γ : Type} (fa : α → MaskingLevel) (fb : β → MaskingLevel)
    (fc : γ → MaskingLevel) {la : List α} {lb : List β} {lc : List γ}
    (h1 : List.Forall₂ (fun a b => fa a ≤ fb b) la lb)
    (h2 : List.Forall₂ (fun b c => fb b ≤ fc c) lb lc) :
    List.Forall₂ (fun a c => fa a ≤ fc c) la lc := by
  induction h1 generalizing lc with
  | nil => cases h2; exact List.Forall₂.nil
  | cons hab _ ih =>
    cases h2 with
    | cons hbc h2 => exact List.Forall₂.cons (le_trans hab hbc) (ih h2)

theorem raise_zipWith_spec (columns : List ColumnInfo) (fieldList : List FieldInfo)
    (h : fieldList.length = columns.length) :
    (List.zipWith (fun (column : ColumnInfo) (field : FieldInfo) =>
        if cmpLess column.MaskingLevel field.MaskingLevel then
          { column with MaskingLevel := field.MaskingLevel }
        else column) columns fieldList).map (fun c => c.Name)
      = columns.map (fun c => c.Name) ∧
    List.Forall₂ (fun (c s : ColumnInfo) => c.MaskingLevel ≤ s.MaskingLevel) columns
      (List.zipWith (fun (column : ColumnInfo) (field : FieldInfo) =>
        if cmpLess column.MaskingLevel field.MaskingLevel then
          { column with MaskingLevel := field.MaskingLevel }
        else column) columns fieldList) ∧
    ((List.zip columns fieldList).any (fun (p : ColumnInfo × FieldInfo) =>
        cmpLess p.1.MaskingLevel p.2.MaskingLevel) = false →
      List.zipWith (fun (column : ColumnInfo) (field : FieldInfo) =>
        if cmpLess column.MaskingLevel field.MaskingLevel then
          { column with MaskingLevel := field.MaskingLevel }
        else column) columns fieldList = columns ∧
      List.Forall₂ (fun (field : FieldInfo) (s : ColumnInfo) =>
        field.MaskingLevel ≤ s.MaskingLevel) fieldList columns) := by
  induction columns generalizing fieldList with
  | nil =>
    cases fieldList with
    | nil => simp
    | cons f fl => simp at h
  | cons c l ih =>
    cases fieldList with
    | nil => simp at h
    | cons f fl =>
      have hl : fl.length = l.length := by simpa using h
      obtain ⟨ih1, ih2, ih3⟩ := ih fl hl
      simp only [List.zipWith_cons_cons, List.zip_cons_cons, List.any_cons, List.map_cons]
      by_cases hc : cmpLess c.MaskingLevel f.MaskingLevel = true
      · have hlt := (cmpLess_iff _ _).1 hc
        simp only [hc, if_true, ih1, true_and]
        refine ⟨List.Forall₂.cons hlt.le ih2, ?_⟩
        intro h
        simp at h
      · have hge : f.MaskingLevel ≤ c.MaskingLevel :=
          not_lt.1 (fun h => hc ((cmpLess_iff _ _).2 h))
        have hcf : cmpLess c.MaskingLevel f.MaskingLevel = false := by simpa using hc
        simp only [hcf, Bool.false_eq_true, if_false, ih1, true_and, Bool.false_or]
        refine ⟨List.Forall₂.cons (le_refl _) ih2, ?_⟩
        intro h
        obtain ⟨i1, i2⟩ := ih3 h
        exact ⟨by rw [i1], List.Forall₂.cons hge i2⟩

theorem set_last_append {α : Type} (base : List α) (x y : α) :
    (base ++ [x]).set ((base ++ [x]).length - 1) y = base ++ [y] := by
  induction base with
  | nil => rfl
  | cons a l ih =>
    simp only [List.cons_append, List.length_cons, List.length_append, List.length_singleton,
      List.length_nil, Nat.add_sub_cancel] at ih ⊢
    rw [List.set_cons_succ, ih]

theorem fromKept_refl (a : SensitiveFieldExtractor) : FromKept a a := Or.inl rfl

theorem fromKept_trans {a b c : SensitiveFieldExtractor} (h1 : FromKept a b)
    (h2 : FromKept b c) : FromKept a c := by
  rcases h2 with h2 | h2
  · rcases h1 with h1 | h1
    · exact Or.inl (h2.trans h1)
    · exact Or.inr (h2.trans h1)
  · exact Or.inr h2

theorem withClauseLoop_fromKept
    (recursiveCTE nonRecursiveCTE :
      SensitiveFieldExtractor → String → List Node → Option Node → Result TableSchema)
    (h1 : ∀ ext a b c, ResultFromKept ext (recursiveCTE ext a b c))
    (h2 : ∀ ext a b c, ResultFromKept ext (nonRecursiveCTE ext a b c))
    (Recursive : Bool) (ext : SensitiveFieldExtractor) (l : List Node) :
    ResultFromKept ext (withClauseLoop recursiveCTE nonRecursiveCTE Recursive ext l) := by
  induction l generalizing ext with
  | nil => exact fromKept_refl _
  | cons cte rest ih =>
    cases cte
    case CommonTableExpr ctename aliascolnames ctequery =>
      rw [withClauseLoop]
      have hs : ResultFromKept ext
          (if Recursive = true then recursiveCTE ext ctename aliascolnames ctequery
           else nonRecursiveCTE ext ctename aliascolnames ctequery) := by
        split
        · exact h1 _ _ _ _
        · exact h2 _ _ _ _
      generalize (if Recursive = true then recursiveCTE ext ctename aliascolnames ctequery
          else nonRecursiveCTE ext ctename aliascolnames ctequery) = res at hs ⊢
      rcases res with ⟨r, ext1⟩
      cases r with
      | error e => exact trivial
      | ok table =>
        simp only
        have h3 := ih { ext1 with cteOuterSchemaInfo := ext1.cteOuterSchemaInfo ++ [table] }
        generalize withClauseLoop recursiveCTE nonRecursiveCTE Recursive
          { ext1 with cteOuterSchemaInfo := ext1.cteOuterSchemaInfo ++ [table] } rest
          = res2 at h3 ⊢
        rcases res2 with ⟨r2, ext2⟩
        cases r2 with
        | error e => exact trivial
        | ok u => exact fromKept_trans hs h3
    all_goals exact trivial

theorem pgExtractSelectBody_fromKept
    (extractSelect : SensitiveFieldExtractor → SelectStmt → Result (List FieldInfo))
    (extractNode : SensitiveFieldExtractor → Option Node → Result (List FieldInfo))
    (level : SensitiveFieldExtractor → Option Node → Result MaskingLevel)
    (hs : ∀ ext n, ResultFromKept ext (extractSelect ext n))
    (hl : ∀ ext n, (level ext n).2 = ext)
    (ext : SensitiveFieldExtractor) (node : SelectStmt) :
    ResultFromKept ext (pgExtractSelectBody conv extractSelect extractNode level ext node) := by
  unfold pgExtractSelectBody
  split
  · have h1 := valuesLoop_state level hl ext [] node.ValuesLists
    generalize valuesLoop level ext [] node.ValuesLists = res at h1 ⊢
    rcases res with ⟨r, ext1⟩
    simp only at h1
    subst h1
    cases r with
    | error e => exact trivial
    | ok v => exact fromKept_refl _
  · have hset : ResultFromKept ext
        (match node.Larg with
          | none => ((.error .panic, ext) : Result (List FieldInfo))
          | some larg =>
            match extractSelect ext larg with
            | (.error e, extractor) => (.error e, extractor)
            | (.ok leftField, extractor) =>
              match node.Rarg with
              | none => (.error .panic, extractor)
              | some rarg =>
                match extractSelect extractor rarg with
                | (.error e, extractor) => (.error e, extractor)
                | (.ok rightField, extractor) =>
                  if leftField.length ≠ rightField.length then
                    (.error .setOpColumnCount, extractor)
                  else (.ok (setOpFields leftField rightField), extractor)) := by
      cases node.Larg with
      | none => exact trivial
      | some larg =>
        simp only
        have h1 := hs ext larg
        generalize extractSelect ext larg = res at h1 ⊢
        rcases res with ⟨r, ext1⟩
        cases r with
        | error e => exact trivial
        | ok lf =>
          simp only
          cases node.Rarg with
          | none => exact trivial
          | some rarg =>
            simp only
            have h2 := hs ext1 rarg
            generalize extractSelect ext1 rarg = res at h2 ⊢
            rcases res with ⟨r2, ext2⟩
            cases r2 with
            | error e => exact trivial
            | ok rf =>
              simp only
              split
              · exact trivial
              · exact fromKept_trans h1 h2
    cases node.Op with
    | SETOP_UNION => exact hset
    | SETOP_INTERSECT => exact hset
    | SETOP_EXCEPT => exact hset
    | SET_OPERATION_UNDEFINED => exact trivial
    | SETOP_NONE =>
      simp only
      generalize fromClauseLoop extractNode ext [] node.FromClause = res
      rcases res with ⟨r, ext1⟩
      cases r with
      | error e => exact trivial
      | ok fl =>
        simp only
        generalize targetListLoop conv level fl ext1 [] node.TargetList = res
        rcases res with ⟨r2, ext2⟩
        cases r2 with
        | error e => exact trivial
        | ok v => exact Or.inr rfl

/-- Every function of the evaluator that succeeds returns with the FROM list it was entered
with, or with an empty one. -/
theorem fromKept_inv (fuel : Nat) :
    (∀ ext n, ResultFromKept ext (pgExtractNode conv fuel ext n)) ∧
    (∀ ext a b c d, ResultFromKept ext (pgExtractJoin conv fuel ext a b c d)) ∧
    (∀ ext a b, ResultFromKept ext (pgExtractRangeSubselect conv fuel ext a b)) ∧
    (∀ ext a b c, ResultFromKept ext (pgExtractRecursiveCTE conv fuel ext a b c)) ∧
    (∀ ext a b, ResultFromKept ext (pgExtractRecursiveCTELoop conv fuel ext a b)) ∧
    (∀ ext a b c, ResultFromKept ext (pgExtractNonRecursiveCTE conv fuel ext a b c)) ∧
    (∀ ext n, ResultFromKept ext (pgExtractSelect conv fuel ext n)) := by
  induction fuel with
  | zero =>
    exact ⟨fun _ _ => trivial, fun _ _ _ _ _ => trivial, fun _ _ _ => trivial,
      fun _ _ _ _ => trivial, fun _ _ _ => trivial, fun _ _ _ _ => trivial,
      fun _ _ => trivial⟩
  | succ fuel ih =>
    obtain ⟨ihNode, ihJoin, ihSub, ihRec, ihLoop, ihNon, ihSel⟩ := ih
    refine ⟨?_, ?_, ?_, ?_, ?_, ?_, ?_⟩
    · intro ext n
      cases n with
      | none => exact fromKept_refl _
      | some node =>
        cases node <;> simp only [pgExtractNode] <;> first
          | exact fromKept_refl _
          | exact ihSel _ _
          | exact ihSub _ _ _
          | exact ihJoin _ _ _ _ _
          | skip
        case RangeVar s r a =>
          unfold pgExtractRangeVar
          cases pgFindTableSchema ext s r with
          | error e => exact trivial
          | ok t =>
            simp only
            cases a with
            | none => exact fromKept_refl _
            | some al =>
              simp only
              cases pgExtractAlias (some al) with
              | error e => exact trivial
              | ok p =>
                simp only
                split
                · exact trivial
                · exact fromKept_refl _
    · intro ext a b c d
      rw [pgExtractJoin]
      have h1 := ihNode ext b
      generalize pgExtractNode conv fuel ext b = res at h1 ⊢
      rcases res with ⟨r, ext1⟩
      cases r with
      | error e => exact trivial
      | ok lf =>
        simp only
        have h2 := ihNode ext1 c
        generalize pgExtractNode conv fuel ext1 c = res at h2 ⊢
        rcases res with ⟨r2, ext2⟩
        cases r2 with
        | error e => exact trivial
        | ok rf =>
          simp only
          cases pgMergeJoinField a d lf rf with
          | error e => exact trivial
          | ok res => exact fromKept_trans h1 h2
    · intro ext a b
      rw [pgExtractRangeSubselect]
      have h1 := ihNode ext a
      generalize pgExtractNode conv fuel ext a = res at h1 ⊢
      rcases res with ⟨r, ext1⟩
      cases r with
      | error e => exact trivial
      | ok fl =>
        simp only
        cases b with
        | none => exact h1
        | some al =>
          simp only
          cases pgExtractAlias (some al) with
          | error e => exact trivial
          | ok p =>
            simp only
            split
            · exact trivial
            · exact h1
    · intro ext a b c
      cases c with
      | none => exact trivial
      | some q =>
        cases q
        case SelectStmt sel =>
          simp only [pgExtractRecursiveCTE]
          split
          · exact ihNon _ _ _ _
          · cases sel.Larg with
            | none => exact trivial
            | some larg =>
              simp only
              have h1 := ihSel ext larg
              generalize pgExtractSelect conv fuel ext larg = res at h1 ⊢
              rcases res with ⟨r, ext1⟩
              cases r with
              | error e => exact trivial
              | ok seed =>
                simp only
                cases applyAliascolnames b seed with
                | error e => exact trivial
                | ok seed2 =>
                  simp only
                  have hl := ihLoop { ext1 with
                      cteOuterSchemaInfo :=
                        ext1.cteOuterSchemaInfo ++ [cteTableSchema a seed2] }
                    sel.Rarg (cteTableSchema a seed2)
                  generalize pgExtractRecursiveCTELoop conv fuel _ sel.Rarg
                    (cteTableSchema a seed2) = res at hl ⊢
                  rcases res with ⟨r2, ext3⟩
                  cases r2 with
                  | error e => exact trivial
                  | ok S => exact fromKept_trans h1 hl
        all_goals (simp only [pgExtractRecursiveCTE]; exact ihNon _ _ _ _)
    · intro ext a b
      cases a with
      | none => exact trivial
      | some rarg =>
        simp only [pgExtractRecursiveCTELoop]
        have h1 := ihSel ext rarg
        generalize pgExtractSelect conv fuel ext rarg = res at h1 ⊢
        rcases res with ⟨r, ext1⟩
        cases r with
        | error e => exact trivial
        | ok fl =>
          simp only
          split
          · exact trivial
          · split
            · exact h1
            · have hl := ihLoop { ext1 with
                  cteOuterSchemaInfo :=
                    ext1.cteOuterSchemaInfo.set (ext1.cteOuterSchemaInfo.length - 1)
                      (raiseColumns b fl).1 } (some rarg) (raiseColumns b fl).1
              generalize pgExtractRecursiveCTELoop conv fuel _ (some rarg)
                (raiseColumns b fl).1 = res at hl ⊢
              rcases res with ⟨r2, ext3⟩
              cases r2 with
              | error e => exact trivial
              | ok S => exact fromKept_trans h1 hl
    · intro ext a b c
      rw [pgExtractNonRecursiveCTE]
      have h1 := ihNode ext c
      generalize pgExtractNode conv fuel ext c = res at h1 ⊢
      rcases res with ⟨r, ext1⟩
      cases r with
      | error e => exact trivial
      | ok fl =>
        simp only
        cases applyAliascolnames b fl with
        | error e => exact trivial
        | ok fl2 => exact h1
    · intro ext node
      have hl := (level_state conv fuel).1
      rw [pgExtractSelect]
      cases node.WithClause with
      | none => exact pgExtractSelectBody_fromKept conv _ _ _ ihSel hl ext node
      | some w =>
        simp only
        have hw := withClauseLoop_fromKept (pgExtractRecursiveCTE conv fuel)
          (pgExtractNonRecursiveCTE conv fuel) ihRec ihNon w.Recursive ext w.Ctes
        generalize withClauseLoop (pgExtractRecursiveCTE conv fuel)
          (pgExtractNonRecursiveCTE conv fuel) w.Recursive ext w.Ctes = res at hw ⊢
        rcases res with ⟨r, ext1⟩
        cases r with
        | error e => exact trivial
        | ok u =>
          simp only
          have hb := pgExtractSelectBody_fromKept conv (pgExtractSelect conv fuel)
            (pgExtractNode conv fuel) (pgExtractColumnRefFromExpressionNode conv fuel)
            ihSel hl ext1 node
          generalize pgExtractSelectBody conv (pgExtractSelect conv fuel)
            (pgExtractNode conv fuel) (pgExtractColumnRefFromExpressionNode conv fuel)
            ext1 node = res at hb ⊢
          rcases res with ⟨r2, ext2⟩
          cases r2 with
          | error e => exact trivial
          | ok v => exact fromKept_trans hw hb

/-- What a successful run of the fixpoint loop returns: the schema it was started with, with
levels raised, on which the last evaluation of the recursive arm changed nothing. -/
theorem pgExtractRecursiveCTELoop_ok (fuel : Nat) :
    ∀ (ext ext2 : SensitiveFieldExtractor) (rarg : SelectStmt) (cteInfo S : TableSchema)
      (base : List TableSchema),
      ext.cteOuterSchemaInfo = base ++ [cteInfo] →
      pgExtractRecursiveCTELoop conv fuel ext (some rarg) cteInfo = (.ok S, ext2) →
      S.Name = cteInfo.Name ∧
      S.ColumnList.map (fun c => c.Name) = cteInfo.ColumnList.map (fun c => c.Name) ∧
      List.Forall₂ (fun (c s : ColumnInfo) => c.MaskingLevel ≤ s.MaskingLevel)
        cteInfo.ColumnList S.ColumnList ∧
      ∃ f st fl, f < fuel ∧ st.SchemaInfo = ext.SchemaInfo ∧
        st.outerSchemaInfo = ext.outerSchemaInfo ∧
        st.cteOuterSchemaInfo = base ++ [S] ∧ FromKept ext st ∧
        pgExtractSelect conv f st rarg = (.ok fl, ext2) ∧
        List.Forall₂ (fun (field : FieldInfo) (s : ColumnInfo) =>
          field.MaskingLevel ≤ s.MaskingLevel) fl S.ColumnList := by
  induction fuel with
  | zero =>
    intro ext ext2 rarg cteInfo S base _ h
    simp [pgExtractRecursiveCTELoop] at h
  | succ fuel ih =>
    intro ext ext2 rarg cteInfo S base hbase h
    simp only [pgExtractRecursiveCTELoop] at h
    have hsc := (scope_inv conv fuel).2.2.2.2.2.2 ext rarg
    have hfk := (fromKept_inv conv fuel).2.2.2.2.2.2 ext rarg
    generalize hr : pgExtractSelect conv fuel ext rarg = res at h hsc hfk
    rcases res with ⟨r, ext1⟩
    cases r with
    | error e => simp at h
    | ok fl =>
      simp only at h hsc
      split at h
      · simp at h
      · rename_i hlen
        have hlen : fl.length = cteInfo.ColumnList.length := by simpa using hlen
        obtain ⟨s1, s2, s3⟩ := raise_zipWith_spec cteInfo.ColumnList fl hlen
        split at h
        · rename_i hch
          have hch : (List.zip cteInfo.ColumnList fl).any (fun (p : ColumnInfo × FieldInfo) =>
              cmpLess p.1.MaskingLevel p.2.MaskingLevel) = false := by
            simpa [raiseColumns] using hch
          obtain ⟨u1, u2⟩ := s3 hch
          have hS : S = cteInfo := by
            have := (Prod.mk.inj h).1
            simp only [Except.ok.injEq] at this
            rw [← this]
            simp only [raiseColumns, u1]
          have h2 : ext1 = ext2 := (Prod.mk.inj h).2
          subst hS h2
          refine ⟨rfl, rfl, ?_, fuel, ext, fl, Nat.lt_succ_self _, rfl, rfl, hbase,
            fromKept_refl _, hr, u2⟩
          have := s2
          rw [u1] at this
          exact this
        · have hcte : ext1.cteOuterSchemaInfo.set (ext1.cteOuterSchemaInfo.length - 1)
              (raiseColumns cteInfo fl).1 = base ++ [(raiseColumns cteInfo fl).1] := by
            rw [← hsc.2.2, hbase, set_last_append]
          obtain ⟨i1, i2, i3, f, st, fl2, i4, i5, i6, i7, ik, i8, i9⟩ :=
            ih _ ext2 rarg (raiseColumns cteInfo fl).1 S base hcte h
          refine ⟨i1, i2.trans s1, ?_, f, st, fl2, Nat.lt_succ_of_lt i4, ?_, ?_, i7,
            fromKept_trans hfk ik, i8, i9⟩
          · exact forall₂_le_trans _ _ _ s2 i3
          · rw [i5]; exact hsc.1.symm
          · rw [i6]; exact hsc.2.1.symm

theorem stringNodeList_length (l : List Node) (names : List String)
    (h : stringNodeList l = .ok names) : names.length = l.length := by
  induction l generalizing names with
  | nil =>
    simp only [stringNodeList, Except.ok.injEq] at h
    subst h
    rfl
  | cons a l ih =>
    cases a
    case String_ s =>
      simp only [stringNodeList] at h
      cases hl : stringNodeList l with
      | error e => simp [hl] at h
      | ok ns =>
        simp only [hl, Except.ok.injEq] at h
        subst h
        simp [ih ns hl]
    all_goals simp [stringNodeList] at h

theorem zipWith_rename_levels (seed : List FieldInfo) (names : List String)
    (h : names.length = seed.length) :
    List.Forall₂ (fun (a b : FieldInfo) => a.MaskingLevel = b.MaskingLevel) seed
      (List.zipWith (fun (field : FieldInfo) (name : String) => { field with Name := name })
        seed names) := by
  induction seed generalizing names with
  | nil => cases names <;> simp
  | cons f fl ih =>
    cases names with
    | nil => simp at h
    | cons n ns =>
      simp only [List.zipWith_cons_cons]
      exact List.Forall₂.cons rfl (ih ns (by simpa using h))

theorem forall₂_refl_levels (seed : List FieldInfo) :
    List.Forall₂ (fun (a b : FieldInfo) => a.MaskingLevel = b.MaskingLevel) seed seed := by
  induction seed with
  | nil => exact List.Forall₂.nil
  | cons f fl ih => exact List.Forall₂.cons rfl ih

theorem applyAliascolnames_levels (aliascolnames : List Node) (seed renamed : List FieldInfo)
    (h : applyAliascolnames aliascolnames seed = .ok renamed) :
    List.Forall₂ (fun (a b : FieldInfo) => a.MaskingLevel = b.MaskingLevel) seed renamed := by
  unfold applyAliascolnames at h
  split at h
  · split at h
    · cases h
    · rename_i hlen
      have hlen : aliascolnames.length = seed.length := by simpa using hlen
      cases hs : stringNodeList aliascolnames with
      | error e => simp [hs] at h
      | ok names =>
        simp only [hs, Except.ok.injEq] at h
        subst h
        exact zipWith_rename_levels seed names
          ((stringNodeList_length aliascolnames names hs).trans hlen)
  · cases h
    exact forall₂_refl_levels seed

/-- What the fixpoint loop establishes: when `pgExtractRecursiveCTE` succeeds with `S` on a
CTE whose body is a UNION, the initial arm evaluated to a field list `seed`, renamed by the
explicit column names to `renamed`; `S` has the CTE's name, the column names of `renamed` in
order, and levels pointwise at least those of `seed`; and in the state of the loop's last
pass (the catalog, the outer scope and the CTE stack of the call with `S` on top, and as FROM
list the one of the call or the empty one) the recursive arm evaluates to a list of the arity
of `S` whose level in every column is at most the level of `S` in that column. When the FROM
list of the call is not empty this need not be the state of the call, see
`pgExtractRecursiveCTE_not_fixpoint`. -/
theorem pgExtractRecursiveCTE_fixpoint (fuel : Nat) (ext ext2 : SensitiveFieldExtractor)
    (ctename : String) (aliascolnames : List Node) (sel : SelectStmt) (S : TableSchema)
    (hop : sel.Op = .SETOP_UNION)
    (h : pgExtractRecursiveCTE conv (fuel + 1) ext ctename aliascolnames
      (some (.SelectStmt sel)) = (.ok S, ext2)) :
    ∃ larg rarg seed ext1 renamed,
      sel.Larg = some larg ∧ sel.Rarg = some rarg ∧
      pgExtractSelect conv fuel ext larg = (.ok seed, ext1) ∧
      applyAliascolnames aliascolnames seed = .ok renamed ∧
      S.Name = ctename ∧
      S.ColumnList.map (fun c => c.Name) = renamed.map (fun field => field.Name) ∧
      List.Forall₂ (fun (field : FieldInfo) (s : ColumnInfo) =>
        field.MaskingLevel ≤ s.MaskingLevel) seed S.ColumnList ∧
      ∃ f st fl, f < fuel ∧
        SameScope st { ext with cteOuterSchemaInfo := ext.cteOuterSchemaInfo ++ [S] } ∧
        FromKept ext st ∧
        (pgExtractSelect conv f st rarg).1 = .ok fl ∧
        List.Forall₂ (fun (field : FieldInfo) (s : ColumnInfo) =>
          field.MaskingLevel ≤ s.MaskingLevel) fl S.ColumnList := by
  simp only [pgExtractRecursiveCTE, hop, ne_eq, not_true_eq_false, if_false] at h
  cases hl : sel.Larg with
  | none => simp [hl] at h
  | some larg =>
    simp only [hl] at h
    have hsc := (scope_inv conv fuel).2.2.2.2.2.2 ext larg
    have hfk := (fromKept_inv conv fuel).2.2.2.2.2.2 ext larg
    generalize hr : pgExtractSelect conv fuel ext larg = res at h hsc hfk
    rcases res with ⟨r, ext1⟩
    cases r with
    | error e => simp at h
    | ok seed =>
      simp only at h hsc
      cases ha : applyAliascolnames aliascolnames seed with
      | error e => simp [ha] at h
      | ok renamed =>
        simp only [ha] at h
        cases hrarg : sel.Rarg with
        | none =>
          rw [hrarg] at h
          cases fuel <;> simp [pgExtractRecursiveCTELoop] at h
        | some rarg =>
          rw [hrarg] at h
          generalize hloop : pgExtractRecursiveCTELoop conv fuel
            { ext1 with cteOuterSchemaInfo :=
                ext1.cteOuterSchemaInfo ++ [cteTableSchema ctename renamed] }
            (some rarg) (cteTableSchema ctename renamed) = lres at h
          rcases lres with ⟨lr, ext3⟩
          have hS : lr = .ok S := (Prod.mk.inj h).1
          subst hS
          obtain ⟨i1, i2, i3, f, st, fl, i4, i5, i6, i7, ik, i8, i9⟩ :=
            pgExtractRecursiveCTELoop_ok conv fuel _ ext3 rarg (cteTableSchema ctename renamed) S
              ext1.cteOuterSchemaInfo rfl hloop
          have hlv := applyAliascolnames_levels aliascolnames seed renamed ha
          refine ⟨larg, rarg, seed, ext1, renamed, rfl, rfl, hr, ha, i1, ?_, ?_, f, st, fl,
            i4, ⟨i5.trans hsc.1.symm, i6.trans hsc.2.1.symm, ?_⟩, fromKept_trans hfk ik,
            by rw [i8], i9⟩
          · rw [i2]
            simp [cteTableSchema, Function.comp_def]
          · have hseed : List.Forall₂ (fun (field : FieldInfo) (c : ColumnInfo) =>
                field.MaskingLevel ≤ c.MaskingLevel) seed
                (cteTableSchema ctename renamed).ColumnList := by
              simp only [cteTableSchema]
              clear * - hlv
              induction hlv with
              | nil => exact List.Forall₂.nil
              | cons hab _ ih => exact List.Forall₂.cons (le_of_eq hab) ih
            exact forall₂_le_trans _ _ _ hseed i3
          · rw [i7, hsc.2.2]

end CommonTableExpressions

/-! ## Base relations -/

section BaseRelations

variable (conv : List Node → Except Error ColumnNameDef)

theorem aliasFields_zipWith {α : Type} (aliasName : String) (name : α → String)
    (level : α → MaskingLevel) (items : List α) (names pre : List String)
    (hlen : names.length = items.length) (hne : 0 < (pre ++ names).length) :
    (items.enumFrom pre.length).map (fun (p : Nat × α) =>
      ({ Schema := "public", Table := aliasName,
         Name := if (pre ++ names).length > 0 then (pre ++ names).getD p.1 "" else name p.2,
         MaskingLevel := level p.2 } : FieldInfo))
    = List.zipWith (fun n item =>
      ({ Schema := "public", Table := aliasName, Name := n, MaskingLevel := level item }
        : FieldInfo)) names items := by
  induction items generalizing names pre with
  | nil => cases names <;> simp_all
  | cons item items ih =>
    cases names with
    | nil => simp at hlen
    | cons n names =>
      simp only [List.enumFrom_cons, List.map_cons, List.zipWith_cons_cons]
      congr 1
      · have hget : (pre ++ n :: names)[pre.length]? = some n := by
          rw [List.getElem?_append_right (le_refl _)]
          simp
        have hpos : 0 < (pre ++ n :: names).length := hne
        simp only [gt_iff_lt, hpos, if_true, List.getD_eq_getElem?_getD, hget, Option.getD_some]
      · have := ih names (pre ++ [n]) (by simpa using hlen) (by simp)
        simpa [List.append_assoc] using this

theorem aliasFields_names {α : Type} (aliasName : String) (name : α → String)
    (level : α → MaskingLevel) (items : List α) (names : List String)
    (hlen : names.length = items.length) (hne : names ≠ []) :
    aliasFields aliasName names name level items
    = List.zipWith (fun n item =>
      ({ Schema := "public", Table := aliasName, Name := n, MaskingLevel := level item }
        : FieldInfo)) names items := by
  have := aliasFields_zipWith aliasName name level items names [] hlen
    (by simpa using List.length_pos.2 hne)
  simpa [aliasFields, List.enum] using this

theorem aliasFields_nil {α : Type} (aliasName : String) (name : α → String)
    (level : α → MaskingLevel) (items : List α) :
    aliasFields aliasName [] name level items
    = items.map (fun item =>
      ({ Schema := "public", Table := aliasName, Name := name item, MaskingLevel := level item }
        : FieldInfo)) := by
  unfold aliasFields
  simp only [List.length_nil, gt_iff_lt, lt_self_iff_false, if_false, List.enum]
  generalize 0 = k
  induction items generalizing k with
  | nil => rfl
  | cons a l ih => simp [List.enumFrom_cons, ih]

/-- C15. Aliased base relation: for a RangeVar with alias `A` that resolves to `table`,
`pgExtractRangeVar` fails when the alias supplies a non-empty column-name list `names` whose
length is not the number of columns, and otherwise returns one field per column, in column
order, each with schema `"public"`, table `A`, the level of the column, and as name the
positionally corresponding alias column name when `names` is non-empty and the column's own
name when it is empty. -/
theorem pgExtractRangeVar_aliased (ext : SensitiveFieldExtractor) (schemaname relname A : String)
    (names : List String) (table : TableSchema)
    (ht : pgFindTableSchema ext schemaname relname = .ok table) :
    pgExtractRangeVar ext schemaname relname (some (.mk A (names.map Node.String_))) =
      (if names ≠ [] ∧ names.length ≠ table.ColumnList.length then
         .error (.expectEqualLength names.length table.ColumnList.length)
       else .ok
        (if names = [] then
          table.ColumnList.map (fun c =>
            ({ Schema := "public", Table := A, Name := c.Name, MaskingLevel := c.MaskingLevel }
              : FieldInfo))
         else
          List.zipWith (fun name c =>
            ({ Schema := "public", Table := A, Name := name, MaskingLevel := c.MaskingLevel }
              : FieldInfo)) names table.ColumnList),
       ext) := by
  simp only [pgExtractRangeVar, ht, pgExtractAlias, Alias.Colnames, Alias.Aliasname,
    stringNodeList_map, List.length_map]
  by_cases hn : names = []
  · subst hn
    simp [aliasFields_nil]
  · by_cases hl : names.length = table.ColumnList.length
    · have hn' : ¬ names.length = 0 := fun h => hn (List.length_eq_zero.1 h)
      simp [hn, hl, hn', aliasFields_names _ _ _ _ _ hl hn]
    · have hn' : ¬ names.length = 0 := fun h => hn (List.length_eq_zero.1 h)
      simp [hn, hl, hn']

/-- What `SELECT *` over an unaliased table returns: for every table found for an unaliased
RangeVar (with or without a schema qualifier), `SELECT * FROM <table>` returns one field per
column, in column order, with the table's column names and levels; each field carries the
table's name and an empty schema, whatever schema the table is in. -/
theorem pgExtractSelect_star_unaliased (fuel : Nat) (ext : SensitiveFieldExtractor)
    (schemaname relname name : String) (fields : List Node) (table : TableSchema)
    (d : ColumnNameDef)
    (ht : pgFindTableSchema ext schemaname relname = .ok table)
    (hc : conv fields = .ok d) (hstar : d.ColumnName = "*") (hq : d.Table.Name = "") :
    pgExtractSelect conv (fuel + 2) ext
        (selectFrom [.RangeVar schemaname relname none]
          [.ResTarget name (some (.ColumnRef fields))]) =
      (.ok (table.ColumnList.map (fun c =>
          ({ Schema := "", Table := table.Name, Name := c.Name, MaskingLevel := c.MaskingLevel }
            : FieldInfo))),
       { ext with fromFieldList := [] }) := by
  simp [pgExtractSelect, selectFrom, SelectStmt.WithClause, pgExtractSelectBody,
    SelectStmt.ValuesLists, SelectStmt.Op, SelectStmt.FromClause, SelectStmt.TargetList,
    fromClauseLoop, pgExtractNode, pgExtractRangeVar, ht, targetListLoop, hc, hstar, hq]

theorem pgExtractSelect_star_unaliased_witness :
    pgExtractSelect ConvertNodeListToColumnNameDef 2 { SchemaInfo := scenarioCatalog }
        (selectFrom [.RangeVar "" "t" none] [.ResTarget "" (some (.ColumnRef [.AStar]))]) =
      (.ok [{ Schema := "", Table := "t", Name := "a", MaskingLevel := .NONE },
            { Schema := "", Table := "t", Name := "b", MaskingLevel := .FULL }],
       { SchemaInfo := scenarioCatalog }) :=
  pgExtractSelect_star_unaliased ConvertNodeListToColumnNameDef 0 { SchemaInfo := scenarioCatalog }
    "" "t" "" [.AStar] { Name := "t", ColumnList := [⟨"a", .NONE⟩, ⟨"b", .FULL⟩] }
    { Table := { Schema := "", Name := "" }, ColumnName := "*" } rfl rfl rfl rfl

/-- C16, the code at `public.t` of the scenario catalog, read without alias. `SELECT * FROM
public.t` returns the columns of `t` with an empty schema, not the schema `public` of the base
table: `pgExtractRangeVar` fills Name, Table and MaskingLevel only (masking.go 233-239). The
schema is what the qualified star (line 532) and the outer-scope lookup (line 743) compare:
`SELECT public.t.* FROM public.t` returns no field, and `SELECT (SELECT public.t.b) AS v FROM
public.t` gives `v` the level NONE although `t.b` is FULL. The aliased path records the
schema (line 255): with `FROM public.t AS t` the same two queries return both columns, and
`v` FULL. -/
theorem pgExtractSelect_unaliased_schema_lost :
    pgFindTableSchema { SchemaInfo := scenarioCatalog } "public" "t"
      = .ok { Name := "t", ColumnList := [⟨"a", .NONE⟩, ⟨"b", .FULL⟩] } ∧
    pgExtractSelect ConvertNodeListToColumnNameDef 2 { SchemaInfo := scenarioCatalog }
        (selectFrom [.RangeVar "public" "t" none] [resTarget "" (.ColumnRef [.AStar])]) =
      (.ok [{ Schema := "", Table := "t", Name := "a", MaskingLevel := .NONE },
            { Schema := "", Table := "t", Name := "b", MaskingLevel := .FULL }],
       { SchemaInfo := scenarioCatalog }) ∧
    ("" : String) ≠ "public" ∧
    pgExtractSelect ConvertNodeListToColumnNameDef 2 { SchemaInfo := scenarioCatalog }
        (selectFrom [.RangeVar "public" "t" none]
          [resTarget "" (.ColumnRef [.String_ "public", .String_ "t", .AStar])]) =
      (.ok [], { SchemaInfo := scenarioCatalog }) ∧
    pgExtractSelect ConvertNodeListToColumnNameDef 2 { SchemaInfo := scenarioCatalog }
        (selectFrom [.RangeVar "public" "t" (some (.mk "t" []))]
          [resTarget "" (.ColumnRef [.String_ "public", .String_ "t", .AStar])]) =
      (.ok [{ Schema := "public", Table := "t", Name := "a", MaskingLevel := .NONE },
            { Schema := "public", Table := "t", Name := "b", MaskingLevel := .FULL }],
       { SchemaInfo := scenarioCatalog }) ∧
    pgExtractSelect ConvertNodeListToColumnNameDef 5 { SchemaInfo := scenarioCatalog }
        (selectFrom [.RangeVar "public" "t" none]
          [resTarget "v" (.SubLink .EXPR_SUBLINK none (some (.SelectStmt (selectFrom []
            [resTarget "" (.ColumnRef [.String_ "public", .String_ "t", .String_ "b"])]))))]) =
      (.ok [{ Name := "v", MaskingLevel := .NONE }], { SchemaInfo := scenarioCatalog }) ∧
    pgExtractSelect ConvertNodeListToColumnNameDef 5 { SchemaInfo := scenarioCatalog }
        (selectFrom [.RangeVar "public" "t" (some (.mk "t" []))]
          [resTarget "v" (.SubLink .EXPR_SUBLINK none (some (.SelectStmt (selectFrom []
            [resTarget "" (.ColumnRef [.String_ "public", .String_ "t", .String_ "b"])]))))]) =
      (.ok [{ Name := "v", MaskingLevel := .FULL }], { SchemaInfo := scenarioCatalog }) :=
  ⟨rfl, rfl, by decide, rfl, rfl, rfl, rfl⟩

end BaseRelations

/-! ## VALUES lists -/

section ValuesLists

variable (conv : List Node → Except Error ColumnNameDef)

theorem valuesRowLoop_eq (level : SensitiveFieldExtractor → Option Node → Result MaskingLevel)
    (ext : SensitiveFieldExtractor) (lv : Node → MaskingLevel) (row : List Node)
    (acc : List MaskingLevel)
    (h : ∀ e ∈ row, level ext (some e) = (.ok (lv e), ext)) :
    valuesRowLoop level ext acc row = (.ok (acc ++ row.map lv), ext) := by
  induction row generalizing acc with
  | nil => simp [valuesRowLoop]
  | cons e row ih =>
    rw [valuesRowLoop, h e (List.mem_cons_self _ _)]
    simp only
    rw [ih _ (fun e he => h e (List.mem_cons_of_mem _ he))]
    simp

theorem valuesLoop_nonempty (level : SensitiveFieldExtractor → Option Node → Result MaskingLevel)
    (ext : SensitiveFieldExtractor) (lv : Node → MaskingLevel) (rows : List (List Node))
    (result : List FieldInfo) (hres : result.length ≠ 0)
    (h : ∀ row ∈ rows, ∀ e ∈ row, level ext (some e) = (.ok (lv e), ext)) :
    valuesLoop level ext result (rows.map Node.List) = (.ok result, ext) := by
  induction rows with
  | nil => simp [valuesLoop]
  | cons row rows ih =>
    rw [List.map_cons, valuesLoop]
    simp only [valuesRowLoop_eq level ext lv row [] (h row (List.mem_cons_self _ _)), hres,
      if_false]
    exact ih (fun r hr => h r (List.mem_cons_of_mem _ hr))

/-- C14. VALUES result: for a VALUES list whose first row has `N ≥ 1` expressions and whose
rows all evaluate without error (the expression `e` to the level `lv e`, in the state after
the WITH clause), the Select Evaluator returns exactly `N` fields named `column1`, ...,
`columnN`, the i-th carrying the level of the first row's i-th expression; the later rows
do not occur in the result. -/
theorem pgExtractSelect_values (fuel : Nat) (ext ext1 : SensitiveFieldExtractor)
    (node : SelectStmt) (first : List Node) (rest : List (List Node)) (lv : Node → MaskingLevel)
    (hv : node.ValuesLists = (first :: rest).map Node.List)
    (hN : 1 ≤ first.length)
    (hw : withClausePhase conv fuel ext node = (.ok (), ext1))
    (hrows : ∀ row ∈ first :: rest, ∀ e ∈ row,
      (pgExtractColumnRefFromExpressionNode conv fuel ext1 (some e)).1 = .ok (lv e)) :
    pgExtractSelect conv (fuel + 1) ext node =
      (.ok (first.enum.map (fun (p : Nat × Node) =>
          ({ Name := "column" ++ toString (p.1 + 1), MaskingLevel := lv p.2 } : FieldInfo))),
       withClauseDefer ext node ext1) := by
  have hrows' : ∀ row ∈ first :: rest, ∀ e ∈ row,
      pgExtractColumnRefFromExpressionNode conv fuel ext1 (some e) = (.ok (lv e), ext1) := by
    intro row hrow e he
    have h1 := hrows row hrow e he
    have h2 := level_state_node conv fuel ext1 (some e)
    exact Prod.ext h1 h2
  have hfirst : ((first.map lv).enum.map (fun (p : Nat × MaskingLevel) =>
        ({ Name := "column" ++ toString (p.1 + 1), MaskingLevel := p.2 } : FieldInfo)))
      = first.enum.map (fun (p : Nat × Node) =>
        ({ Name := "column" ++ toString (p.1 + 1), MaskingLevel := lv p.2 } : FieldInfo)) := by
    simp [List.enum, List.enumFrom_map, Function.comp_def]
  have hlen : (first.enum.map (fun (p : Nat × Node) =>
        ({ Name := "column" ++ toString (p.1 + 1), MaskingLevel := lv p.2 } : FieldInfo))).length
      ≠ 0 := by
    simp only [List.length_map, List.enum_length]
    omega
  rw [pgExtractSelect_succ, hw]
  simp only
  have hb : pgExtractSelectBody conv (pgExtractSelect conv fuel) (pgExtractNode conv fuel)
      (pgExtractColumnRefFromExpressionNode conv fuel) ext1 node =
      (.ok (first.enum.map (fun (p : Nat × Node) =>
          ({ Name := "column" ++ toString (p.1 + 1), MaskingLevel := lv p.2 } : FieldInfo))),
       ext1) := by
    unfold pgExtractSelectBody
    simp only [hv, List.map_cons, List.length_cons, gt_iff_lt, Nat.zero_lt_succ, if_true]
    rw [valuesLoop]
    simp only [valuesRowLoop_eq _ ext1 lv first [] (hrows' first (List.mem_cons_self _ _)),
      List.length_nil, if_true, List.nil_append]
    have := valuesLoop_nonempty (pgExtractColumnRefFromExpressionNode conv fuel) ext1 lv rest _
      hlen (fun r hr => hrows' r (List.mem_cons_of_mem _ hr))
    rw [← hfirst] at this ⊢
    exact this
  rw [hb]

theorem pgExtractSelect_values_witness :
    pgExtractSelect ConvertNodeListToColumnNameDef 2 { SchemaInfo := scenarioCatalog }
        (.mk none [.List [.AConst, .AConst], .List [.AConst, .AConst]] .SETOP_NONE none none
          [] []) =
      (.ok [{ Name := "column1", MaskingLevel := .NONE },
            { Name := "column2", MaskingLevel := .NONE }],
       { SchemaInfo := scenarioCatalog }) :=
  pgExtractSelect_values ConvertNodeListToColumnNameDef 1 { SchemaInfo := scenarioCatalog }
    { SchemaInfo := scenarioCatalog }
    (.mk none [.List [.AConst, .AConst], .List [.AConst, .AConst]] .SETOP_NONE none none [] [])
    [.AConst, .AConst] [[.AConst, .AConst]] (fun _ => .NONE) rfl (by decide) rfl
    (by
      intro row hrow e he
      simp only [List.mem_cons, List.mem_singleton, List.not_mem_nil, or_false, or_self] at hrow
      subst hrow
      simp only [List.mem_cons, List.mem_singleton, List.not_mem_nil, or_false, or_self] at he
      subst he
      rfl)

end ValuesLists

/-! ## No unspecified level -/

section Specified

variable (conv : List Node → Except Error ColumnNameDef)

theorem pgFindTableSchema_specified (ext : SensitiveFieldExtractor) (s t : String)
    (table : TableSchema) (hext : ExtractorSpecified ext)
    (h : pgFindTableSchema ext s t = .ok table) : TableSpecified table := by
  unfold pgFindTableSchema at h
  split at h
  · rename_i tb hf
    cases h
    have := List.mem_of_find?_eq_some hf
    exact hext.2.2.1 _ (List.mem_reverse.1 this)
  · split at h
    · rename_i tb hf
      cases h
      obtain ⟨database, hd, hf⟩ := List.exists_of_findSome?_eq_some hf
      obtain ⟨schema, hs, hf⟩ := List.exists_of_findSome?_eq_some hf
      split at hf
      · exact hext.1 database hd schema hs _ (List.mem_of_find?_eq_some hf)
      · cases hf
    · cases h

theorem enumFrom_map_specified {α : Type} (g : Nat × α → FieldInfo) (level : α → MaskingLevel)
    (hg : ∀ p, (g p).MaskingLevel = level p.2) (items : List α)
    (h : ∀ item ∈ items, level item ≠ .MASKING_LEVEL_UNSPECIFIED) (k : Nat) :
    FieldsSpecified ((items.enumFrom k).map g) := by
  induction items generalizing k with
  | nil => intro f hf; simp at hf
  | cons a l ih =>
    intro f hf
    simp only [List.enumFrom_cons, List.map_cons, List.mem_cons] at hf
    rcases hf with rfl | hf
    · rw [hg]; exact h a (List.mem_cons_self _ _)
    · exact ih (fun item hi => h item (List.mem_cons_of_mem _ hi)) _ f hf

theorem aliasFields_specified {α : Type} (aliasName : String) (names : List String)
    (name : α → String) (level : α → MaskingLevel) (items : List α)
    (h : ∀ item ∈ items, level item ≠ .MASKING_LEVEL_UNSPECIFIED) :
    FieldsSpecified (aliasFields aliasName names name level items) := by
  unfold aliasFields
  exact enumFrom_map_specified _ level (fun _ => rfl) items h 0

theorem pgExtractRangeVar_specified (ext : SensitiveFieldExtractor) (s r : String)
    (a : Option Alias) (hext : ExtractorSpecified ext) :
    ResultSpecified FieldsSpecified (pgExtractRangeVar ext s r a) := by
  unfold pgExtractRangeVar
  cases ht : pgFindTableSchema ext s r with
  | error e => exact trivial
  | ok t =>
    have hts := pgFindTableSchema_specified ext s r t hext ht
    simp only
    cases a with
    | none =>
      refine ⟨hext, ?_⟩
      intro f hf
      simp only [List.mem_map] at hf
      obtain ⟨c, hc, rfl⟩ := hf
      exact hts c hc
    | some al =>
      simp only
      cases pgExtractAlias (some al) with
      | error e => exact trivial
      | ok p =>
        simp only
        split
        · exact trivial
        · exact ⟨hext, aliasFields_specified _ _ _ _ _ hts⟩

theorem fieldMap_mem (fields : List FieldInfo) (name : String) (f : FieldInfo)
    (h : fieldMap fields name = some f) : f ∈ fields := by
  rw [fieldMap_eq] at h
  exact List.mem_reverse.1 (List.mem_of_find?_eq_some h)

theorem pgMergeJoinField_specified (n : Bool) (u : List Node) (L R res : List FieldInfo)
    (hL : FieldsSpecified L) (hR : FieldsSpecified R)
    (h : pgMergeJoinField n u L R = .ok res) : FieldsSpecified res := by
  have key : ∀ (c : FieldInfo → FieldInfo → Bool) (keep : FieldInfo → Bool),
      FieldsSpecified (L.map (fun field =>
            match fieldMap R field.Name with
            | some rField =>
              if c field rField then { field with MaskingLevel := rField.MaskingLevel }
              else field
            | none => field)
          ++ R.filter keep) := by
    intro c keep f hf
    rcases List.mem_append.1 hf with hf | hf
    · simp only [List.mem_map] at hf
      obtain ⟨l, hl, rfl⟩ := hf
      cases hm : fieldMap R l.Name with
      | none => exact hL l hl
      | some r =>
        simp only
        split
        · exact hR r (fieldMap_mem R _ r hm)
        · exact hL l hl
    · exact hR f (List.mem_of_mem_filter hf)
  unfold pgMergeJoinField at h
  simp only at h
  split at h
  · cases h
    exact key (fun field rField => cmpLess field.MaskingLevel rField.MaskingLevel) _
  · split at h
    · cases hs : stringNodeList u with
      | error e => simp [hs] at h
      | ok usingList =>
        simp only [hs, Except.ok.injEq] at h
        subst h
        exact key (fun field rField => decide (field.Name ∈ usingList) &&
          cmpLess field.MaskingLevel rField.MaskingLevel) _
    · cases h
      intro f hf
      rcases List.mem_append.1 hf with hf | hf
      · exact hL f hf
      · exact hR f hf

theorem pgCheckFieldMaskingLevel_specified (ext : SensitiveFieldExtractor) (s t c : String)
    (hext : ExtractorSpecified ext) :
    pgCheckFieldMaskingLevel ext s t c ≠ .MASKING_LEVEL_UNSPECIFIED := by
  rcases pgCheckFieldMaskingLevel_mem ext s t c with h | ⟨f, hm, h⟩
  · rw [h]; decide
  · rw [h]
    rcases List.mem_append.1 hm with hm | hm
    · exact hext.2.1 f hm
    · exact hext.2.2.2 f hm

theorem max_specified {a b : MaskingLevel} (ha : a ≠ .MASKING_LEVEL_UNSPECIFIED)
    (hb : b ≠ .MASKING_LEVEL_UNSPECIFIED) : max a b ≠ .MASKING_LEVEL_UNSPECIFIED := by
  rcases max_choice a b with h | h <;> rw [h] <;> assumption

theorem nodeListLoop_specified
    (level : SensitiveFieldExtractor → Option Node → Result MaskingLevel)
    (hl : ∀ ext n, ExtractorSpecified ext →
      ResultSpecified (fun v => v ≠ MaskingLevel.MASKING_LEVEL_UNSPECIFIED) (level ext n))
    (ext : SensitiveFieldExtractor) (acc : MaskingLevel) (l : List (Option Node))
    (hext : ExtractorSpecified ext) (hacc : acc ≠ .MASKING_LEVEL_UNSPECIFIED) :
    ResultSpecified (fun v => v ≠ MaskingLevel.MASKING_LEVEL_UNSPECIFIED)
      (nodeListLoop level ext acc l) := by
  induction l generalizing ext acc with
  | nil => exact ⟨hext, hacc⟩
  | cons n rest ih =>
    rw [nodeListLoop_cons]
    have h1 := hl ext n hext
    generalize level ext n = res at h1 ⊢
    rcases res with ⟨r, ext1⟩
    cases r with
    | error e => exact trivial
    | ok v =>
      have hv := max_specified hacc h1.2
      simp only
      split
      · exact ⟨h1.1, hv⟩
      · exact ih _ _ h1.1 hv

theorem subLinkLoop_specified (acc : MaskingLevel) (fl : List FieldInfo)
    (hacc : acc ≠ .MASKING_LEVEL_UNSPECIFIED) (hfl : FieldsSpecified fl) :
    subLinkLoop acc fl ≠ .MASKING_LEVEL_UNSPECIFIED := by
  induction fl generalizing acc with
  | nil => exact hacc
  | cons f rest ih =>
    rw [subLinkLoop]
    have hv := max_specified hacc (hfl f (List.mem_cons_self _ _))
    simp only [ite_cmpLess]
    split
    · exact hv
    · exact ih _ hv (fun g hg => hfl g (List.mem_cons_of_mem _ hg))

theorem valuesRowLoop_specified
    (level : SensitiveFieldExtractor → Option Node → Result MaskingLevel)
    (hl : ∀ ext n, ExtractorSpecified ext →
      ResultSpecified (fun v => v ≠ MaskingLevel.MASKING_LEVEL_UNSPECIFIED) (level ext n))
    (ext : SensitiveFieldExtractor) (acc : List MaskingLevel) (l : List Node)
    (hext : ExtractorSpecified ext)
    (hacc : ∀ v ∈ acc, v ≠ MaskingLevel.MASKING_LEVEL_UNSPECIFIED) :
    ResultSpecified (fun vs => ∀ v ∈ vs, v ≠ MaskingLevel.MASKING_LEVEL_UNSPECIFIED)
      (valuesRowLoop level ext acc l) := by
  induction l generalizing ext acc with
  | nil => exact ⟨hext, hacc⟩
  | cons item rest ih =>
    rw [valuesRowLoop]
    have h1 := hl ext (some item) hext
    generalize level ext (some item) = res at h1 ⊢
    rcases res with ⟨r, ext1⟩
    cases r with
    | error e => exact trivial
    | ok v =>
      refine ih _ _ h1.1 ?_
      intro w hw
      rcases List.mem_append.1 hw with hw | hw
      · exact hacc w hw
      · simp only [List.mem_singleton] at hw
        subst hw
        exact h1.2

theorem valuesLoop_specified
    (level : SensitiveFieldExtractor → Option Node → Result MaskingLevel)
    (hl : ∀ ext n, ExtractorSpecified ext →
      ResultSpecified (fun v => v ≠ MaskingLevel.MASKING_LEVEL_UNSPECIFIED) (level ext n))
    (ext : SensitiveFieldExtractor) (acc : List FieldInfo) (l : List Node)
    (hext : ExtractorSpecified ext) (hacc : FieldsSpecified acc) :
    ResultSpecified FieldsSpecified (valuesLoop level ext acc l) := by
  induction l generalizing ext acc with
  | nil => exact ⟨hext, hacc⟩
  | cons row rest ih =>
    cases row
    case List items =>
      rw [valuesLoop]
      have h1 := valuesRowLoop_specified level hl ext [] items hext (by simp)
      generalize valuesRowLoop level ext [] items = res at h1 ⊢
      rcases res with ⟨r, ext1⟩
      cases r with
      | error e => exact trivial
      | ok vs =>
        refine ih _ _ h1.1 ?_
        split
        · exact enumFrom_map_specified _ id (fun _ => rfl) vs h1.2 0
        · exact hacc
    all_goals exact trivial

theorem fromClauseLoop_specified
    (extractNode : SensitiveFieldExtractor → Option Node → Result (List FieldInfo))
    (hn : ∀ ext n, ExtractorSpecified ext → ResultSpecified FieldsSpecified (extractNode ext n))
    (ext : SensitiveFieldExtractor) (acc : List FieldInfo) (l : List Node)
    (hext : ExtractorSpecified ext) (hacc : FieldsSpecified acc) :
    ResultSpecified FieldsSpecified (fromClauseLoop extractNode ext acc l) := by
  induction l generalizing ext acc with
  | nil => exact ⟨hext, hacc⟩
  | cons item rest ih =>
    rw [fromClauseLoop]
    have h1 := hn ext (some item) hext
    generalize extractNode ext (some item) = res at h1 ⊢
    rcases res with ⟨r, ext1⟩
    cases r with
    | error e => exact trivial
    | ok fl => exact ih _ _ ⟨h1.1.1, h1.1.2.1, h1.1.2.2.1, h1.2⟩ h1.2

theorem targetListLoop_specified
    (level : SensitiveFieldExtractor → Option Node → Result MaskingLevel)
    (hl : ∀ ext n, ExtractorSpecified ext →
      ResultSpecified (fun v => v ≠ MaskingLevel.MASKING_LEVEL_UNSPECIFIED) (level ext n))
    (fromFieldList : List FieldInfo) (hfrom : FieldsSpecified fromFieldList)
    (ext : SensitiveFieldExtractor) (acc : List FieldInfo) (l : List Node)
    (hext : ExtractorSpecified ext) (hacc : FieldsSpecified acc) :
    ResultSpecified FieldsSpecified (targetListLoop conv level fromFieldList ext acc l) := by
  induction l generalizing ext acc with
  | nil => exact ⟨hext, hacc⟩
  | cons field rest ih =>
    cases field
    case ResTarget name val =>
      cases val with
      | none => exact trivial
      | some v =>
        have h1 := hl ext (some v) hext
        have happ : ∀ (a b : List FieldInfo), FieldsSpecified a → FieldsSpecified b →
            FieldsSpecified (a ++ b) := by
          intro a b ha hb f hf
          rcases List.mem_append.1 hf with hf | hf
          · exact ha f hf
          · exact hb f hf
        have hstep : ∀ fieldName : Except Error String,
            ResultSpecified FieldsSpecified
              (match level ext (some v) with
              | (.error e, extractor) => ((.error e, extractor) : Result (List FieldInfo))
              | (.ok maskingLevel, extractor) =>
                match fieldName with
                | .error e => (.error e, extractor)
                | .ok fieldName =>
                  targetListLoop conv level fromFieldList extractor
                    (acc ++ [({ Name := fieldName, MaskingLevel := maskingLevel } : FieldInfo)])
                    rest) := by
          intro fieldName
          generalize level ext (some v) = res at h1 ⊢
          rcases res with ⟨r, ext1⟩
          cases r with
          | error e => exact trivial
          | ok lv =>
            cases fieldName with
            | error e => exact trivial
            | ok n =>
              refine ih _ _ h1.1 (happ _ _ hacc ?_)
              intro f hf
              simp only [List.mem_singleton] at hf
              subst hf
              exact h1.2
        by_cases hcr : ∃ fields, v = .ColumnRef fields
        · obtain ⟨fields, rfl⟩ := hcr
          rw [targetListLoop_columnRef]
          split
          · refine ih _ _ hext (happ _ _ hacc ?_)
            simp only [starFields]
            cases conv fields with
            | error e => intro f hf; simp at hf
            | ok d =>
              simp only
              split
              · exact hfrom
              · intro f hf
                exact hfrom f (List.mem_of_mem_filter hf)
          · cases conv fields with
            | error e => exact trivial
            | ok d => exact hstep _
        · rw [targetListLoop_other conv level _ _ _ _ _ _ (fun f hf => hcr ⟨f, hf⟩)]
          exact hstep _
    all_goals exact trivial

theorem withClauseLoop_specified
    (recursiveCTE nonRecursiveCTE :
      SensitiveFieldExtractor → String → List Node → Option Node → Result TableSchema)
    (h1 : ∀ ext a b c, ExtractorSpecified ext →
      ResultSpecified TableSpecified (recursiveCTE ext a b c))
    (h2 : ∀ ext a b c, ExtractorSpecified ext →
      ResultSpecified TableSpecified (nonRecursiveCTE ext a b c))
    (Recursive : Bool) (ext : SensitiveFieldExtractor) (l : List Node)
    (hext : ExtractorSpecified ext) :
    ResultSpecified (fun _ => True)
      (withClauseLoop recursiveCTE nonRecursiveCTE Recursive ext l) := by
  induction l generalizing ext with
  | nil => exact ⟨hext, trivial⟩
  | cons cte rest ih =>
    cases cte
    case CommonTableExpr ctename aliascolnames ctequery =>
      rw [withClauseLoop]
      have hs : ResultSpecified TableSpecified
          (if Recursive = true then recursiveCTE ext ctename aliascolnames ctequery
           else nonRecursiveCTE ext ctename aliascolnames ctequery) := by
        split
        · exact h1 _ _ _ _ hext
        · exact h2 _ _ _ _ hext
      generalize (if Recursive = true then recursiveCTE ext ctename aliascolnames ctequery
          else nonRecursiveCTE ext ctename aliascolnames ctequery) = res at hs ⊢
      rcases res with ⟨r, ext1⟩
      cases r with
      | error e => exact trivial
      | ok table =>
        refine ih _ ⟨hs.1.1, hs.1.2.1, ?_, hs.1.2.2.2⟩
        intro t ht
        rcases List.mem_append.1 ht with ht | ht
        · exact hs.1.2.2.1 t ht
        · simp only [List.mem_singleton] at ht
          subst ht
          exact hs.2
    all_goals exact trivial

theorem setOpFields_specified (L R : List FieldInfo) : FieldsSpecified (setOpFields L R) := by
  rw [setOpFields_eq]
  induction L generalizing R with
  | nil => intro f hf; simp at hf
  | cons l L ih =>
    cases R with
    | nil => intro f hf; simp at hf
    | cons r R =>
      intro f hf
      simp only [List.zipWith_cons_cons, List.mem_cons] at hf
      rcases hf with rfl | hf
      · simp only
        intro h
        have h1 : DefaultMaskingLevel ≤ max (max DefaultMaskingLevel l.MaskingLevel) r.MaskingLevel :=
          le_trans (le_max_left _ _) (le_max_left _ _)
        rw [h] at h1
        exact absurd h1 (by decide)
      · exact ih R f hf

theorem pgExtractSelectBody_specified
    (extractSelect : SensitiveFieldExtractor → SelectStmt → Result (List FieldInfo))
    (extractNode : SensitiveFieldExtractor → Option Node → Result (List FieldInfo))
    (level : SensitiveFieldExtractor → Option Node → Result MaskingLevel)
    (hs : ∀ ext n, ExtractorSpecified ext → ResultSpecified FieldsSpecified (extractSelect ext n))
    (hn : ∀ ext n, ExtractorSpecified ext → ResultSpecified FieldsSpecified (extractNode ext n))
    (hl : ∀ ext n, ExtractorSpecified ext →
      ResultSpecified (fun v => v ≠ MaskingLevel.MASKING_LEVEL_UNSPECIFIED) (level ext n))
    (ext : SensitiveFieldExtractor) (node : SelectStmt) (hext : ExtractorSpecified ext) :
    ResultSpecified FieldsSpecified
      (pgExtractSelectBody conv extractSelect extractNode level ext node) := by
  unfold pgExtractSelectBody
  split
  · exact valuesLoop_specified level hl ext [] _ hext (by intro f hf; simp at hf)
  · have hset : ResultSpecified FieldsSpecified
        (match node.Larg with
          | none => ((.error .panic, ext) : Result (List FieldInfo))
          | some larg =>
            match extractSelect ext larg with
            | (.error e, extractor) => (.error e, extractor)
            | (.ok leftField, extractor) =>
              match node.Rarg with
              | none => (.error .panic, extractor)
              | some rarg =>
                match extractSelect extractor rarg with
                | (.error e, extractor) => (.error e, extractor)
                | (.ok rightField, extractor) =>
                  if leftField.length ≠ rightField.length then
                    (.error .setOpColumnCount, extractor)
                  else (.ok (setOpFields leftField rightField), extractor)) := by
      cases node.Larg with
      | none => exact trivial
      | some larg =>
        simp only
        have h1 := hs ext larg hext
        generalize extractSelect ext larg = res at h1 ⊢
        rcases res with ⟨r, ext1⟩
        cases r with
        | error e => exact trivial
        | ok lf =>
          simp only
          cases node.Rarg with
          | none => exact trivial
          | some rarg =>
            simp only
            have h2 := hs ext1 rarg h1.1
            generalize extractSelect ext1 rarg = res at h2 ⊢
            rcases res with ⟨r2, ext2⟩
            cases r2 with
            | error e => exact trivial
            | ok rf =>
              simp only
              split
              · exact trivial
              · exact ⟨h2.1, setOpFields_specified _ _⟩
    cases node.Op with
    | SETOP_UNION => exact hset
    | SETOP_INTERSECT => exact hset
    | SETOP_EXCEPT => exact hset
    | SET_OPERATION_UNDEFINED => exact trivial
    | SETOP_NONE =>
      simp only
      have h1 := fromClauseLoop_specified extractNode hn ext [] node.FromClause hext
        (by intro f hf; simp at hf)
      generalize fromClauseLoop extractNode ext [] node.FromClause = res at h1 ⊢
      rcases res with ⟨r, ext1⟩
      cases r with
      | error e => exact trivial
      | ok fl =>
        simp only
        have h2 := targetListLoop_specified conv level hl fl h1.2 ext1 [] node.TargetList h1.1
          (by intro f hf; simp at hf)
        generalize targetListLoop conv level fl ext1 [] node.TargetList = res at h2 ⊢
        rcases res with ⟨r2, ext2⟩
        cases r2 with
        | error e => exact trivial
        | ok v =>
          exact ⟨⟨h2.1.1, h2.1.2.1, h2.1.2.2.1, by intro f hf; simp at hf⟩, h2.2⟩

theorem raiseColumns_specified (cteInfo : TableSchema) (fl : List FieldInfo)
    (hc : TableSpecified cteInfo) (hf : FieldsSpecified fl) :
    TableSpecified (raiseColumns cteInfo fl).1 := by
  unfold TableSpecified FieldsSpecified at *
  simp only [raiseColumns]
  generalize cteInfo.ColumnList = columns at hc
  induction columns generalizing fl with
  | nil => intro c hm; simp at hm
  | cons c l ih =>
    cases fl with
    | nil => intro c hm; simp at hm
    | cons f fl =>
      intro x hx
      simp only [List.zipWith_cons_cons, List.mem_cons] at hx
      rcases hx with rfl | hx
      · split
        · exact hf f (List.mem_cons_self _ _)
        · exact hc c (List.mem_cons_self _ _)
      · exact ih fl (fun g hg => hf g (List.mem_cons_of_mem _ hg))
          (fun g hg => hc g (List.mem_cons_of_mem _ hg)) x hx

theorem applyAliascolnames_specified (aliascolnames : List Node) (seed renamed : List FieldInfo)
    (hs : FieldsSpecified seed) (h : applyAliascolnames aliascolnames seed = .ok renamed) :
    FieldsSpecified renamed := by
  have hl := applyAliascolnames_levels aliascolnames seed renamed h
  clear h
  induction hl with
  | nil => intro f hf; simp at hf
  | cons hab _ ih =>
    intro f hf
    rcases List.mem_cons.1 hf with rfl | hf
    · rw [← hab]; exact hs _ (List.mem_cons_self _ _)
    · exact ih (fun g hg => hs g (List.mem_cons_of_mem _ hg)) f hf

theorem cteTableSchema_specified (ctename : String) (fl : List FieldInfo)
    (h : FieldsSpecified fl) : TableSpecified (cteTableSchema ctename fl) := by
  intro c hc
  simp only [cteTableSchema, List.mem_map] at hc
  obtain ⟨f, hf, rfl⟩ := hc
  exact h f hf

/-- From an extractor that holds no unspecified level, every function of the evaluator that
succeeds returns no unspecified level and leaves none in the extractor. -/
theorem specified_inv (fuel : Nat) :
    (∀ ext n, ExtractorSpecified ext →
      ResultSpecified FieldsSpecified (pgExtractNode conv fuel ext n)) ∧
    (∀ ext a b c d, ExtractorSpecified ext →
      ResultSpecified FieldsSpecified (pgExtractJoin conv fuel ext a b c d)) ∧
    (∀ ext a b, ExtractorSpecified ext →
      ResultSpecified FieldsSpecified (pgExtractRangeSubselect conv fuel ext a b)) ∧
    (∀ ext a b c, ExtractorSpecified ext →
      ResultSpecified TableSpecified (pgExtractRecursiveCTE conv fuel ext a b c)) ∧
    (∀ ext a b, ExtractorSpecified ext → TableSpecified b →
      ResultSpecified TableSpecified (pgExtractRecursiveCTELoop conv fuel ext a b)) ∧
    (∀ ext a b c, ExtractorSpecified ext →
      ResultSpecified TableSpecified (pgExtractNonRecursiveCTE conv fuel ext a b c)) ∧
    (∀ ext n, ExtractorSpecified ext →
      ResultSpecified FieldsSpecified (pgExtractSelect conv fuel ext n)) ∧
    (∀ ext e, ExtractorSpecified ext →
      ResultSpecified (fun v => v ≠ MaskingLevel.MASKING_LEVEL_UNSPECIFIED)
        (pgExtractColumnRefFromExpressionNode conv fuel ext e)) ∧
    (∀ ext l, ExtractorSpecified ext →
      ResultSpecified (fun v => v ≠ MaskingLevel.MASKING_LEVEL_UNSPECIFIED)
        (pgExtractColumnRefFromExpressionNodeList conv fuel ext l)) := by
  induction fuel with
  | zero =>
    exact ⟨fun _ _ _ => trivial, fun _ _ _ _ _ _ => trivial, fun _ _ _ _ => trivial,
      fun _ _ _ _ _ => trivial, fun _ _ _ _ _ => trivial, fun _ _ _ _ _ => trivial,
      fun _ _ _ => trivial, fun _ _ _ => trivial, fun _ _ _ => trivial⟩
  | succ fuel ih =>
    obtain ⟨ihNode, ihJoin, ihSub, ihRec, ihLoop, ihNon, ihSel, ihExpr, ihList⟩ := ih
    have hdef : DefaultMaskingLevel ≠ MaskingLevel.MASKING_LEVEL_UNSPECIFIED := by decide
    refine ⟨?_, ?_, ?_, ?_, ?_, ?_, ?_, ?_, ?_⟩
    · intro ext n hext
      cases n with
      | none => exact ⟨hext, by intro f hf; simp at hf⟩
      | some node =>
        cases node <;> simp only [pgExtractNode] <;> first
          | exact ⟨hext, by intro f hf; simp at hf⟩
          | exact ihSel _ _ hext
          | exact ihSub _ _ _ hext
          | exact ihJoin _ _ _ _ _ hext
          | exact pgExtractRangeVar_specified _ _ _ _ hext
    · intro ext a b c d hext
      rw [pgExtractJoin]
      have h1 := ihNode ext b hext
      generalize pgExtractNode conv fuel ext b = res at h1 ⊢
      rcases res with ⟨r, ext1⟩
      cases r with
      | error e => exact trivial
      | ok lf =>
        simp only
        have h2 := ihNode ext1 c h1.1
        generalize pgExtractNode conv fuel ext1 c = res at h2 ⊢
        rcases res with ⟨r2, ext2⟩
        cases r2 with
        | error e => exact trivial
        | ok rf =>
          simp only
          cases hm : pgMergeJoinField a d lf rf with
          | error e => exact trivial
          | ok res => exact ⟨h2.1, pgMergeJoinField_specified a d lf rf res h1.2 h2.2 hm⟩
    · intro ext a b hext
      rw [pgExtractRangeSubselect]
      have h1 := ihNode ext a hext
      generalize pgExtractNode conv fuel ext a = res at h1 ⊢
      rcases res with ⟨r, ext1⟩
      cases r with
      | error e => exact trivial
      | ok fl =>
        simp only
        cases b with
        | none => exact h1
        | some al =>
          simp only
          cases pgExtractAlias (some al) with
          | error e => exact trivial
          | ok p =>
            simp only
            split
            · exact trivial
            · exact ⟨h1.1, aliasFields_specified _ _ _ _ _ h1.2⟩
    · intro ext a b c hext
      cases c with
      | none => exact trivial
      | some q =>
        cases q
        case SelectStmt sel =>
          simp only [pgExtractRecursiveCTE]
          split
          · exact ihNon _ _ _ _ hext
          · cases sel.Larg with
            | none => exact trivial
            | some larg =>
              simp only
              have h1 := ihSel ext larg hext
              generalize pgExtractSelect conv fuel ext larg = res at h1 ⊢
              rcases res with ⟨r, ext1⟩
              cases r with
              | error e => exact trivial
              | ok seed =>
                simp only
                cases ha : applyAliascolnames b seed with
                | error e => exact trivial
                | ok seed2 =>
                  simp only
                  have hts := cteTableSchema_specified a seed2
                    (applyAliascolnames_specified b seed seed2 h1.2 ha)
                  have hext2 : ExtractorSpecified { ext1 with
                      cteOuterSchemaInfo :=
                        ext1.cteOuterSchemaInfo ++ [cteTableSchema a seed2] } := by
                    refine ⟨h1.1.1, h1.1.2.1, ?_, h1.1.2.2.2⟩
                    intro t ht
                    rcases List.mem_append.1 ht with ht | ht
                    · exact h1.1.2.2.1 t ht
                    · simp only [List.mem_singleton] at ht
                      subst ht
                      exact hts
                  have hl := ihLoop _ sel.Rarg (cteTableSchema a seed2) hext2 hts
                  generalize pgExtractRecursiveCTELoop conv fuel _ sel.Rarg
                    (cteTableSchema a seed2) = res at hl ⊢
                  rcases res with ⟨r2, ext3⟩
                  cases r2 with
                  | error e => exact trivial
                  | ok S =>
                    refine ⟨⟨hl.1.1, hl.1.2.1, ?_, hl.1.2.2.2⟩, hl.2⟩
                    intro t ht
                    exact hl.1.2.2.1 t (List.mem_of_mem_dropLast ht)
        all_goals (simp only [pgExtractRecursiveCTE]; exact ihNon _ _ _ _ hext)
    · intro ext a b hext hb
      cases a with
      | none => exact trivial
      | some rarg =>
        simp only [pgExtractRecursiveCTELoop]
        have h1 := ihSel ext rarg hext
        generalize pgExtractSelect conv fuel ext rarg = res at h1 ⊢
        rcases res with ⟨r, ext1⟩
        cases r with
        | error e => exact trivial
        | ok fl =>
          simp only
          have hr := raiseColumns_specified b fl hb h1.2
          split
          · exact trivial
          · split
            · exact ⟨h1.1, hr⟩
            · refine ihLoop _ _ _ ⟨h1.1.1, h1.1.2.1, ?_, h1.1.2.2.2⟩ hr
              intro t ht
              rcases List.mem_or_eq_of_mem_set ht with ht | ht
              · exact h1.1.2.2.1 t ht
              · rw [ht]; exact hr
    · intro ext a b c hext
      rw [pgExtractNonRecursiveCTE]
      have h1 := ihNode ext c hext
      generalize pgExtractNode conv fuel ext c = res at h1 ⊢
      rcases res with ⟨r, ext1⟩
      cases r with
      | error e => exact trivial
      | ok fl =>
        simp only
        cases ha : applyAliascolnames b fl with
        | error e => exact trivial
        | ok fl2 =>
          exact ⟨h1.1, cteTableSchema_specified a fl2
            (applyAliascolnames_specified b fl fl2 h1.2 ha)⟩
    · intro ext node hext
      rw [pgExtractSelect]
      cases node.WithClause with
      | none =>
        exact pgExtractSelectBody_specified conv _ _ _ ihSel ihNode ihExpr ext node hext
      | some w =>
        simp only
        have hw := withClauseLoop_specified (pgExtractRecursiveCTE conv fuel)
          (pgExtractNonRecursiveCTE conv fuel) ihRec ihNon w.Recursive ext w.Ctes hext
        generalize withClauseLoop (pgExtractRecursiveCTE conv fuel)
          (pgExtractNonRecursiveCTE conv fuel) w.Recursive ext w.Ctes = res at hw ⊢
        rcases res with ⟨r, ext1⟩
        cases r with
        | error e => exact trivial
        | ok u =>
          simp only
          have hb := pgExtractSelectBody_specified conv (pgExtractSelect conv fuel)
            (pgExtractNode conv fuel) (pgExtractColumnRefFromExpressionNode conv fuel)
            ihSel ihNode ihExpr ext1 node hw.1
          generalize pgExtractSelectBody conv (pgExtractSelect conv fuel)
            (pgExtractNode conv fuel) (pgExtractColumnRefFromExpressionNode conv fuel)
            ext1 node = res at hb ⊢
          rcases res with ⟨r2, ext2⟩
          cases r2 with
          | error e => exact trivial
          | ok v =>
            refine ⟨⟨hb.1.1, hb.1.2.1, ?_, hb.1.2.2.2⟩, hb.2⟩
            intro t ht
            exact hb.1.2.2.1 t (List.mem_of_mem_take ht)
    · intro ext e hext
      cases e with
      | none => exact ⟨hext, hdef⟩
      | some node =>
        cases node <;> simp only [pgExtractColumnRefFromExpressionNode] <;> first
          | exact ⟨hext, hdef⟩
          | exact ihList _ _ hext
          | exact ihExpr _ _ hext
          | skip
        case ColumnRef fields =>
          cases conv fields with
          | error e => exact trivial
          | ok d =>
            exact ⟨hext, pgCheckFieldMaskingLevel_specified _ _ _ _ hext⟩
        case SubLink t testexpr subselect =>
          have h1 := ihExpr ext testexpr hext
          generalize pgExtractColumnRefFromExpressionNode conv fuel ext testexpr = res at h1 ⊢
          rcases res with ⟨r, ext1⟩
          cases r with
          | error e => exact trivial
          | ok v =>
            simp only
            have hsub : ExtractorSpecified
                { SchemaInfo := ext1.SchemaInfo
                  outerSchemaInfo := ext1.outerSchemaInfo ++ ext1.fromFieldList } := by
              refine ⟨h1.1.1, ?_, by intro t ht; simp at ht, by intro f hf; simp at hf⟩
              intro f hf
              rcases List.mem_append.1 hf with hf | hf
              · exact h1.1.2.1 f hf
              · exact h1.1.2.2.2 f hf
            have h2 := ihNode _ subselect hsub
            generalize pgExtractNode conv fuel _ subselect = res at h2 ⊢
            rcases res with ⟨r2, ext2⟩
            cases r2 with
            | error e => exact trivial
            | ok fl => exact ⟨h1.1, subLinkLoop_specified _ _ h1.2 h2.2⟩
    · intro ext l hext
      simp only [pgExtractColumnRefFromExpressionNodeList]
      exact nodeListLoop_specified _ ihExpr _ _ _ hext hdef

end Specified

section SpecifiedEntryPoint

variable (parse : String → Except Error (List (Option Node)))
variable (conv : List Node → Except Error ColumnNameDef)

/-- C19, as amended. UNSPECIFIED is never a final result: for every catalog none of whose
columns has the level MASKING_LEVEL_UNSPECIFIED and every statement on which
`ExtractSensitiveField`, from a fresh extractor over that catalog, succeeds with a list, no
entry of the returned list has the level MASKING_LEVEL_UNSPECIFIED. -/
theorem ExtractSensitiveField_specified (fuel : Nat) (info : SensitiveSchemaInfo)
    (statement : String) (result : List SensitiveField) (ext1 : SensitiveFieldExtractor)
    (hinfo : SchemaInfoSpecified info)
    (h : ExtractSensitiveField parse conv fuel { SchemaInfo := info } statement
      = (.ok (some result), ext1)) :
    ∀ field ∈ result, field.MaskingLevel ≠ .MASKING_LEVEL_UNSPECIFIED := by
  have hext : ExtractorSpecified { SchemaInfo := info } :=
    ⟨hinfo, by intro f hf; simp at hf, by intro t ht; simp at ht, by intro f hf; simp at hf⟩
  unfold ExtractSensitiveField at h
  cases hp : parse statement with
  | error e => simp [hp] at h
  | ok stmts =>
    simp only [hp] at h
    split at h
    · simp at h
    · cases hh : stmts.head? with
      | none => simp [hh] at h
      | some o =>
        cases o with
        | none => simp [hh] at h
        | some node =>
          simp only [hh] at h
          cases node
          case SelectStmt s =>
            simp only at h
            have h1 := (specified_inv conv fuel).1 { SchemaInfo := info }
              (some (.SelectStmt s)) hext
            generalize pgExtractNode conv fuel { SchemaInfo := info }
              (some (.SelectStmt s)) = res at h h1
            rcases res with ⟨r, ext2⟩
            cases r with
            | error e =>
              simp only at h
              split at h
              · split at h <;> simp at h
              · simp at h
            | ok fl =>
              simp only [Prod.mk.injEq, Except.ok.injEq, Option.some.injEq] at h
              obtain ⟨h2, _⟩ := h
              subst h2
              intro field hf
              simp only [List.mem_map] at hf
              obtain ⟨f, hfm, rfl⟩ := hf
              exact h1.2 f hfm
          all_goals simp at h

end SpecifiedEntryPoint

/-! ## Evaluations of the CTE and base-relation properties -/

/-- Witness of C11: in `WITH r(c1) AS (SELECT b FROM t) SELECT c1 FROM r` the CTE `r` gets the
schema `r(c1 FULL)`, a column-name list of another length fails, and the query evaluates to
`[(c1, FULL)]`. -/
theorem pgExtractNonRecursiveCTE_schema_witness :
    pgExtractNonRecursiveCTE ConvertNodeListToColumnNameDef 5 { SchemaInfo := scenarioCatalog }
        "r" [.String_ "c1"]
        (some (.SelectStmt (selectFrom [rangeVar "t"] [resTarget "" (columnRef "b")])))
      = (.ok { Name := "r", ColumnList := [⟨"c1", .FULL⟩] }, { SchemaInfo := scenarioCatalog }) ∧
    pgExtractNonRecursiveCTE ConvertNodeListToColumnNameDef 5 { SchemaInfo := scenarioCatalog }
        "r" [.String_ "c1", .String_ "c2"]
        (some (.SelectStmt (selectFrom [rangeVar "t"] [resTarget "" (columnRef "b")])))
      = (.error .cteColumnCount, { SchemaInfo := scenarioCatalog }) ∧
    pgExtractSelect ConvertNodeListToColumnNameDef 6 { SchemaInfo := scenarioCatalog }
        (.mk (some (.mk [.CommonTableExpr "r" [.String_ "c1"]
            (some (.SelectStmt (selectFrom [rangeVar "t"] [resTarget "" (columnRef "b")])))] false))
          [] .SETOP_NONE none none [rangeVar "r"] [resTarget "" (columnRef "c1")])
      = (.ok [{ Name := "c1", MaskingLevel := .FULL }], { SchemaInfo := scenarioCatalog }) :=
  ⟨pgExtractNonRecursiveCTE_schema ConvertNodeListToColumnNameDef 4
      { SchemaInfo := scenarioCatalog } { SchemaInfo := scenarioCatalog } "r" ["c1"]
      (some (.SelectStmt (selectFrom [rangeVar "t"] [resTarget "" (columnRef "b")])))
      [{ Name := "b", MaskingLevel := .FULL }] rfl,
   pgExtractNonRecursiveCTE_schema ConvertNodeListToColumnNameDef 4
      { SchemaInfo := scenarioCatalog } { SchemaInfo := scenarioCatalog } "r" ["c1", "c2"]
      (some (.SelectStmt (selectFrom [rangeVar "t"] [resTarget "" (columnRef "b")])))
      [{ Name := "b", MaskingLevel := .FULL }] rfl,
   rfl⟩

/-- Witness of C15: `t AS x(c1, c2)` over the scenario catalog gives `c1` NONE and `c2` FULL
under schema `public` and table `x`, and `t AS x(c1)` fails. -/
theorem pgExtractRangeVar_aliased_witness :
    pgExtractRangeVar { SchemaInfo := scenarioCatalog } "" "t"
        (some (.mk "x" [.String_ "c1", .String_ "c2"]))
      = (.ok [{ Schema := "public", Table := "x", Name := "c1", MaskingLevel := .NONE },
              { Schema := "public", Table := "x", Name := "c2", MaskingLevel := .FULL }],
         { SchemaInfo := scenarioCatalog }) ∧
    pgExtractRangeVar { SchemaInfo := scenarioCatalog } "" "t" (some (.mk "x" [.String_ "c1"]))
      = (.error (.expectEqualLength 1 2), { SchemaInfo := scenarioCatalog }) :=
  ⟨pgExtractRangeVar_aliased { SchemaInfo := scenarioCatalog } "" "t" "x" ["c1", "c2"]
      { Name := "t", ColumnList := [⟨"a", .NONE⟩, ⟨"b", .FULL⟩] } rfl,
   pgExtractRangeVar_aliased { SchemaInfo := scenarioCatalog } "" "t" "x" ["c1"]
      { Name := "t", ColumnList := [⟨"a", .NONE⟩, ⟨"b", .FULL⟩] } rfl⟩

/-- The only error of the table lookup is the table-not-found error. -/
theorem pgFindTableSchema_error (ext : SensitiveFieldExtractor) (s t : String) (e : Error)
    (h : pgFindTableSchema ext s t = .error e) : e = .tableNotFound t := by
  unfold pgFindTableSchema at h
  split at h
  · cases h
  · split at h
    · cases h
    · cases h
      rfl

/-- The arm `SELECT b FROM t` does not run out of fuel from fuel 3 on, in any state. -/
theorem arm_fuel (f : Nat) (ext1 : SensitiveFieldExtractor) (hf : 3 ≤ f) :
    (pgExtractSelect ConvertNodeListToColumnNameDef f ext1
      (selectFrom [rangeVar "t"] [resTarget "" (columnRef "b")])).1 ≠ .error .outOfFuel := by
  obtain ⟨k, rfl⟩ := Nat.exists_eq_add_of_le hf
  rw [Nat.add_comm]
  simp only [pgExtractSelect, selectFrom, SelectStmt.WithClause, pgExtractSelectBody,
    SelectStmt.ValuesLists, SelectStmt.Op, SelectStmt.FromClause, SelectStmt.TargetList,
    fromClauseLoop, pgExtractNode, pgExtractRangeVar, rangeVar, resTarget, columnRef,
    List.length_nil, gt_iff_lt, lt_self_iff_false, if_false]
  cases h : pgFindTableSchema ext1 "" "t" with
  | error e => simp [pgFindTableSchema_error _ _ _ _ h]
  | ok table =>
    simp [targetListLoop, ConvertNodeListToColumnNameDef, pgExtractColumnRefFromExpressionNode]

/-- Witness of C13: from the one-column schema `r(a NONE)` the loop over the arm
`SELECT b FROM t` evaluates the arm twice (the first pass raises `a` to FULL, the second
changes nothing), within the bound `3 * 1 + 1`, and with fuel 10 it does not run out of
fuel. -/
theorem pgExtractRecursiveCTELoop_bound_witness :
    (pgExtractRecursiveCTELoopCount
      (fun f e => pgExtractSelect ConvertNodeListToColumnNameDef f e
        (selectFrom [rangeVar "t"] [resTarget "" (columnRef "b")])) 10
      { SchemaInfo := scenarioCatalog,
        cteOuterSchemaInfo := [{ Name := "r", ColumnList := [⟨"a", .NONE⟩] }] }
      { Name := "r", ColumnList := [⟨"a", .NONE⟩] }).2 = 2 ∧
    (pgExtractRecursiveCTELoopCount
      (fun f e => pgExtractSelect ConvertNodeListToColumnNameDef f e
        (selectFrom [rangeVar "t"] [resTarget "" (columnRef "b")])) 10
      { SchemaInfo := scenarioCatalog,
        cteOuterSchemaInfo := [{ Name := "r", ColumnList := [⟨"a", .NONE⟩] }] }
      { Name := "r", ColumnList := [⟨"a", .NONE⟩] }).2 ≤ 3 * 1 + 1 ∧
    (pgExtractRecursiveCTELoop ConvertNodeListToColumnNameDef 10
      { SchemaInfo := scenarioCatalog,
        cteOuterSchemaInfo := [{ Name := "r", ColumnList := [⟨"a", .NONE⟩] }] }
      (some (selectFrom [rangeVar "t"] [resTarget "" (columnRef "b")]))
      { Name := "r", ColumnList := [⟨"a", .NONE⟩] }).1 ≠ .error .outOfFuel :=
  ⟨rfl,
   (pgExtractRecursiveCTELoop_bound ConvertNodeListToColumnNameDef 10
      { SchemaInfo := scenarioCatalog,
        cteOuterSchemaInfo := [{ Name := "r", ColumnList := [⟨"a", .NONE⟩] }] }
      (selectFrom [rangeVar "t"] [resTarget "" (columnRef "b")])
      { Name := "r", ColumnList := [⟨"a", .NONE⟩] }).2.1,
   (pgExtractRecursiveCTELoop_bound ConvertNodeListToColumnNameDef 10
      { SchemaInfo := scenarioCatalog,
        cteOuterSchemaInfo := [{ Name := "r", ColumnList := [⟨"a", .NONE⟩] }] }
      (selectFrom [rangeVar "t"] [resTarget "" (columnRef "b")])
      { Name := "r", ColumnList := [⟨"a", .NONE⟩] }).2.2 3
      (fun f ext1 hf => arm_fuel f ext1 hf) (by decide)⟩

/-- An instance of `pgExtractRecursiveCTE_fixpoint`: `WITH RECURSIVE r AS (SELECT a FROM t
UNION SELECT b FROM t)` over the
scenario catalog evaluates to `r(a FULL)`, and with that schema on top of the CTE stack the
arm `SELECT b FROM t` evaluates to one column of level at most FULL. -/
theorem pgExtractRecursiveCTE_fixpoint_witness :
    pgExtractRecursiveCTE ConvertNodeListToColumnNameDef 10 { SchemaInfo := scenarioCatalog }
        "r" [] (some (.SelectStmt unionCteQuery))
      = (.ok { Name := "r", ColumnList := [⟨"a", .FULL⟩] }, { SchemaInfo := scenarioCatalog }) ∧
    ∃ f st fl, f < 9 ∧
      SameScope st
        { SchemaInfo := scenarioCatalog
          cteOuterSchemaInfo := [{ Name := "r", ColumnList := [⟨"a", .FULL⟩] }] } ∧
      FromKept { SchemaInfo := scenarioCatalog } st ∧
      (pgExtractSelect ConvertNodeListToColumnNameDef f st
        (selectFrom [rangeVar "t"] [resTarget "" (columnRef "b")])).1 = .ok fl ∧
      List.Forall₂ (fun (field : FieldInfo) (s : ColumnInfo) =>
        field.MaskingLevel ≤ s.MaskingLevel) fl [⟨"a", .FULL⟩] :=
  ⟨rfl, by
    obtain ⟨larg, rarg, seed, ext1, renamed, _, h2, _, _, _, _, _, hfix⟩ :=
      pgExtractRecursiveCTE_fixpoint ConvertNodeListToColumnNameDef 9
        { SchemaInfo := scenarioCatalog } { SchemaInfo := scenarioCatalog } "r" []
        unionCteQuery { Name := "r", ColumnList := [⟨"a", .FULL⟩] } rfl rfl
    simp only [unionCteQuery, SelectStmt.Rarg, Option.some.injEq] at h2
    subst h2
    exact hfix⟩

/-- Witness of C19: the scenario catalog has no unspecified level, and `SELECT b FROM t`
returns `[(b, FULL)]`. -/
theorem ExtractSensitiveField_specified_witness :
    SchemaInfoSpecified scenarioCatalog ∧
    ∀ field ∈ ([{ Name := "b", MaskingLevel := .FULL }] : List SensitiveField),
      field.MaskingLevel ≠ .MASKING_LEVEL_UNSPECIFIED :=
  ⟨by decide,
   ExtractSensitiveField_specified
    (fun _ => .ok [some (.SelectStmt (selectFrom [rangeVar "t"] [resTarget "" (columnRef "b")]))])
    ConvertNodeListToColumnNameDef 5 scenarioCatalog "SELECT b FROM t"
    [{ Name := "b", MaskingLevel := .FULL }] { SchemaInfo := scenarioCatalog } (by decide) rfl⟩

/-- C19 fails as stated: over a catalog whose table `u(a)` has no masking level set for `a`,
`SELECT a FROM u` succeeds and returns `a` with the level MASKING_LEVEL_UNSPECIFIED: the
level of a bare column reference is the catalog's, as it is. -/
theorem ExtractSensitiveField_specified_counterexample :
    ExtractSensitiveField
        (fun _ => .ok [some (.SelectStmt (selectFrom [rangeVar "u"] [resTarget "" (columnRef "a")]))])
        ConvertNodeListToColumnNameDef 5 { SchemaInfo := unspecifiedCatalog } "SELECT a FROM u"
      = (.ok (some [{ Name := "a", MaskingLevel := .MASKING_LEVEL_UNSPECIFIED }]),
         { SchemaInfo := unspecifiedCatalog }) ∧
    ¬ SchemaInfoSpecified unspecifiedCatalog :=
  ⟨rfl, by decide⟩

/-! ## Reference definitions of the resolvers -/

theorem head?_filter_eq_find? {α : Type} (p : α → Bool) (l : List α) :
    (l.filter p).head? = l.find? p := by
  induction l with
  | nil => rfl
  | cons a l ih =>
    by_cases h : p a = true
    · simp [List.filter_cons, List.find?_cons, h]
    · simp [List.filter_cons, List.find?_cons, h, ih]

theorem find?_reverse_eq_getLast? {α : Type} (p : α → Bool) (l : List α) :
    l.reverse.find? p = (l.filter p).getLast? := by
  rw [List.getLast?_eq_head?_reverse, ← List.filter_reverse, head?_filter_eq_find?]

theorem find?_flatMap_eq {α β : Type} (f : α → List β) (p : β → Bool) (l : List α) :
    (l.flatMap f).find? p = l.findSome? (fun a => (f a).find? p) := by
  induction l with
  | nil => rfl
  | cons a l ih =>
    simp only [List.flatMap_cons, List.find?_append, List.findSome?_cons]
    cases (f a).find? p with
    | none => simp [ih]
    | some b => simp

/-- C23. Name Resolver reference definition: for every extractor state and reference (schema,
table, column), `pgCheckFieldMaskingLevel` returns the level of the last outer-scope entry that
matches on schema (equal, or the reference's schema empty and the entry's `"public"`), on
table (the reference's table empty, or equal) and on name; if there is none, the level of the
first FROM-list entry that matches on table and name; if there is none,
`DefaultMaskingLevel`. The function has no error result. -/
theorem pgCheckFieldMaskingLevel_spec (ext : SensitiveFieldExtractor) (s t c : String) :
    pgCheckFieldMaskingLevel ext s t c = nameResolverSpec ext s t c := by
  unfold pgCheckFieldMaskingLevel nameResolverSpec
  rw [find?_reverse_eq_getLast?, ← head?_filter_eq_find?]
  have h1 : (ext.outerSchemaInfo.filter (fun field =>
      decide (((s = "" ∧ field.Schema = "public") ∨ s = field.Schema) ∧
        ((t = field.Table ∨ t = "") ∧ c = field.Name))))
      = ext.outerSchemaInfo.filter (fun field =>
        decide ((field.Schema = s ∨ (s = "" ∧ field.Schema = "public")) ∧
          (t = "" ∨ t = field.Table) ∧ c = field.Name)) := by
    apply List.filter_congr
    intro f _
    apply decide_eq_decide.2
    constructor
    · rintro ⟨h | h, h2 | h2, h3⟩
      all_goals first
        | exact ⟨Or.inr h, Or.inr h2, h3⟩
        | exact ⟨Or.inr h, Or.inl h2, h3⟩
        | exact ⟨Or.inl h.symm, Or.inr h2, h3⟩
        | exact ⟨Or.inl h.symm, Or.inl h2, h3⟩
    · rintro ⟨h | h, h2 | h2, h3⟩
      all_goals first
        | exact ⟨Or.inr h.symm, Or.inr h2, h3⟩
        | exact ⟨Or.inr h.symm, Or.inl h2, h3⟩
        | exact ⟨Or.inl h, Or.inr h2, h3⟩
        | exact ⟨Or.inl h, Or.inl h2, h3⟩
  have h2 : (ext.fromFieldList.filter (fun field =>
      decide ((t = field.Table ∨ t = "") ∧ c = field.Name)))
      = ext.fromFieldList.filter (fun field =>
        decide ((t = "" ∨ t = field.Table) ∧ c = field.Name)) := by
    apply List.filter_congr
    intro f _
    apply decide_eq_decide.2
    rw [or_comm]
  rw [h1, h2]

/-- C24. Table lookup reference definition: for every extractor state, schema name `s` and table
name `t`, `pgFindTableSchema` returns the most recently pushed CTE named `t` if there is one,
whatever `s` is; otherwise the first table named `t`, in scan order over databases, schemas
and tables, of a schema named `s`, or named `"public"` when `s` is empty; and it fails exactly
when neither exists. Names are compared as strings, so case-sensitively. -/
theorem pgFindTableSchema_spec (ext : SensitiveFieldExtractor) (s t : String) :
    pgFindTableSchema ext s t =
      match findTableSpec ext s t with
      | some table => .ok table
      | none => .error (.tableNotFound t) := by
  unfold pgFindTableSchema findTableSpec catalogCandidates
  rw [find?_reverse_eq_getLast?]
  cases (ext.cteOuterSchemaInfo.filter (fun table => decide (table.Name = t))).getLast? with
  | some table => rfl
  | none =>
    simp only
    rw [head?_filter_eq_find?, find?_flatMap_eq]
    have h : (fun (database : DatabaseSchema) =>
        database.SchemaList.findSome? (fun schema =>
          if (s = "" ∧ schema.Name = "public") ∨ s = schema.Name then
            schema.TableList.find? (fun table => decide (t = table.Name))
          else none))
        = (fun database => (database.SchemaList.flatMap (fun schema =>
            if schema.Name = s ∨ (s = "" ∧ schema.Name = "public") then schema.TableList
            else [])).find? (fun table => decide (table.Name = t))) := by
      funext database
      rw [find?_flatMap_eq]
      congr 1
      funext schema
      have hf : (fun (table : TableSchema) => decide (t = table.Name))
          = (fun table => decide (table.Name = t)) := by
        funext table
        exact decide_eq_decide.2 eq_comm
      by_cases hc : schema.Name = s ∨ (s = "" ∧ schema.Name = "public")
      · have hc2 : (s = "" ∧ schema.Name = "public") ∨ s = schema.Name := by
          rcases hc with h | h
          · exact Or.inr h.symm
          · exact Or.inl h
        rw [if_pos hc, if_pos hc2, hf]
      · have hc2 : ¬ ((s = "" ∧ schema.Name = "public") ∨ s = schema.Name) := by
          rintro (h | h)
          · exact hc (Or.inr h)
          · exact hc (Or.inl h.symm)
        rw [if_neg hc, if_neg hc2]
        rfl
    rw [h]

/-! ## Scope discipline -/

section ScopeDiscipline

variable (conv : List Node → Except Error ColumnNameDef)

/-- C25. CTE stack scope discipline: for every SELECT node, every CTE and every starting
extractor state, the CTE stack after `pgExtractSelect`, `pgExtractRecursiveCTE` or
`pgExtractNonRecursiveCTE` returns equals the CTE stack before the call, whatever the outcome
of the call (a result, an error, or fuel running out). -/
theorem cteOuterSchemaInfo_restored (fuel : Nat) (ext : SensitiveFieldExtractor) :
    (∀ node : SelectStmt,
      (pgExtractSelect conv fuel ext node).2.cteOuterSchemaInfo = ext.cteOuterSchemaInfo) ∧
    (∀ (ctename : String) (aliascolnames : List Node) (ctequery : Option Node),
      (pgExtractRecursiveCTE conv fuel ext ctename aliascolnames ctequery).2.cteOuterSchemaInfo
        = ext.cteOuterSchemaInfo) ∧
    (∀ (ctename : String) (aliascolnames : List Node) (ctequery : Option Node),
      (pgExtractNonRecursiveCTE conv fuel ext ctename aliascolnames ctequery).2.cteOuterSchemaInfo
        = ext.cteOuterSchemaInfo) :=
  ⟨fun node => ((scope_inv conv fuel).2.2.2.2.2.2 ext node).2.2.symm,
   fun a b c => ((scope_inv conv fuel).2.2.2.1 ext a b c).2.2.symm,
   fun a b c => ((scope_inv conv fuel).2.2.2.2.2.1 ext a b c).2.2.symm⟩

end ScopeDiscipline

/-! ## FROM list, subquery expressions and NATURAL joins -/

/-- C26, the code at `SELECT a FROM t, missing`: started with an empty FROM list over the
scenario catalog, the first FROM item sets the FROM list to the fields of `t`, the second one
fails with table not found, and `pgExtractSelect` returns with the FROM list still holding the
fields of `t`: the deferred reset (masking.go 507) is registered only after the loop over the
FROM items (500-506). When the same query without the missing table succeeds, the FROM list is
empty on return. -/
theorem pgExtractSelect_from_left_set :
    pgExtractSelect ConvertNodeListToColumnNameDef 5 { SchemaInfo := scenarioCatalog }
        (selectFrom [rangeVar "t", rangeVar "missing"] [resTarget "" (columnRef "a")])
      = (.error (.tableNotFound "missing"),
         { SchemaInfo := scenarioCatalog
           fromFieldList := [{ Table := "t", Name := "a", MaskingLevel := .NONE },
                             { Table := "t", Name := "b", MaskingLevel := .FULL }] }) ∧
    (pgExtractSelect ConvertNodeListToColumnNameDef 5 { SchemaInfo := scenarioCatalog }
        (selectFrom [rangeVar "t"] [resTarget "" (columnRef "a")])).2.fromFieldList = [] :=
  ⟨rfl, rfl⟩

/-- C29, the code at three queries over the scenario catalog. `WITH r AS (SELECT b FROM t)
SELECT (SELECT b FROM r) AS v FROM s` fails with table `r` not found: the extractor made for
the SubLink (masking.go 832-835) gets the catalog and the outer scope, not the CTE stack.
`WITH s AS (SELECT b AS x FROM t) SELECT (SELECT x FROM s) AS v FROM t` resolves `s` inside the
SubLink to the catalog table `s` (column `x` PARTIAL), not to the CTE (column `x` FULL). The
same CTE read in the FROM clause, `WITH s AS (..) SELECT x AS v FROM s`, is resolved to the
CTE (FULL). -/
theorem pgExtractSelect_subLink_cte :
    pgExtractSelect ConvertNodeListToColumnNameDef 8 { SchemaInfo := scenarioCatalog }
        (.mk (some (.mk [.CommonTableExpr "r" []
            (some (.SelectStmt (selectFrom [rangeVar "t"] [resTarget "" (columnRef "b")])))] false))
          [] .SETOP_NONE none none [rangeVar "s"]
          [resTarget "v" (.SubLink .EXPR_SUBLINK none
            (some (.SelectStmt (selectFrom [rangeVar "r"] [resTarget "" (columnRef "b")]))))])
      = (.error (.tableNotFound "r"), { SchemaInfo := scenarioCatalog }) ∧
    pgExtractSelect ConvertNodeListToColumnNameDef 8 { SchemaInfo := scenarioCatalog }
        (.mk (some (.mk [.CommonTableExpr "s" []
            (some (.SelectStmt (selectFrom [rangeVar "t"] [resTarget "x" (columnRef "b")])))] false))
          [] .SETOP_NONE none none [rangeVar "t"]
          [resTarget "v" (.SubLink .EXPR_SUBLINK none
            (some (.SelectStmt (selectFrom [rangeVar "s"] [resTarget "" (columnRef "x")]))))])
      = (.ok [{ Name := "v", MaskingLevel := .PARTIAL }], { SchemaInfo := scenarioCatalog }) ∧
    pgExtractSelect ConvertNodeListToColumnNameDef 8 { SchemaInfo := scenarioCatalog }
        (.mk (some (.mk [.CommonTableExpr "s" []
            (some (.SelectStmt (selectFrom [rangeVar "t"] [resTarget "x" (columnRef "b")])))] false))
          [] .SETOP_NONE none none [rangeVar "s"] [resTarget "v" (columnRef "x")])
      = (.ok [{ Name := "v", MaskingLevel := .FULL }], { SchemaInfo := scenarioCatalog }) :=
  ⟨rfl, rfl, rfl⟩

theorem foldl_max_bot (l : List MaskingLevel) (a : MaskingLevel) :
    l.foldl max a = max a (l.foldl max .MASKING_LEVEL_UNSPECIFIED) := by
  rw [← foldl_max_max]
  congr 1
  cases a <;> rfl

theorem namedMax_append (A B : List FieldInfo) (n : String) :
    namedMax (A ++ B) n = max (namedMax A n) (namedMax B n) := by
  unfold namedMax
  rw [List.filter_append, List.map_append, List.foldl_append, foldl_max_bot]

theorem bot_le_level (a : MaskingLevel) : MaskingLevel.MASKING_LEVEL_UNSPECIFIED ≤ a := by
  cases a <;> decide

theorem namedMax_cons (f : FieldInfo) (A : List FieldInfo) (n : String) :
    namedMax (f :: A) n =
      if f.Name = n then max f.MaskingLevel (namedMax A n) else namedMax A n := by
  unfold namedMax
  by_cases h : f.Name = n
  · simp only [List.filter_cons, h, decide_True, if_true, List.map_cons, List.foldl_cons]
    rw [max_eq_right (bot_le_level _), foldl_max_bot]
  · simp [List.filter_cons, h]

theorem namedMax_none (A : List FieldInfo) (n : String) (h : ∀ f ∈ A, f.Name ≠ n) :
    namedMax A n = .MASKING_LEVEL_UNSPECIFIED := by
  induction A with
  | nil => rfl
  | cons f A ih =>
    rw [namedMax_cons, if_neg (h f (List.mem_cons_self _ _))]
    exact ih (fun g hg => h g (List.mem_cons_of_mem _ hg))

theorem namedMax_map_raise (L : List FieldInfo) (n : String) (x : MaskingLevel)
    (hL : ∃ l ∈ L, l.Name = n) {g : FieldInfo → FieldInfo}
    (hname : ∀ l, (g l).Name = l.Name)
    (hlev : ∀ l, l.Name = n → (g l).MaskingLevel = max l.MaskingLevel x) :
    namedMax (L.map g) n = max (namedMax L n) x := by
  induction L with
  | nil => simp at hL
  | cons l L ih =>
    rw [List.map_cons, namedMax_cons, namedMax_cons, hname]
    by_cases hrest : ∃ l1 ∈ L, l1.Name = n
    · rw [ih hrest]
      by_cases hl : l.Name = n
      · rw [if_pos hl, if_pos hl, hlev l hl, max_max_max_comm, max_self]
      · rw [if_neg hl, if_neg hl]
    · have hnone : ∀ f ∈ L, f.Name ≠ n := fun f hf hfn => hrest ⟨f, hf, hfn⟩
      have hmapnone : ∀ f ∈ L.map g, f.Name ≠ n := by
        intro f hf
        simp only [List.mem_map] at hf
        obtain ⟨f0, hf0, rfl⟩ := hf
        rw [hname]
        exact hnone f0 hf0
      have hl : l.Name = n := by
        obtain ⟨l0, hl0, hl0n⟩ := hL
        rcases List.mem_cons.1 hl0 with rfl | hl0
        · exact hl0n
        · exact absurd hl0n (hnone l0 hl0)
      rw [if_pos hl, if_pos hl, hlev l hl, namedMax_none _ n hmapnone, namedMax_none _ n hnone]
      simp only [max_eq_left (bot_le_level _)]

theorem namedMax_map_keep (L : List FieldInfo) (n : String) (hL : ∀ l ∈ L, l.Name ≠ n)
    {g : FieldInfo → FieldInfo} (hname : ∀ l, (g l).Name = l.Name) :
    namedMax (L.map g) n = .MASKING_LEVEL_UNSPECIFIED := by
  apply namedMax_none
  intro f hf
  simp only [List.mem_map] at hf
  obtain ⟨f0, hf0, rfl⟩ := hf
  rw [hname]
  exact hL f0 hf0

theorem namedMax_single (R : List FieldInfo) (n : String) (r : FieldInfo)
    (hs : sameNamed R n = some r) (hR : (R.filter (fun r => r.Name = n)).length ≤ 1) :
    namedMax R n = r.MaskingLevel := by
  have hfilter : R.filter (fun r => decide (r.Name = n)) = [r] := by
    have hmem : r ∈ R.filter (fun r => decide (r.Name = n)) := by
      unfold sameNamed at hs
      have h1 := List.mem_of_find?_eq_some hs
      have h2 := List.find?_some hs
      exact List.mem_filter.2 ⟨List.mem_reverse.1 h1, h2⟩
    generalize R.filter (fun r => decide (r.Name = n)) = F at hR hmem
    cases F with
    | nil => simp at hmem
    | cons a F =>
      cases F with
      | nil =>
        have : r = a := by simpa using hmem
        rw [this]
      | cons b F => simp at hR
  unfold namedMax
  rw [hfilter]
  simp only [List.map_cons, List.map_nil, List.foldl_cons, List.foldl_nil]
  exact max_eq_right (bot_le_level _)

/-- C28, as amended. A NATURAL join loses no contributor's level when the right side has
the name at most once: for every left field list `L`, right field list `R` and column name
`n` such that, if `n` occurs in `L`, at most one field of `R` is named `n`, the merge for a
NATURAL join succeeds and the maximum masking level among the fields named `n` in its output
equals the maximum masking level among all fields named `n` in `L` and `R` together. -/
theorem pgMergeJoinField_natural_max (UsingClause : List Node) (L R : List FieldInfo)
    (n : String)
    (h : (∃ l ∈ L, l.Name = n) → (R.filter (fun r => r.Name = n)).length ≤ 1) :
    ∃ out, pgMergeJoinField true UsingClause L R = .ok out ∧
      namedMax out n = namedMax (L ++ R) n := by
  unfold pgMergeJoinField
  simp only [if_true]
  refine ⟨_, rfl, ?_⟩
  rw [namedMax_append, namedMax_append]
  by_cases hL : ∃ l ∈ L, l.Name = n
  · have hdrop : namedMax (R.filter (fun field => (fieldMap L field.Name).isNone)) n
        = .MASKING_LEVEL_UNSPECIFIED := by
      apply namedMax_none
      intro f hf hn
      have h1 := (List.mem_filter.1 hf).2
      rw [fieldMap_eq, sameNamed_isNone] at h1
      obtain ⟨l, hl, hln⟩ := hL
      exact h1 l hl (hln.trans hn.symm)
    rw [hdrop, max_eq_left (bot_le_level _)]
    have hR := h hL
    cases hs : sameNamed R n with
    | none =>
      have hRn : namedMax R n = .MASKING_LEVEL_UNSPECIFIED :=
        namedMax_none R n ((sameNamed_isNone R n).1 (by rw [hs]; rfl))
      rw [hRn, namedMax_map_raise L n .MASKING_LEVEL_UNSPECIFIED hL]
      · intro l
        cases fieldMap R l.Name with
        | none => rfl
        | some r => simp only; split <;> rfl
      · intro l hl
        rw [fieldMap_eq, hl, hs]
        exact (max_eq_left (bot_le_level _)).symm
    | some r =>
      rw [namedMax_single R n r hs hR, namedMax_map_raise L n r.MaskingLevel hL]
      · intro l
        cases fieldMap R l.Name with
        | none => rfl
        | some r => simp only; split <;> rfl
      · intro l hl
        rw [fieldMap_eq, hl, hs]
        simp only
        rw [← ite_cmpLess]
        split <;> rfl
  · have hLn : ∀ f ∈ L, f.Name ≠ n := fun f hf hfn => hL ⟨f, hf, hfn⟩
    rw [namedMax_map_keep L n hLn, namedMax_none _ n hLn]
    · congr 1
      unfold namedMax
      congr 2
      rw [List.filter_filter]
      apply List.filter_congr
      intro r _
      by_cases hr : r.Name = n
      · have : (fieldMap L r.Name).isNone = true := by
          rw [fieldMap_eq, sameNamed_isNone, hr]
          exact hLn
        rw [this]
        simp
      · simp [hr]
    · intro l
      cases fieldMap R l.Name with
      | none => rfl
      | some r => simp only; split <;> rfl

theorem pgMergeJoinField_natural_max_witness :
    ∃ out, pgMergeJoinField true []
        [{ Table := "t", Name := "a", MaskingLevel := .NONE }]
        [{ Table := "s", Name := "a", MaskingLevel := .FULL },
         { Table := "s", Name := "b", MaskingLevel := .NONE }] = .ok out ∧
      namedMax out "a" =
        namedMax ([{ Table := "t", Name := "a", MaskingLevel := .NONE }] ++
          [{ Table := "s", Name := "a", MaskingLevel := .FULL },
           { Table := "s", Name := "b", MaskingLevel := .NONE }]) "a" :=
  pgMergeJoinField_natural_max [] _ _ "a" (fun _ => by decide)

theorem pgMergeJoinField_natural_max_counterexample :
    pgMergeJoinField true []
        [{ Table := "t", Name := "a", MaskingLevel := .NONE }]
        [{ Table := "s", Name := "a", MaskingLevel := .FULL },
         { Table := "s", Name := "a", MaskingLevel := .NONE }]
      = .ok [{ Table := "t", Name := "a", MaskingLevel := .NONE }] ∧
    namedMax [{ Table := "t", Name := "a", MaskingLevel := .NONE }] "a" = .NONE ∧
    namedMax ([{ Table := "t", Name := "a", MaskingLevel := .NONE }] ++
        [{ Table := "s", Name := "a", MaskingLevel := .FULL },
         { Table := "s", Name := "a", MaskingLevel := .NONE }]) "a" = .FULL :=
  ⟨rfl, rfl, rfl⟩

/-! ## The result of the fixpoint loop in the state of the call -/

/-- C12, the code at the recursive CTE `r AS (SELECT 1 AS u UNION SELECT b)`, evaluated in the
state the second FROM item of `leakQuery` is evaluated in (FROM list = the fields of
`t(a NONE, b FULL)`): `pgExtractRecursiveCTE` succeeds with `S = r(u NONE)` and returns with
the FROM list emptied. In the state of the call with `S` on top of the CTE stack the recursive
arm `SELECT b` evaluates to one column of level FULL, which is above the level NONE of `S`:
`S` is not a fixpoint. The initial arm is evaluated on the extractor of the call and its
`pgExtractSelect` clears the FROM list on exit (masking.go 507-509), so every pass of the
loop (344-365) evaluates the arm without the FROM list of the call and `b` is not resolved.
From a fresh extractor, `leakQuery` returns the column `u` with level NONE. -/
theorem pgExtractRecursiveCTE_not_fixpoint :
    pgExtractRecursiveCTE ConvertNodeListToColumnNameDef 4 leakState "r" []
        (some (.SelectStmt leakCteQuery))
      = (.ok { Name := "r", ColumnList := [⟨"u", .NONE⟩] },
         { leakState with fromFieldList := [] }) ∧
    pgExtractSelect ConvertNodeListToColumnNameDef 3
        { leakState with cteOuterSchemaInfo := [{ Name := "r", ColumnList := [⟨"u", .NONE⟩] }] }
        leakArm
      = (.ok [{ Name := "b", MaskingLevel := .FULL }],
         { SchemaInfo := scenarioCatalog
           cteOuterSchemaInfo := [{ Name := "r", ColumnList := [⟨"u", .NONE⟩] }] }) ∧
    ¬ MaskingLevel.FULL ≤ MaskingLevel.NONE ∧
    pgExtractSelect ConvertNodeListToColumnNameDef 9 { SchemaInfo := scenarioCatalog } leakQuery
      = (.ok [{ Schema := "public", Table := "sub", Name := "u", MaskingLevel := .NONE }],
         { SchemaInfo := scenarioCatalog }) :=
  ⟨rfl, rfl, by decide, rfl⟩

/-! ## Closure computed by the fixpoint loop -/

section ClosureSteps

variable (conv : List Node → Except Error ColumnNameDef)

theorem pgExtractRecursiveCTELoop_step (fuel : Nat) (ext ext1 : SensitiveFieldExtractor)
    (rarg : SelectStmt) (cteInfo : TableSchema) (fieldList : List FieldInfo)
    (h : pgExtractSelect conv fuel ext rarg = (.ok fieldList, ext1))
    (hlen : fieldList.length = cteInfo.ColumnList.length) :
    pgExtractRecursiveCTELoop conv (fuel + 1) ext (some rarg) cteInfo =
      if (raiseColumns cteInfo fieldList).2 = false then
        (.ok (raiseColumns cteInfo fieldList).1, ext1)
      else
        pgExtractRecursiveCTELoop conv fuel
          { ext1 with
              cteOuterSchemaInfo :=
                ext1.cteOuterSchemaInfo.set (ext1.cteOuterSchemaInfo.length - 1)
                  (raiseColumns cteInfo fieldList).1 }
          (some rarg) (raiseColumns cteInfo fieldList).1 := by
  simp only [pgExtractRecursiveCTELoop, h, hlen, ne_eq, not_true_eq_false, if_false]
  cases (raiseColumns cteInfo fieldList).2 <;> simp

theorem pgExtractRecursiveCTE_step (fuel : Nat) (ext ext1 ext2 : SensitiveFieldExtractor)
    (ctename : String) (aliascolnames : List Node) (selectNode larg : SelectStmt)
    (initialField renamed : List FieldInfo) (res : Except Error TableSchema)
    (hop : selectNode.Op = .SETOP_UNION) (hlarg : selectNode.Larg = some larg)
    (h : pgExtractSelect conv fuel ext larg = (.ok initialField, ext1))
    (ha : applyAliascolnames aliascolnames initialField = .ok renamed)
    (hloop : pgExtractRecursiveCTELoop conv fuel
        { ext1 with
            cteOuterSchemaInfo := ext1.cteOuterSchemaInfo ++ [cteTableSchema ctename renamed] }
        selectNode.Rarg (cteTableSchema ctename renamed) = (res, ext2)) :
    pgExtractRecursiveCTE conv (fuel + 1) ext ctename aliascolnames
        (some (.SelectStmt selectNode)) =
      (res, { ext2 with cteOuterSchemaInfo := ext2.cteOuterSchemaInfo.dropLast }) := by
  simp only [pgExtractRecursiveCTE, hop, hlarg, h, ha, hloop, ne_eq, not_true_eq_false,
    if_false]

end ClosureSteps

theorem closureArm_first :
    pgExtractSelect ConvertNodeListToColumnNameDef 14 (closureStateWith .NONE .NONE) closureArm
      = (.ok [{ Name := "column1", MaskingLevel := .PARTIAL },
              { Name := "column2", MaskingLevel := .FULL }], closureStateWith .NONE .NONE) := rfl

theorem closureArm_second :
    pgExtractSelect ConvertNodeListToColumnNameDef 13 (closureStateWith .PARTIAL .FULL) closureArm
      = (.ok [{ Name := "column1", MaskingLevel := .PARTIAL },
              { Name := "column2", MaskingLevel := .FULL }], closureStateWith .PARTIAL .FULL) := rfl

theorem closureLoop_second :
    pgExtractRecursiveCTELoop ConvertNodeListToColumnNameDef 14 (closureStateWith .PARTIAL .FULL)
        (some closureArm) { Name := "r", ColumnList := [⟨"u", .PARTIAL⟩, ⟨"x", .FULL⟩] }
      = (.ok { Name := "r", ColumnList := [⟨"u", .PARTIAL⟩, ⟨"x", .FULL⟩] },
         closureStateWith .PARTIAL .FULL) :=
  (pgExtractRecursiveCTELoop_step ConvertNodeListToColumnNameDef 13 _ _ closureArm _ _
    closureArm_second rfl).trans rfl

theorem closureLoop_first :
    pgExtractRecursiveCTELoop ConvertNodeListToColumnNameDef 15 (closureStateWith .NONE .NONE)
        (some closureArm) { Name := "r", ColumnList := [⟨"u", .NONE⟩, ⟨"x", .NONE⟩] }
      = (.ok { Name := "r", ColumnList := [⟨"u", .PARTIAL⟩, ⟨"x", .FULL⟩] },
         closureStateWith .PARTIAL .FULL) :=
  (pgExtractRecursiveCTELoop_step ConvertNodeListToColumnNameDef 14 _ _ closureArm _ _
    closureArm_first rfl).trans ((if_neg (by decide)).trans closureLoop_second)

/-- C30, the code at the recursive CTE `r(u, x) AS (VALUES (1, 1) UNION SELECT column1,
column2 FROM r, (WITH RECURSIVE r2 AS (VALUES (u, 1) UNION SELECT p, (SELECT x)) SELECT * FROM
r2) AS sub)`, evaluated in the state of a subquery expression over `t0(x FULL, p PARTIAL)`:
the result is `S = r(u PARTIAL, x FULL)`. The seed has the levels `(NONE, NONE)`, and the
schema `T = r(u PARTIAL, x NONE)`, which is above the seed, is closed under the recursive arm:
with `T` on top of the CTE stack the arm evaluates to `(PARTIAL, NONE)`. Yet `S` is not below
`T` in the column `x`. The arm is not monotone in `r`: its inner fixpoint loop makes a second
pass only when the first one raised a column, and that pass runs with the FROM list cleared
by the first, so `x` then resolves to `t0.x`. -/
theorem pgExtractRecursiveCTE_not_least :
    pgExtractRecursiveCTE ConvertNodeListToColumnNameDef 16 closureState "r"
        [.String_ "u", .String_ "x"] (some (.SelectStmt closureCteQuery))
      = (.ok { Name := "r", ColumnList := [⟨"u", .PARTIAL⟩, ⟨"x", .FULL⟩] }, closureState) ∧
    pgExtractSelect ConvertNodeListToColumnNameDef 15 closureState closureSeed
      = (.ok [{ Name := "column1", MaskingLevel := .NONE },
              { Name := "column2", MaskingLevel := .NONE }], closureState) ∧
    (pgExtractSelect ConvertNodeListToColumnNameDef 14 (closureStateWith .PARTIAL .NONE)
        closureArm).1
      = .ok [{ Name := "column1", MaskingLevel := .PARTIAL },
             { Name := "column2", MaskingLevel := .NONE }] ∧
    MaskingLevel.NONE ≤ MaskingLevel.PARTIAL ∧
    ¬ MaskingLevel.FULL ≤ MaskingLevel.NONE :=
  ⟨pgExtractRecursiveCTE_step ConvertNodeListToColumnNameDef 15 closureState closureState
      (closureStateWith .PARTIAL .FULL) "r"
      [.String_ "u", .String_ "x"] closureCteQuery closureSeed
      [{ Name := "column1", MaskingLevel := .NONE }, { Name := "column2", MaskingLevel := .NONE }]
      [{ Name := "u", MaskingLevel := .NONE }, { Name := "x", MaskingLevel := .NONE }]
      (.ok { Name := "r", ColumnList := [⟨"u", .PARTIAL⟩, ⟨"x", .FULL⟩] })
      rfl rfl rfl rfl closureLoop_first,
   rfl, rfl, by decide, by decide⟩

/-! ## Names do not depend on masking levels -/

theorem find?_map_erase {α β : Type} (f : α → β) (p : α → Bool) (q : β → Bool)
    (hq : ∀ a, q (f a) = p a) (l : List α) :
    (l.find? p).map f = (l.map f).find? q := by
  induction l with
  | nil => rfl
  | cons a l ih =>
    simp only [List.map_cons, List.find?_cons, hq]
    cases p a
    · exact ih
    · rfl

theorem findSome?_map_erase {α β γ δ : Type} (f : α → β) (k : γ → δ) (h : α → Option γ)
    (g : β → Option δ) (hg : ∀ a, (h a).map k = g (f a)) (l : List α) :
    (l.findSome? h).map k = (l.map f).findSome? g := by
  induction l with
  | nil => rfl
  | cons a l ih =>
    simp only [List.map_cons, List.findSome?_cons, ← hg]
    cases h a
    · exact ih
    · rfl

theorem catalogFind_erase (info : SensitiveSchemaInfo) (schemaName tableName : String) :
    (info.DatabaseList.findSome? (fun database =>
        database.SchemaList.findSome? (fun schema =>
          if (schemaName = "" ∧ schema.Name = "public") ∨ schemaName = schema.Name then
            schema.TableList.find? (fun table => tableName = table.Name)
          else none))).map eraseTable
    = (eraseCatalog info).DatabaseList.findSome? (fun database =>
        database.SchemaList.findSome? (fun schema =>
          if (schemaName = "" ∧ schema.Name = "public") ∨ schemaName = schema.Name then
            schema.TableList.find? (fun table => tableName = table.Name)
          else none)) := by
  unfold eraseCatalog
  apply findSome?_map_erase
  intro database
  unfold eraseDatabase
  apply findSome?_map_erase
  intro schema
  unfold eraseSchema
  simp only
  split
  · apply find?_map_erase
    intro table
    rfl
  · rfl

theorem pgFindTableSchema_erase (ext1 ext2 : SensitiveFieldExtractor) (h : SameShape ext1 ext2)
    (schemaName tableName : String) (t1 t2 : TableSchema)
    (h1 : pgFindTableSchema ext1 schemaName tableName = .ok t1)
    (h2 : pgFindTableSchema ext2 schemaName tableName = .ok t2) :
    eraseTable t1 = eraseTable t2 := by
  unfold pgFindTableSchema at h1 h2
  have hc : (ext1.cteOuterSchemaInfo.reverse.find? (fun table => table.Name = tableName)).map
        eraseTable
      = (ext2.cteOuterSchemaInfo.reverse.find? (fun table => table.Name = tableName)).map
        eraseTable := by
    rw [find?_map_erase eraseTable (fun table => decide (table.Name = tableName))
        (fun table => decide (table.Name = tableName)) (fun _ => rfl),
      find?_map_erase eraseTable (fun table => decide (table.Name = tableName))
        (fun table => decide (table.Name = tableName)) (fun _ => rfl),
      List.map_reverse, List.map_reverse, h.2]
  have hg := catalogFind_erase ext1.SchemaInfo schemaName tableName
  rw [h.1, ← catalogFind_erase ext2.SchemaInfo schemaName tableName] at hg
  revert h1 h2 hc hg
  generalize ext1.cteOuterSchemaInfo.reverse.find? _ = c1
  generalize ext2.cteOuterSchemaInfo.reverse.find? _ = c2
  generalize ext1.SchemaInfo.DatabaseList.findSome? _ = g1
  generalize ext2.SchemaInfo.DatabaseList.findSome? _ = g2
  intro h1 h2 hc hg
  cases c1 <;> cases c2 <;> cases g1 <;> cases g2 <;> simp at h1 h2 hc hg <;>
    first
    | (subst h1; subst h2; first | exact hc | exact hg)


theorem eraseTable_names (t : TableSchema) :
    (eraseTable t).ColumnList.map ColumnInfo.Name = t.ColumnList.map ColumnInfo.Name := by
  simp [eraseTable, eraseColumn, List.map_map, Function.comp]

theorem eraseField_names (fields : List FieldInfo) :
    (fields.map eraseField).map FieldInfo.Name = fields.map FieldInfo.Name := by
  simp [eraseField, List.map_map, Function.comp]

theorem erase_length {a b : List FieldInfo} (h : a.map eraseField = b.map eraseField) :
    a.length = b.length := by
  have := congrArg List.length h
  simpa using this

theorem erase_tableFields (t : TableSchema) :
    (t.ColumnList.map (fun column =>
      ({ Name := column.Name, Table := t.Name, MaskingLevel := column.MaskingLevel }
        : FieldInfo))).map eraseField
    = (eraseTable t).ColumnList.map (fun column =>
      ({ Name := column.Name, Table := (eraseTable t).Name,
         MaskingLevel := .MASKING_LEVEL_UNSPECIFIED } : FieldInfo)) := by
  simp [eraseTable, eraseField, eraseColumn, List.map_map, Function.comp]

theorem aliasFields_erase_from {α : Type} (aliasName : String) (names : List String)
    (name : α → String) (level : α → MaskingLevel) (items : List α) (n : Nat) :
    ((items.enumFrom n).map (fun (p : Nat × α) =>
      ({ Schema := "public", Table := aliasName,
         Name := if names.length > 0 then names.getD p.1 "" else name p.2,
         MaskingLevel := level p.2 } : FieldInfo))).map eraseField
    = ((items.map name).enumFrom n).map (fun (p : Nat × String) =>
      ({ Schema := "public", Table := aliasName,
         Name := if names.length > 0 then names.getD p.1 "" else p.2,
         MaskingLevel := .MASKING_LEVEL_UNSPECIFIED } : FieldInfo)) := by
  induction items generalizing n with
  | nil => rfl
  | cons a items ih =>
    simp only [List.enumFrom_cons, List.map_cons, List.cons.injEq]
    exact ⟨rfl, ih (n + 1)⟩

theorem aliasFields_erase {α : Type} (aliasName : String) (names : List String)
    (name : α → String) (level : α → MaskingLevel) (items : List α) :
    (aliasFields aliasName names name level items).map eraseField
      = aliasFields aliasName names id (fun _ => .MASKING_LEVEL_UNSPECIFIED)
          (items.map name) :=
  aliasFields_erase_from aliasName names name level items 0

theorem pgExtractRangeVar_erase (ext1 ext2 : SensitiveFieldExtractor) (h : SameShape ext1 ext2)
    (schemaname relname : String) (aliasNode : Option Alias) (f1 f2 : List FieldInfo)
    (h1 : (pgExtractRangeVar ext1 schemaname relname aliasNode).1 = .ok f1)
    (h2 : (pgExtractRangeVar ext2 schemaname relname aliasNode).1 = .ok f2) :
    f1.map eraseField = f2.map eraseField := by
  unfold pgExtractRangeVar at h1 h2
  cases hf1 : pgFindTableSchema ext1 schemaname relname with
  | error e => rw [hf1] at h1; cases h1
  | ok t1 =>
    cases hf2 : pgFindTableSchema ext2 schemaname relname with
    | error e => rw [hf2] at h2; cases h2
    | ok t2 =>
      have ht := pgFindTableSchema_erase ext1 ext2 h schemaname relname t1 t2 hf1 hf2
      rw [hf1] at h1
      rw [hf2] at h2
      cases aliasNode with
      | none =>
        simp only [Except.ok.injEq] at h1 h2
        subst h1
        subst h2
        rw [erase_tableFields, erase_tableFields, ht]
      | some aliasNode =>
        simp only at h1 h2
        cases ha : pgExtractAlias (some aliasNode) with
        | error e => rw [ha] at h1; cases h1
        | ok p =>
          obtain ⟨aliasName, columnNameList⟩ := p
          rw [ha] at h1 h2
          simp only at h1 h2
          split at h1
          · cases h1
          · split at h2
            · cases h2
            · simp only [Except.ok.injEq] at h1 h2
              subst h1
              subst h2
              rw [aliasFields_erase, aliasFields_erase, ← eraseTable_names t1,
                ← eraseTable_names t2, ht]

theorem eraseField_idem (field : FieldInfo) : eraseField (eraseField field) = eraseField field :=
  rfl

theorem fieldMap_isNone_erase (L : List FieldInfo) (name : String) :
    (fieldMap (L.map eraseField) name).isNone = (fieldMap L name).isNone := by
  rw [Bool.eq_iff_iff, fieldMap_eq, fieldMap_eq, sameNamed_isNone, sameNamed_isNone]
  constructor
  · intro hn l hl
    exact hn (eraseField l) (List.mem_map_of_mem _ hl)
  · intro hn l hl
    obtain ⟨l0, hl0, rfl⟩ := List.mem_map.1 hl
    exact hn l0 hl0

theorem fieldMap_isNone_congr {L1 L2 : List FieldInfo}
    (h : L1.map eraseField = L2.map eraseField) (name : String) :
    (fieldMap L1 name).isNone = (fieldMap L2 name).isNone := by
  rw [← fieldMap_isNone_erase L1, ← fieldMap_isNone_erase L2, h]

theorem filter_erase (R : List FieldInfo) {p : FieldInfo → Bool}
    (hp : ∀ f, p (eraseField f) = p f) :
    (R.filter p).map eraseField = (R.map eraseField).filter p := by
  induction R with
  | nil => rfl
  | cons a R ih =>
    simp only [List.filter_cons, List.map_cons, hp]
    cases p a
    · exact ih
    · simp [ih]

theorem map_erase_congr (L : List FieldInfo) {g : FieldInfo → FieldInfo}
    (hg : ∀ f, eraseField (g f) = eraseField f) : (L.map g).map eraseField = L.map eraseField := by
  induction L with
  | nil => rfl
  | cons a L ih => simp only [List.map_cons, hg, ih]

theorem pgMergeJoinField_erase (isNatural : Bool) (usingClause : List Node)
    (L1 L2 R1 R2 out1 out2 : List FieldInfo)
    (hL : L1.map eraseField = L2.map eraseField) (hR : R1.map eraseField = R2.map eraseField)
    (h1 : pgMergeJoinField isNatural usingClause L1 R1 = .ok out1)
    (h2 : pgMergeJoinField isNatural usingClause L2 R2 = .ok out2) :
    out1.map eraseField = out2.map eraseField := by
  unfold pgMergeJoinField at h1 h2
  cases isNatural with
  | true =>
    simp only [if_true, Except.ok.injEq] at h1 h2
    subst h1
    subst h2
    rw [List.map_append, List.map_append, map_erase_congr L1, map_erase_congr L2,
      filter_erase R1, filter_erase R2, hL, hR]
    · congr 2
      funext field
      exact fieldMap_isNone_congr hL field.Name
    all_goals first
      | (intro f; rfl)
      | (intro l
         generalize fieldMap _ l.Name = o
         cases o with
         | none => rfl
         | some r => simp only; split <;> rfl)
  | false =>
    by_cases hu : usingClause.length > 0
    · simp only [Bool.false_eq_true, if_false, hu, if_true] at h1 h2
      cases hs : stringNodeList usingClause with
      | error e => rw [hs] at h1; cases h1
      | ok usingList =>
        rw [hs] at h1 h2
        simp only [Except.ok.injEq] at h1 h2
        subst h1
        subst h2
        rw [List.map_append, List.map_append, map_erase_congr L1, map_erase_congr L2,
          filter_erase R1, filter_erase R2, hL, hR]
        · congr 2
          funext field
          have := fieldMap_isNone_congr hL field.Name
          cases h3 : fieldMap L1 field.Name <;> cases h4 : fieldMap L2 field.Name <;>
            simp [h3, h4] at this ⊢
        all_goals first
          | (intro f; rfl)
          | (intro l
             generalize fieldMap _ l.Name = o
             cases o with
             | none => rfl
             | some r => simp only; split <;> rfl)
    · simp only [Bool.false_eq_true, if_false, hu, Except.ok.injEq] at h1 h2
      subst h1
      subst h2
      rw [List.map_append, List.map_append, hL, hR]


theorem applyAliascolnames_erase (aliascolnames : List Node) (fieldList renamed : List FieldInfo)
    (h : applyAliascolnames aliascolnames fieldList = .ok renamed) :
    applyAliascolnames aliascolnames (fieldList.map eraseField)
      = .ok (renamed.map eraseField) := by
  unfold applyAliascolnames at h ⊢
  by_cases hlen : aliascolnames.length > 0
  · simp only [hlen, if_true, List.length_map] at h ⊢
    by_cases hne : aliascolnames.length ≠ fieldList.length
    · simp only [hne, ne_eq, not_false_eq_true, if_true] at h
      cases h
    · simp only [hne, if_false] at h ⊢
      cases hs : stringNodeList aliascolnames with
      | error e => rw [hs] at h; cases h
      | ok nameList =>
        rw [hs] at h
        simp only [Except.ok.injEq] at h ⊢
        subst h
        rw [List.map_zipWith, List.zipWith_map_left]
        rfl
  · simp only [hlen, if_false, Except.ok.injEq] at h ⊢
    rw [h]

theorem applyAliascolnames_erase_congr (aliascolnames : List Node)
    (F1 F2 R1 R2 : List FieldInfo) (hF : F1.map eraseField = F2.map eraseField)
    (h1 : applyAliascolnames aliascolnames F1 = .ok R1)
    (h2 : applyAliascolnames aliascolnames F2 = .ok R2) :
    R1.map eraseField = R2.map eraseField := by
  have e1 := applyAliascolnames_erase _ _ _ h1
  have e2 := applyAliascolnames_erase _ _ _ h2
  rw [hF, e2] at e1
  exact (Except.ok.inj e1).symm

theorem cteTableSchema_erase (ctename : String) (fieldList : List FieldInfo) :
    eraseTable (cteTableSchema ctename fieldList)
      = cteTableSchema ctename (fieldList.map eraseField) := by
  simp [eraseTable, cteTableSchema, eraseColumn, eraseField, List.map_map, Function.comp]

theorem eraseTable_of_names {S C : TableSchema} (hn : S.Name = C.Name)
    (hc : S.ColumnList.map (fun c => c.Name) = C.ColumnList.map (fun c => c.Name)) :
    eraseTable S = eraseTable C := by
  have h : ∀ t : TableSchema, eraseTable t
      = { Name := t.Name
          ColumnList := (t.ColumnList.map (fun c => c.Name)).map
            (fun n => ({ Name := n, MaskingLevel := .MASKING_LEVEL_UNSPECIFIED } : ColumnInfo)) } := by
    intro t
    simp [eraseTable, eraseColumn, List.map_map, Function.comp]
  rw [h S, h C, hn, hc]

theorem valuesRowLoop_length
    (level : SensitiveFieldExtractor → Option Node → Result MaskingLevel)
    (items : List Node) :
    ∀ (ext : SensitiveFieldExtractor) (acc levels : List MaskingLevel),
      (valuesRowLoop level ext acc items).1 = .ok levels →
      levels.length = acc.length + items.length := by
  induction items with
  | nil =>
    intro ext acc levels h
    simp only [valuesRowLoop, Except.ok.injEq] at h
    subst h
    rfl
  | cons item rest ih =>
    intro ext acc levels h
    rw [valuesRowLoop] at h
    generalize level ext (some item) = res at h
    rcases res with ⟨r, ext1⟩
    cases r with
    | error e => cases h
    | ok lv =>
      have := ih _ _ _ h
      simp only [List.length_append, List.length_cons, List.length_nil] at this ⊢
      omega

theorem enumFrom_columns_erase (l1 : List MaskingLevel) :
    ∀ (l2 : List MaskingLevel) (n : Nat), l1.length = l2.length →
      ((l1.enumFrom n).map (fun (p : Nat × MaskingLevel) =>
        ({ Name := "column" ++ toString (p.1 + 1), MaskingLevel := p.2 } : FieldInfo))).map
          eraseField
      = ((l2.enumFrom n).map (fun (p : Nat × MaskingLevel) =>
        ({ Name := "column" ++ toString (p.1 + 1), MaskingLevel := p.2 } : FieldInfo))).map
          eraseField := by
  induction l1 with
  | nil =>
    intro l2 n h
    cases l2 with
    | nil => rfl
    | cons b l2 => cases h
  | cons a l1 ih =>
    intro l2 n h
    cases l2 with
    | nil => cases h
    | cons b l2 =>
      simp only [List.enumFrom_cons, List.map_cons, List.cons.injEq]
      exact ⟨rfl, ih l2 (n + 1) (by simpa using h)⟩

theorem valuesLoop_erase
    (level1 level2 : SensitiveFieldExtractor → Option Node → Result MaskingLevel)
    (rows : List Node) :
    ∀ (ext1 ext2 : SensitiveFieldExtractor) (res1 res2 out1 out2 : List FieldInfo),
      res1.map eraseField = res2.map eraseField →
      (valuesLoop level1 ext1 res1 rows).1 = .ok out1 →
      (valuesLoop level2 ext2 res2 rows).1 = .ok out2 →
      out1.map eraseField = out2.map eraseField := by
  induction rows with
  | nil =>
    intro ext1 ext2 res1 res2 out1 out2 hres h1 h2
    simp only [valuesLoop, Except.ok.injEq] at h1 h2
    subst h1
    subst h2
    exact hres
  | cons row rest ih =>
    intro ext1 ext2 res1 res2 out1 out2 hres h1 h2
    cases row
    case List items =>
      simp only [valuesLoop] at h1 h2
      have hl1 := valuesRowLoop_length level1 items ext1 []
      have hl2 := valuesRowLoop_length level2 items ext2 []
      generalize valuesRowLoop level1 ext1 [] items = r1 at h1 hl1
      generalize valuesRowLoop level2 ext2 [] items = r2 at h2 hl2
      rcases r1 with ⟨v1, e1⟩
      rcases r2 with ⟨v2, e2⟩
      cases v1 with
      | error e => cases h1
      | ok levels1 =>
        cases v2 with
        | error e => cases h2
        | ok levels2 =>
          simp only at h1 h2
          refine ih _ _ _ _ _ _ ?_ h1 h2
          have hlen := erase_length hres
          have hl : levels1.length = levels2.length := by
            rw [hl1 levels1 rfl, hl2 levels2 rfl]
          by_cases hz : res1.length = 0
          · rw [if_pos hz, if_pos (hlen ▸ hz)]
            exact enumFrom_columns_erase levels1 levels2 0 hl
          · rw [if_neg hz, if_neg (hlen ▸ hz)]
            exact hres
    all_goals (simp only [valuesLoop] at h1; cases h1)

theorem zipWith_left_only {α β γ : Type} (k : α → γ) (A : List α) :
    ∀ R : List β, A.length = R.length → List.zipWith (fun x _ => k x) A R = A.map k := by
  induction A with
  | nil => intro R _; rfl
  | cons a A ih =>
    intro R h
    cases R with
    | nil => cases h
    | cons r R =>
      simp only [List.zipWith_cons_cons, List.map_cons, List.cons.injEq, true_and]
      exact ih R (by simpa using h)

theorem setOpFields_erase (L R : List FieldInfo) (h : L.length = R.length) :
    (setOpFields L R).map eraseField
      = (L.map eraseField).map (fun l =>
          ({ Name := l.Name, Table := l.Table, MaskingLevel := .MASKING_LEVEL_UNSPECIFIED }
            : FieldInfo)) := by
  rw [setOpFields_eq, List.map_zipWith, List.map_map]
  exact zipWith_left_only (fun l : FieldInfo =>
    ({ Name := l.Name, Table := l.Table, MaskingLevel := .MASKING_LEVEL_UNSPECIFIED }
      : FieldInfo)) L R h

theorem sameShape_of_scope {a a1 b b1 : SensitiveFieldExtractor} (h : SameShape a b)
    (ha : SameScope a a1) (hb : SameScope b b1) : SameShape a1 b1 := by
  unfold SameShape at h ⊢
  rw [← ha.1, ← ha.2.2, ← hb.1, ← hb.2.2]
  exact h


section ShapeLoops

variable (conv : List Node → Except Error ColumnNameDef)

theorem starFields_erase (from1 from2 : List FieldInfo)
    (h : from1.map eraseField = from2.map eraseField) (val : Node) :
    (starFields conv from1 val).map eraseField = (starFields conv from2 val).map eraseField := by
  unfold starFields
  cases val
  case ColumnRef fields =>
    simp only
    cases conv fields with
    | error e => rfl
    | ok columnRef =>
      simp only
      split
      · exact h
      · rw [filter_erase from1, filter_erase from2, h]
        · intro f; rfl
        · intro f; rfl
  all_goals rfl

theorem targetListLoop_erase
    (level1 level2 : SensitiveFieldExtractor → Option Node → Result MaskingLevel)
    (from1 from2 : List FieldInfo) (hfrom : from1.map eraseField = from2.map eraseField)
    (targets : List Node) :
    ∀ (ext1 ext2 : SensitiveFieldExtractor) (acc1 acc2 out1 out2 : List FieldInfo),
      acc1.map eraseField = acc2.map eraseField →
      (targetListLoop conv level1 from1 ext1 acc1 targets).1 = .ok out1 →
      (targetListLoop conv level2 from2 ext2 acc2 targets).1 = .ok out2 →
      out1.map eraseField = out2.map eraseField := by
  induction targets with
  | nil =>
    intro ext1 ext2 acc1 acc2 out1 out2 hacc h1 h2
    simp only [targetListLoop, Except.ok.injEq] at h1 h2
    subst h1
    subst h2
    exact hacc
  | cons field rest ih =>
    intro ext1 ext2 acc1 acc2 out1 out2 hacc h1 h2
    cases field
    case ResTarget name val =>
      cases val with
      | none => simp only [targetListLoop] at h1; cases h1
      | some v =>
        have hstep : ∀ (fieldName : Except Error String),
            (match level1 ext1 (some v) with
              | (.error e, extractor) => ((.error e, extractor) : Result (List FieldInfo))
              | (.ok maskingLevel, extractor) =>
                match fieldName with
                | .error e => (.error e, extractor)
                | .ok fieldName =>
                  targetListLoop conv level1 from1 extractor
                    (acc1 ++ [({ Name := fieldName, MaskingLevel := maskingLevel } : FieldInfo)])
                    rest).1 = .ok out1 →
            (match level2 ext2 (some v) with
              | (.error e, extractor) => ((.error e, extractor) : Result (List FieldInfo))
              | (.ok maskingLevel, extractor) =>
                match fieldName with
                | .error e => (.error e, extractor)
                | .ok fieldName =>
                  targetListLoop conv level2 from2 extractor
                    (acc2 ++ [({ Name := fieldName, MaskingLevel := maskingLevel } : FieldInfo)])
                    rest).1 = .ok out2 →
            out1.map eraseField = out2.map eraseField := by
          intro fieldName g1 g2
          generalize level1 ext1 (some v) = res1 at g1
          generalize level2 ext2 (some v) = res2 at g2
          rcases res1 with ⟨r1, e1⟩
          rcases res2 with ⟨r2, e2⟩
          cases r1 with
          | error e => cases g1
          | ok lv1 =>
            cases r2 with
            | error e => cases g2
            | ok lv2 =>
              cases fieldName with
              | error e => cases g1
              | ok n =>
                refine ih _ _ _ _ _ _ ?_ g1 g2
                rw [List.map_append, List.map_append, hacc]
                rfl
        by_cases hcr : ∃ fields, v = .ColumnRef fields
        · obtain ⟨fields, rfl⟩ := hcr
          rw [targetListLoop_columnRef] at h1 h2
          by_cases hstar : isStarTarget conv (.ColumnRef fields) = true
          · rw [if_pos hstar] at h1 h2
            refine ih _ _ _ _ _ _ ?_ h1 h2
            rw [List.map_append, List.map_append, hacc,
              starFields_erase conv from1 from2 hfrom]
          · rw [if_neg hstar] at h1 h2
            cases hc : conv fields with
            | error e => rw [hc] at h1; cases h1
            | ok d =>
              rw [hc] at h1 h2
              exact hstep _ h1 h2
        · rw [targetListLoop_other conv _ _ _ _ _ _ _ (fun f hf => hcr ⟨f, hf⟩)] at h1 h2
          exact hstep _ h1 h2
    all_goals (simp only [targetListLoop] at h1; cases h1)

theorem fromClauseLoop_erase
    (node1 node2 : SensitiveFieldExtractor → Option Node → Result (List FieldInfo))
    (hn : ∀ ext1 ext2 n f1 f2, SameShape ext1 ext2 → (node1 ext1 n).1 = .ok f1 →
      (node2 ext2 n).1 = .ok f2 → f1.map eraseField = f2.map eraseField)
    (hs1 : ∀ ext n, SameScope ext (node1 ext n).2)
    (hs2 : ∀ ext n, SameScope ext (node2 ext n).2) (items : List Node) :
    ∀ (ext1 ext2 : SensitiveFieldExtractor) (acc1 acc2 out1 out2 : List FieldInfo),
      SameShape ext1 ext2 → acc1.map eraseField = acc2.map eraseField →
      (fromClauseLoop node1 ext1 acc1 items).1 = .ok out1 →
      (fromClauseLoop node2 ext2 acc2 items).1 = .ok out2 →
      out1.map eraseField = out2.map eraseField := by
  induction items with
  | nil =>
    intro ext1 ext2 acc1 acc2 out1 out2 _ hacc h1 h2
    simp only [fromClauseLoop, Except.ok.injEq] at h1 h2
    subst h1
    subst h2
    exact hacc
  | cons item rest ih =>
    intro ext1 ext2 acc1 acc2 out1 out2 hshape hacc h1 h2
    rw [fromClauseLoop] at h1 h2
    have hn1 := hn ext1 ext2 (some item)
    have hsc1 := hs1 ext1 (some item)
    have hsc2 := hs2 ext2 (some item)
    generalize node1 ext1 (some item) = res1 at h1 hn1 hsc1
    generalize node2 ext2 (some item) = res2 at h2 hn1 hsc2
    rcases res1 with ⟨r1, e1⟩
    rcases res2 with ⟨r2, e2⟩
    cases r1 with
    | error e => cases h1
    | ok fl1 =>
      cases r2 with
      | error e => cases h2
      | ok fl2 =>
        have hsh : SameShape e1 e2 := sameShape_of_scope hshape hsc1 hsc2
        simp only at h1 h2
        refine ih _ _ _ _ _ _ ?_ ?_ h1 h2
        · exact ⟨hsh.1, hsh.2⟩
        · exact hn1 fl1 fl2 hshape rfl rfl

theorem withClauseLoop_erase
    (rec1 non1 rec2 non2 :
      SensitiveFieldExtractor → String → List Node → Option Node → Result TableSchema)
    (hr : ∀ ext1 ext2 a b c t1 t2, SameShape ext1 ext2 → (rec1 ext1 a b c).1 = .ok t1 →
      (rec2 ext2 a b c).1 = .ok t2 → eraseTable t1 = eraseTable t2)
    (hnr : ∀ ext1 ext2 a b c t1 t2, SameShape ext1 ext2 → (non1 ext1 a b c).1 = .ok t1 →
      (non2 ext2 a b c).1 = .ok t2 → eraseTable t1 = eraseTable t2)
    (hsr1 : ∀ ext a b c, SameScope ext (rec1 ext a b c).2)
    (hsn1 : ∀ ext a b c, SameScope ext (non1 ext a b c).2)
    (hsr2 : ∀ ext a b c, SameScope ext (rec2 ext a b c).2)
    (hsn2 : ∀ ext a b c, SameScope ext (non2 ext a b c).2)
    (Recursive : Bool) (ctes : List Node) :
    ∀ (ext1 ext2 e1 e2 : SensitiveFieldExtractor), SameShape ext1 ext2 →
      withClauseLoop rec1 non1 Recursive ext1 ctes = (.ok (), e1) →
      withClauseLoop rec2 non2 Recursive ext2 ctes = (.ok (), e2) →
      SameShape e1 e2 := by
  induction ctes with
  | nil =>
    intro ext1 ext2 e1 e2 hshape h1 h2
    simp only [withClauseLoop, Prod.mk.injEq, true_and] at h1 h2
    subst h1
    subst h2
    exact hshape
  | cons cte rest ih =>
    intro ext1 ext2 e1 e2 hshape h1 h2
    cases cte
    case CommonTableExpr ctename aliascolnames ctequery =>
      simp only [withClauseLoop] at h1 h2
      cases Recursive with
      | true =>
        simp only [if_true] at h1 h2
        have hr1 := hr ext1 ext2 ctename aliascolnames ctequery
        have hsc1 := hsr1 ext1 ctename aliascolnames ctequery
        have hsc2 := hsr2 ext2 ctename aliascolnames ctequery
        generalize rec1 ext1 ctename aliascolnames ctequery = res1 at h1 hr1 hsc1
        generalize rec2 ext2 ctename aliascolnames ctequery = res2 at h2 hr1 hsc2
        rcases res1 with ⟨r1, x1⟩
        rcases res2 with ⟨r2, x2⟩
        cases r1 with
        | error e => simp at h1
        | ok t1 =>
          cases r2 with
          | error e => simp at h2
          | ok t2 =>
            have hsh : SameShape x1 x2 := sameShape_of_scope hshape hsc1 hsc2
            refine ih _ _ _ _ ?_ h1 h2
            refine ⟨hsh.1, ?_⟩
            simp only [List.map_append, List.map_cons, List.map_nil]
            rw [hsh.2, hr1 t1 t2 hshape rfl rfl]
      | false =>
        simp only [Bool.false_eq_true, if_false] at h1 h2
        have hr1 := hnr ext1 ext2 ctename aliascolnames ctequery
        have hsc1 := hsn1 ext1 ctename aliascolnames ctequery
        have hsc2 := hsn2 ext2 ctename aliascolnames ctequery
        generalize non1 ext1 ctename aliascolnames ctequery = res1 at h1 hr1 hsc1
        generalize non2 ext2 ctename aliascolnames ctequery = res2 at h2 hr1 hsc2
        rcases res1 with ⟨r1, x1⟩
        rcases res2 with ⟨r2, x2⟩
        cases r1 with
        | error e => simp at h1
        | ok t1 =>
          cases r2 with
          | error e => simp at h2
          | ok t2 =>
            have hsh : SameShape x1 x2 := sameShape_of_scope hshape hsc1 hsc2
            refine ih _ _ _ _ ?_ h1 h2
            refine ⟨hsh.1, ?_⟩
            simp only [List.map_append, List.map_cons, List.map_nil]
            rw [hsh.2, hr1 t1 t2 hshape rfl rfl]
    all_goals (simp [withClauseLoop] at h1)

theorem pgExtractSelectBody_erase
    (sel1 sel2 : SensitiveFieldExtractor → SelectStmt → Result (List FieldInfo))
    (node1 node2 : SensitiveFieldExtractor → Option Node → Result (List FieldInfo))
    (level1 level2 : SensitiveFieldExtractor → Option Node → Result MaskingLevel)
    (hsel : ∀ ext1 ext2 n f1 f2, SameShape ext1 ext2 → (sel1 ext1 n).1 = .ok f1 →
      (sel2 ext2 n).1 = .ok f2 → f1.map eraseField = f2.map eraseField)
    (hss1 : ∀ ext n, SameScope ext (sel1 ext n).2)
    (hss2 : ∀ ext n, SameScope ext (sel2 ext n).2)
    (hn : ∀ ext1 ext2 n f1 f2, SameShape ext1 ext2 → (node1 ext1 n).1 = .ok f1 →
      (node2 ext2 n).1 = .ok f2 → f1.map eraseField = f2.map eraseField)
    (hs1 : ∀ ext n, SameScope ext (node1 ext n).2)
    (hs2 : ∀ ext n, SameScope ext (node2 ext n).2)
    (ext1 ext2 : SensitiveFieldExtractor) (node : SelectStmt) (out1 out2 : List FieldInfo)
    (hshape : SameShape ext1 ext2)
    (h1 : (pgExtractSelectBody conv sel1 node1 level1 ext1 node).1 = .ok out1)
    (h2 : (pgExtractSelectBody conv sel2 node2 level2 ext2 node).1 = .ok out2) :
    out1.map eraseField = out2.map eraseField := by
  unfold pgExtractSelectBody at h1 h2
  by_cases hv : node.ValuesLists.length > 0
  · simp only [hv, if_true] at h1 h2
    exact valuesLoop_erase level1 level2 _ _ _ _ _ _ _ rfl h1 h2
  · simp only [hv, if_false] at h1 h2
    have hset :
        (match node.Larg with
          | none => ((.error .panic, ext1) : Result (List FieldInfo))
          | some larg =>
            match sel1 ext1 larg with
            | (.error e, extractor) => (.error e, extractor)
            | (.ok leftField, extractor) =>
              match node.Rarg with
              | none => (.error .panic, extractor)
              | some rarg =>
                match sel1 extractor rarg with
                | (.error e, extractor) => (.error e, extractor)
                | (.ok rightField, extractor) =>
                  if leftField.length ≠ rightField.length then
                    (.error .setOpColumnCount, extractor)
                  else (.ok (setOpFields leftField rightField), extractor)).1 = .ok out1 →
        (match node.Larg with
          | none => ((.error .panic, ext2) : Result (List FieldInfo))
          | some larg =>
            match sel2 ext2 larg with
            | (.error e, extractor) => (.error e, extractor)
            | (.ok leftField, extractor) =>
              match node.Rarg with
              | none => (.error .panic, extractor)
              | some rarg =>
                match sel2 extractor rarg with
                | (.error e, extractor) => (.error e, extractor)
                | (.ok rightField, extractor) =>
                  if leftField.length ≠ rightField.length then
                    (.error .setOpColumnCount, extractor)
                  else (.ok (setOpFields leftField rightField), extractor)).1 = .ok out2 →
        out1.map eraseField = out2.map eraseField := by
      intro g1 g2
      cases hl : node.Larg with
      | none => rw [hl] at g1; cases g1
      | some larg =>
        rw [hl] at g1 g2
        simp only at g1 g2
        have hl1 := hsel ext1 ext2 larg
        have hsc1 := hss1 ext1 larg
        have hsc2 := hss2 ext2 larg
        generalize sel1 ext1 larg = res1 at g1 hl1 hsc1
        generalize sel2 ext2 larg = res2 at g2 hl1 hsc2
        rcases res1 with ⟨r1, e1⟩
        rcases res2 with ⟨r2, e2⟩
        cases r1 with
        | error e => cases g1
        | ok L1 =>
          cases r2 with
          | error e => cases g2
          | ok L2 =>
            simp only at g1 g2
            have hL := hl1 L1 L2 hshape rfl rfl
            have hsh : SameShape e1 e2 := sameShape_of_scope hshape hsc1 hsc2
            cases hr : node.Rarg with
            | none => rw [hr] at g1; cases g1
            | some rarg =>
              rw [hr] at g1 g2
              simp only at g1 g2
              generalize sel1 e1 rarg = res3 at g1
              generalize sel2 e2 rarg = res4 at g2
              rcases res3 with ⟨r3, e3⟩
              rcases res4 with ⟨r4, e4⟩
              cases r3 with
              | error e => cases g1
              | ok R1 =>
                cases r4 with
                | error e => cases g2
                | ok R2 =>
                  simp only at g1 g2
                  by_cases hlen1 : L1.length ≠ R1.length
                  · rw [if_pos hlen1] at g1; cases g1
                  · by_cases hlen2 : L2.length ≠ R2.length
                    · rw [if_pos hlen2] at g2; cases g2
                    · rw [if_neg hlen1] at g1
                      rw [if_neg hlen2] at g2
                      simp only [Except.ok.injEq] at g1 g2
                      subst g1
                      subst g2
                      rw [setOpFields_erase L1 R1 (not_not.1 hlen1),
                        setOpFields_erase L2 R2 (not_not.1 hlen2), hL]
    cases hop : node.Op with
    | SETOP_NONE =>
      rw [hop] at h1 h2
      simp only at h1 h2
      have hf := fromClauseLoop_erase node1 node2 hn hs1 hs2 node.FromClause ext1 ext2 [] []
      generalize fromClauseLoop node1 ext1 [] node.FromClause = res1 at h1 hf
      generalize fromClauseLoop node2 ext2 [] node.FromClause = res2 at h2 hf
      rcases res1 with ⟨r1, e1⟩
      rcases res2 with ⟨r2, e2⟩
      cases r1 with
      | error e => cases h1
      | ok from1 =>
        cases r2 with
        | error e => cases h2
        | ok from2 =>
          simp only at h1 h2
          exact targetListLoop_erase conv level1 level2 from1 from2
            (hf from1 from2 hshape rfl rfl rfl) node.TargetList _ _ _ _ _ _ rfl h1 h2
    | SET_OPERATION_UNDEFINED =>
      rw [hop] at h1
      cases h1
    | SETOP_UNION =>
      rw [hop] at h1 h2
      exact hset h1 h2
    | SETOP_INTERSECT =>
      rw [hop] at h1 h2
      exact hset h1 h2
    | SETOP_EXCEPT =>
      rw [hop] at h1 h2
      exact hset h1 h2

end ShapeLoops

section ShapeInvariant

variable (conv : List Node → Except Error ColumnNameDef)

theorem erase_inv (fuel1 : Nat) : ∀ fuel2 : Nat,
    (∀ ext1 ext2 n f1 f2, SameShape ext1 ext2 →
      (pgExtractNode conv fuel1 ext1 n).1 = .ok f1 →
      (pgExtractNode conv fuel2 ext2 n).1 = .ok f2 →
      f1.map eraseField = f2.map eraseField) ∧
    (∀ ext1 ext2 a b c d f1 f2, SameShape ext1 ext2 →
      (pgExtractJoin conv fuel1 ext1 a b c d).1 = .ok f1 →
      (pgExtractJoin conv fuel2 ext2 a b c d).1 = .ok f2 →
      f1.map eraseField = f2.map eraseField) ∧
    (∀ ext1 ext2 a b f1 f2, SameShape ext1 ext2 →
      (pgExtractRangeSubselect conv fuel1 ext1 a b).1 = .ok f1 →
      (pgExtractRangeSubselect conv fuel2 ext2 a b).1 = .ok f2 →
      f1.map eraseField = f2.map eraseField) ∧
    (∀ ext1 ext2 a b c t1 t2, SameShape ext1 ext2 →
      (pgExtractRecursiveCTE conv fuel1 ext1 a b c).1 = .ok t1 →
      (pgExtractRecursiveCTE conv fuel2 ext2 a b c).1 = .ok t2 →
      eraseTable t1 = eraseTable t2) ∧
    (∀ ext1 ext2 a b c t1 t2, SameShape ext1 ext2 →
      (pgExtractNonRecursiveCTE conv fuel1 ext1 a b c).1 = .ok t1 →
      (pgExtractNonRecursiveCTE conv fuel2 ext2 a b c).1 = .ok t2 →
      eraseTable t1 = eraseTable t2) ∧
    (∀ ext1 ext2 n f1 f2, SameShape ext1 ext2 →
      (pgExtractSelect conv fuel1 ext1 n).1 = .ok f1 →
      (pgExtractSelect conv fuel2 ext2 n).1 = .ok f2 →
      f1.map eraseField = f2.map eraseField) := by
  induction fuel1 with
  | zero =>
    intro fuel2
    refine ⟨?_, ?_, ?_, ?_, ?_, ?_⟩
    · intro ext1 ext2 n f1 f2 _ h1 _
      simp only [pgExtractNode] at h1
      cases h1
    · intro ext1 ext2 a b c d f1 f2 _ h1 _
      simp only [pgExtractJoin] at h1
      cases h1
    · intro ext1 ext2 a b f1 f2 _ h1 _
      simp only [pgExtractRangeSubselect] at h1
      cases h1
    · intro ext1 ext2 a b c t1 t2 _ h1 _
      simp only [pgExtractRecursiveCTE] at h1
      cases h1
    · intro ext1 ext2 a b c t1 t2 _ h1 _
      simp only [pgExtractNonRecursiveCTE] at h1
      cases h1
    · intro ext1 ext2 n f1 f2 _ h1 _
      simp only [pgExtractSelect] at h1
      cases h1
  | succ fuel1 ih =>
    intro fuel2
    cases fuel2 with
    | zero =>
      refine ⟨?_, ?_, ?_, ?_, ?_, ?_⟩
      · intro ext1 ext2 n f1 f2 _ _ h2
        simp only [pgExtractNode] at h2
        cases h2
      · intro ext1 ext2 a b c d f1 f2 _ _ h2
        simp only [pgExtractJoin] at h2
        cases h2
      · intro ext1 ext2 a b f1 f2 _ _ h2
        simp only [pgExtractRangeSubselect] at h2
        cases h2
      · intro ext1 ext2 a b c t1 t2 _ _ h2
        simp only [pgExtractRecursiveCTE] at h2
        cases h2
      · intro ext1 ext2 a b c t1 t2 _ _ h2
        simp only [pgExtractNonRecursiveCTE] at h2
        cases h2
      · intro ext1 ext2 n f1 f2 _ _ h2
        simp only [pgExtractSelect] at h2
        cases h2
    | succ fuel2 =>
      obtain ⟨ihNode, ihJoin, ihSub, ihRec, ihNon, ihSel⟩ := ih fuel2
      have sc1 := scope_inv conv fuel1
      have sc2 := scope_inv conv fuel2
      refine ⟨?_, ?_, ?_, ?_, ?_, ?_⟩
      · -- pgExtractNode
        intro ext1 ext2 n f1 f2 hshape h1 h2
        cases n with
        | none =>
          simp only [pgExtractNode, Except.ok.injEq] at h1 h2
          subst h1
          subst h2
          rfl
        | some node =>
          cases node
          case SelectStmt s =>
            simp only [pgExtractNode] at h1 h2
            exact ihSel _ _ _ _ _ hshape h1 h2
          case RangeVar sn rn al =>
            simp only [pgExtractNode] at h1 h2
            exact pgExtractRangeVar_erase _ _ hshape _ _ _ _ _ h1 h2
          case RangeSubselect sq al =>
            simp only [pgExtractNode] at h1 h2
            exact ihSub _ _ _ _ _ _ hshape h1 h2
          case JoinExpr isn l r u =>
            simp only [pgExtractNode] at h1 h2
            exact ihJoin _ _ _ _ _ _ _ _ hshape h1 h2
          all_goals
            simp only [pgExtractNode, Except.ok.injEq] at h1 h2
            subst h1
            subst h2
            rfl
      · -- pgExtractJoin
        intro ext1 ext2 isn larg rarg u f1 f2 hshape h1 h2
        simp only [pgExtractJoin] at h1 h2
        have hl := ihNode ext1 ext2 larg
        have hsc1 := sc1.1 ext1 larg
        have hsc2 := sc2.1 ext2 larg
        generalize pgExtractNode conv fuel1 ext1 larg = res1 at h1 hl hsc1
        generalize pgExtractNode conv fuel2 ext2 larg = res2 at h2 hl hsc2
        rcases res1 with ⟨r1, e1⟩
        rcases res2 with ⟨r2, e2⟩
        cases r1 with
        | error e => cases h1
        | ok L1 =>
          cases r2 with
          | error e => cases h2
          | ok L2 =>
            simp only at h1 h2
            have hsh : SameShape e1 e2 := sameShape_of_scope hshape hsc1 hsc2
            have hr := ihNode e1 e2 rarg
            generalize pgExtractNode conv fuel1 e1 rarg = res3 at h1 hr
            generalize pgExtractNode conv fuel2 e2 rarg = res4 at h2 hr
            rcases res3 with ⟨r3, e3⟩
            rcases res4 with ⟨r4, e4⟩
            cases r3 with
            | error e => cases h1
            | ok R1 =>
              cases r4 with
              | error e => cases h2
              | ok R2 =>
                simp only at h1 h2
                exact pgMergeJoinField_erase isn u L1 L2 R1 R2 f1 f2
                  (hl L1 L2 hshape rfl rfl) (hr R1 R2 hsh rfl rfl) h1 h2
      · -- pgExtractRangeSubselect
        intro ext1 ext2 subquery aliasNode f1 f2 hshape h1 h2
        simp only [pgExtractRangeSubselect] at h1 h2
        have hl := ihNode ext1 ext2 subquery
        generalize pgExtractNode conv fuel1 ext1 subquery = res1 at h1 hl
        generalize pgExtractNode conv fuel2 ext2 subquery = res2 at h2 hl
        rcases res1 with ⟨r1, e1⟩
        rcases res2 with ⟨r2, e2⟩
        cases r1 with
        | error e => cases h1
        | ok L1 =>
          cases r2 with
          | error e => cases h2
          | ok L2 =>
            simp only at h1 h2
            have hL := hl L1 L2 hshape rfl rfl
            cases aliasNode with
            | none =>
              simp only [Except.ok.injEq] at h1 h2
              subst h1
              subst h2
              exact hL
            | some al =>
              simp only at h1 h2
              cases ha : pgExtractAlias (some al) with
              | error e => rw [ha] at h1; cases h1
              | ok p =>
                obtain ⟨aliasName, columnNameList⟩ := p
                rw [ha] at h1 h2
                simp only at h1 h2
                split at h1
                · cases h1
                · split at h2
                  · cases h2
                  · simp only [Except.ok.injEq] at h1 h2
                    subst h1
                    subst h2
                    rw [aliasFields_erase, aliasFields_erase, ← eraseField_names L1,
                      ← eraseField_names L2, hL]
      · -- pgExtractRecursiveCTE
        intro ext1 ext2 ctename aliascolnames ctequery t1 t2 hshape h1 h2
        have hnon : (pgExtractNonRecursiveCTE conv fuel1 ext1 ctename aliascolnames ctequery).1
              = .ok t1 →
            (pgExtractNonRecursiveCTE conv fuel2 ext2 ctename aliascolnames ctequery).1
              = .ok t2 → eraseTable t1 = eraseTable t2 :=
          ihNon _ _ _ _ _ _ _ hshape
        cases ctequery with
        | none => simp only [pgExtractRecursiveCTE] at h1; cases h1
        | some q =>
          cases q
          case SelectStmt sel =>
            simp only [pgExtractRecursiveCTE] at h1 h2
            by_cases hop : sel.Op ≠ .SETOP_UNION
            · rw [if_pos hop] at h1 h2
              exact hnon h1 h2
            · rw [if_neg hop] at h1 h2
              cases hlarg : sel.Larg with
              | none => rw [hlarg] at h1; cases h1
              | some larg =>
                rw [hlarg] at h1 h2
                simp only at h1 h2
                have hl := ihSel ext1 ext2 larg
                have hsc1 := sc1.2.2.2.2.2.2 ext1 larg
                have hsc2 := sc2.2.2.2.2.2.2 ext2 larg
                generalize pgExtractSelect conv fuel1 ext1 larg = res1 at h1 hl hsc1
                generalize pgExtractSelect conv fuel2 ext2 larg = res2 at h2 hl hsc2
                rcases res1 with ⟨r1, e1⟩
                rcases res2 with ⟨r2, e2⟩
                cases r1 with
                | error e => cases h1
                | ok F1 =>
                  cases r2 with
                  | error e => cases h2
                  | ok F2 =>
                    simp only at h1 h2
                    have hF := hl F1 F2 hshape rfl rfl
                    cases ha1 : applyAliascolnames aliascolnames F1 with
                    | error e => rw [ha1] at h1; cases h1
                    | ok R1 =>
                      cases ha2 : applyAliascolnames aliascolnames F2 with
                      | error e => rw [ha2] at h2; cases h2
                      | ok R2 =>
                        rw [ha1] at h1
                        rw [ha2] at h2
                        simp only at h1 h2
                        have hR := applyAliascolnames_erase_congr _ _ _ _ _ hF ha1 ha2
                        have hloop : ∀ (fuel : Nat) (ext : SensitiveFieldExtractor)
                            (R : List FieldInfo) (t : TableSchema),
                            (pgExtractRecursiveCTELoop conv fuel
                              { ext with
                                  cteOuterSchemaInfo :=
                                    ext.cteOuterSchemaInfo ++ [cteTableSchema ctename R] }
                              sel.Rarg (cteTableSchema ctename R)).1 = .ok t →
                            eraseTable t = eraseTable (cteTableSchema ctename R) := by
                          intro fuel ext R t hres
                          generalize hq : pgExtractRecursiveCTELoop conv fuel
                              { ext with
                                  cteOuterSchemaInfo :=
                                    ext.cteOuterSchemaInfo ++ [cteTableSchema ctename R] }
                              sel.Rarg (cteTableSchema ctename R) = res at hres
                          rcases res with ⟨r, x⟩
                          simp only at hres
                          subst hres
                          cases hrarg : sel.Rarg with
                          | none =>
                            rw [hrarg] at hq
                            cases fuel <;> simp [pgExtractRecursiveCTELoop] at hq
                          | some rarg =>
                            rw [hrarg] at hq
                            have hok := pgExtractRecursiveCTELoop_ok conv fuel _ x rarg
                              (cteTableSchema ctename R) t ext.cteOuterSchemaInfo rfl hq
                            exact eraseTable_of_names hok.1 hok.2.1
                        rw [hloop fuel1 e1 R1 t1 h1, hloop fuel2 e2 R2 t2 h2,
                          cteTableSchema_erase, cteTableSchema_erase, hR]
          all_goals
            simp only [pgExtractRecursiveCTE] at h1 h2
            exact hnon h1 h2
      · -- pgExtractNonRecursiveCTE
        intro ext1 ext2 ctename aliascolnames ctequery t1 t2 hshape h1 h2
        simp only [pgExtractNonRecursiveCTE] at h1 h2
        have hl := ihNode ext1 ext2 ctequery
        generalize pgExtractNode conv fuel1 ext1 ctequery = res1 at h1 hl
        generalize pgExtractNode conv fuel2 ext2 ctequery = res2 at h2 hl
        rcases res1 with ⟨r1, e1⟩
        rcases res2 with ⟨r2, e2⟩
        cases r1 with
        | error e => cases h1
        | ok F1 =>
          cases r2 with
          | error e => cases h2
          | ok F2 =>
            simp only at h1 h2
            have hF := hl F1 F2 hshape rfl rfl
            cases ha1 : applyAliascolnames aliascolnames F1 with
            | error e => rw [ha1] at h1; cases h1
            | ok R1 =>
              cases ha2 : applyAliascolnames aliascolnames F2 with
              | error e => rw [ha2] at h2; cases h2
              | ok R2 =>
                rw [ha1] at h1
                rw [ha2] at h2
                simp only [Except.ok.injEq] at h1 h2
                subst h1
                subst h2
                rw [cteTableSchema_erase, cteTableSchema_erase,
                  applyAliascolnames_erase_congr _ _ _ _ _ hF ha1 ha2]
      · -- pgExtractSelect
        intro ext1 ext2 node f1 f2 hshape h1 h2
        rw [pgExtractSelect_succ] at h1 h2
        have hw : ∀ x1 x2, withClausePhase conv fuel1 ext1 node = (.ok (), x1) →
            withClausePhase conv fuel2 ext2 node = (.ok (), x2) → SameShape x1 x2 := by
          intro x1 x2 hw1 hw2
          unfold withClausePhase at hw1 hw2
          cases hwc : node.WithClause with
          | none =>
            rw [hwc] at hw1 hw2
            simp only [Prod.mk.injEq, true_and] at hw1 hw2
            subst hw1
            subst hw2
            exact hshape
          | some wc =>
            rw [hwc] at hw1 hw2
            exact withClauseLoop_erase _ _ _ _ ihRec ihNon sc1.2.2.2.1 sc1.2.2.2.2.2.1
              sc2.2.2.2.1 sc2.2.2.2.2.2.1 wc.Recursive wc.Ctes ext1 ext2 x1 x2 hshape hw1 hw2
        generalize withClausePhase conv fuel1 ext1 node = w1 at h1 hw
        generalize withClausePhase conv fuel2 ext2 node = w2 at h2 hw
        rcases w1 with ⟨r1, x1⟩
        rcases w2 with ⟨r2, x2⟩
        cases r1 with
        | error e => cases h1
        | ok u1 =>
          cases r2 with
          | error e => cases h2
          | ok u2 =>
            simp only at h1 h2
            exact pgExtractSelectBody_erase conv _ _ _ _ _ _ ihSel sc1.2.2.2.2.2.2
              sc2.2.2.2.2.2.2 ihNode sc1.1 sc2.1 x1 x2 node f1 f2 (hw x1 x2 rfl rfl) h1 h2

end ShapeInvariant

section ShapeEntryPoint

variable (parse : String → Except Error (List (Option Node)))
variable (conv : List Node → Except Error ColumnNameDef)

/-- C27, as amended. Output names do not depend on masking levels: for every two extractor
states whose catalogs have the same databases, schemas, tables and column names and differ only
in masking levels (and whose CTE stacks agree in the same way; both are empty in a fresh
extractor), every SELECT and every fuel of either run, when the Select Evaluator succeeds on
both, the two results have the same length and the same names in the same order; and likewise
when `ExtractSensitiveField` returns a list on both. Extraction may succeed on one catalog and
fail on the other. -/
theorem ExtractSensitiveField_names (fuel1 fuel2 : Nat) (ext1 ext2 : SensitiveFieldExtractor)
    (hcatalog : eraseCatalog ext1.SchemaInfo = eraseCatalog ext2.SchemaInfo)
    (hcte : ext1.cteOuterSchemaInfo.map eraseTable = ext2.cteOuterSchemaInfo.map eraseTable) :
    (∀ (node : SelectStmt) (fields1 fields2 : List FieldInfo),
      (pgExtractSelect conv fuel1 ext1 node).1 = .ok fields1 →
      (pgExtractSelect conv fuel2 ext2 node).1 = .ok fields2 →
      fields1.length = fields2.length ∧
      fields1.map (fun field => field.Name) = fields2.map (fun field => field.Name)) ∧
    (∀ (statement : String) (result1 result2 : List SensitiveField),
      (ExtractSensitiveField parse conv fuel1 ext1 statement).1 = .ok (some result1) →
      (ExtractSensitiveField parse conv fuel2 ext2 statement).1 = .ok (some result2) →
      result1.length = result2.length ∧
      result1.map (fun field => field.Name) = result2.map (fun field => field.Name)) := by
  have hshape : SameShape ext1 ext2 := ⟨hcatalog, hcte⟩
  have hnames : ∀ F1 F2 : List FieldInfo, F1.map eraseField = F2.map eraseField →
      F1.map (fun field => field.Name) = F2.map (fun field => field.Name) := by
    intro F1 F2 h
    have := congrArg (List.map FieldInfo.Name) h
    rw [eraseField_names, eraseField_names] at this
    exact this
  constructor
  · intro node fields1 fields2 h1 h2
    have h := (erase_inv conv fuel1 fuel2).2.2.2.2.2 ext1 ext2 node fields1 fields2 hshape h1 h2
    exact ⟨erase_length h, hnames _ _ h⟩
  · intro statement result1 result2 h1 h2
    unfold ExtractSensitiveField at h1 h2
    cases hp : parse statement with
    | error e => rw [hp] at h1; cases h1
    | ok stmts =>
      rw [hp] at h1 h2
      simp only at h1 h2
      by_cases hlen : stmts.length ≠ 1
      · rw [if_pos hlen] at h1; cases h1
      · rw [if_neg hlen] at h1 h2
        cases hh : stmts.head? with
        | none => rw [hh] at h1; cases h1
        | some o =>
          cases o with
          | none => rw [hh] at h1; cases h1
          | some node =>
            rw [hh] at h1 h2
            cases node with
            | SelectStmt s =>
              simp only at h1 h2
              have hn := (erase_inv conv fuel1 fuel2).1 ext1 ext2 (some (.SelectStmt s))
              generalize pgExtractNode conv fuel1 ext1 (some (.SelectStmt s)) = res1 at h1 hn
              generalize pgExtractNode conv fuel2 ext2 (some (.SelectStmt s)) = res2 at h2 hn
              rcases res1 with ⟨r1, e1⟩
              rcases res2 with ⟨r2, e2⟩
              cases r1 with
              | error e =>
                simp only at h1
                split at h1
                · split at h1 <;> cases h1
                · cases h1
              | ok F1 =>
                cases r2 with
                | error e =>
                  simp only at h2
                  split at h2
                  · split at h2 <;> cases h2
                  · cases h2
                | ok F2 =>
                  simp only [Except.ok.injEq, Option.some.injEq] at h1 h2
                  subst h1
                  subst h2
                  have h := hn F1 F2 hshape rfl rfl
                  simp only [List.length_map, List.map_map, Function.comp]
                  exact ⟨erase_length h, hnames _ _ h⟩
            | _ => simp only at h1; cases h1

end ShapeEntryPoint

theorem ExtractSensitiveField_names_witness :
    ((pgExtractSelect ConvertNodeListToColumnNameDef 6
        { SchemaInfo := shortCircuitCatalog .FULL }
        (selectFrom [rangeVar "t"] [resTarget "" (columnRef "b")])).1
      = .ok [{ Name := "b", MaskingLevel := .FULL }] ∧
     (pgExtractSelect ConvertNodeListToColumnNameDef 6
        { SchemaInfo := shortCircuitCatalog .NONE }
        (selectFrom [rangeVar "t"] [resTarget "" (columnRef "b")])).1
      = .ok [{ Name := "b", MaskingLevel := .NONE }] ∧
     [({ Name := "b", MaskingLevel := .FULL } : FieldInfo)].length
      = [({ Name := "b", MaskingLevel := .NONE } : FieldInfo)].length ∧
     [({ Name := "b", MaskingLevel := .FULL } : FieldInfo)].map (fun field => field.Name)
      = [({ Name := "b", MaskingLevel := .NONE } : FieldInfo)].map (fun field => field.Name)) ∧
    ((ExtractSensitiveField
        (fun _ => .ok [some (.SelectStmt (selectFrom [rangeVar "t"] [resTarget "" (columnRef "b")]))])
        ConvertNodeListToColumnNameDef 6
        { SchemaInfo := shortCircuitCatalog .FULL } "SELECT b FROM t").1
      = .ok (some [{ Name := "b", MaskingLevel := .FULL }]) ∧
     (ExtractSensitiveField
        (fun _ => .ok [some (.SelectStmt (selectFrom [rangeVar "t"] [resTarget "" (columnRef "b")]))])
        ConvertNodeListToColumnNameDef 6
        { SchemaInfo := shortCircuitCatalog .NONE } "SELECT b FROM t").1
      = .ok (some [{ Name := "b", MaskingLevel := .NONE }]) ∧
     [({ Name := "b", MaskingLevel := .FULL } : SensitiveField)].length
      = [({ Name := "b", MaskingLevel := .NONE } : SensitiveField)].length ∧
     [({ Name := "b", MaskingLevel := .FULL } : SensitiveField)].map (fun field => field.Name)
      = [({ Name := "b", MaskingLevel := .NONE } : SensitiveField)].map
          (fun field => field.Name)) :=
  ⟨⟨rfl, rfl,
     (ExtractSensitiveField_names
        (fun _ => .ok [some (.SelectStmt (selectFrom [rangeVar "t"] [resTarget "" (columnRef "b")]))])
        ConvertNodeListToColumnNameDef 6 6
        { SchemaInfo := shortCircuitCatalog .FULL } { SchemaInfo := shortCircuitCatalog .NONE }
        rfl rfl).1 (selectFrom [rangeVar "t"] [resTarget "" (columnRef "b")])
        [{ Name := "b", MaskingLevel := .FULL }] [{ Name := "b", MaskingLevel := .NONE }]
        rfl rfl⟩,
   ⟨rfl, rfl,
     (ExtractSensitiveField_names
        (fun _ => .ok [some (.SelectStmt (selectFrom [rangeVar "t"] [resTarget "" (columnRef "b")]))])
        ConvertNodeListToColumnNameDef 6 6
        { SchemaInfo := shortCircuitCatalog .FULL } { SchemaInfo := shortCircuitCatalog .NONE }
        rfl rfl).2 "SELECT b FROM t"
        [{ Name := "b", MaskingLevel := .FULL }] [{ Name := "b", MaskingLevel := .NONE }]
        rfl rfl⟩⟩

/-- C27, the counterexample `SELECT b + (SELECT 1 FROM missing) AS v FROM t` over two catalogs
that differ only in the level of `t.b`: with `t.b` FULL the operand `b` brings the running
level to `MaxMaskingLevel`, the list fold returns at once (masking.go 883-885) and the
subquery over the missing table is never evaluated, so extraction succeeds; with `t.b` NONE
the subquery is evaluated and extraction fails with table not found. When the missing relation
is named `pg_catalog.x`, the entry point turns that failure into the null result, so the two
runs return a list of one field and null. -/
theorem ExtractSensitiveField_names_counterexample :
    eraseCatalog (shortCircuitCatalog .FULL) = eraseCatalog (shortCircuitCatalog .NONE) ∧
    pgExtractSelect ConvertNodeListToColumnNameDef 10
        { SchemaInfo := shortCircuitCatalog .FULL } (shortCircuitQuery "missing")
      = (.ok [{ Name := "v", MaskingLevel := .FULL }],
         { SchemaInfo := shortCircuitCatalog .FULL }) ∧
    pgExtractSelect ConvertNodeListToColumnNameDef 10
        { SchemaInfo := shortCircuitCatalog .NONE } (shortCircuitQuery "missing")
      = (.error (.tableNotFound "missing"), { SchemaInfo := shortCircuitCatalog .NONE }) ∧
    (ExtractSensitiveField
        (fun _ => .ok [some (.SelectStmt (shortCircuitQuery "pg_catalog.x"))])
        ConvertNodeListToColumnNameDef 11 { SchemaInfo := shortCircuitCatalog .FULL }
        "SELECT b + (SELECT 1 FROM \"pg_catalog.x\") AS v FROM t").1
      = .ok (some [{ Name := "v", MaskingLevel := .FULL }]) ∧
    (ExtractSensitiveField
        (fun _ => .ok [some (.SelectStmt (shortCircuitQuery "pg_catalog.x"))])
        ConvertNodeListToColumnNameDef 11 { SchemaInfo := shortCircuitCatalog .NONE }
        "SELECT b + (SELECT 1 FROM \"pg_catalog.x\") AS v FROM t").1
      = .ok none :=
  ⟨rfl, rfl, rfl, rfl, rfl⟩

/-! ## Naming advisor -/

namespace Advisor

open namingAutoIncrementColumnChecker

theorem handleColumn_fields (checker : namingAutoIncrementColumnChecker)
    (tableName columnName : String) (line : Int) :
    (checker.handleColumn tableName columnName line).baseLine = checker.baseLine ∧
    (checker.handleColumn tableName columnName line).level = checker.level ∧
    (checker.handleColumn tableName columnName line).title = checker.title ∧
    (checker.handleColumn tableName columnName line).format = checker.format ∧
    (checker.handleColumn tableName columnName line).maxLength = checker.maxLength := by
  unfold handleColumn
  simp only
  split <;> split <;> exact ⟨rfl, rfl, rfl, rfl, rfl⟩

/-- What `handleColumn` appends. -/
theorem handleColumn_adviceList (checker : namingAutoIncrementColumnChecker)
    (tableName columnName : String) (line : Int) :
    ∃ advices : List Advice,
      (checker.handleColumn tableName columnName line).adviceList
        = checker.adviceList ++ advices ∧
      ({ checker with adviceList := [] }.handleColumn tableName columnName line).adviceList
        = advices ∧
      (advices ≠ [] ↔ (checker.format.MatchString columnName = false ∨
        (0 < checker.maxLength ∧ checker.maxLength < (columnName.utf8ByteSize : Int)))) ∧
      ∀ a ∈ advices, a.Status = checker.level ∧
        a.Code = .NamingAutoIncrementColumnConventionMismatch := by
  refine ⟨({ checker with adviceList := [] }.handleColumn tableName columnName line).adviceList,
    ?_, rfl, ?_, ?_⟩
  all_goals unfold handleColumn
  all_goals by_cases hm : checker.format.MatchString columnName = true
  all_goals by_cases hl :
    checker.maxLength > 0 ∧ (columnName.utf8ByteSize : Int) > checker.maxLength
  all_goals simp [hm, hl]

theorem offends_congr {c1 c2 : namingAutoIncrementColumnChecker}
    (hf : c1.format = c2.format) (hl : c1.maxLength = c2.maxLength)
    (tableElement : Option TableElementContext) :
    Offends c1 tableElement ↔ Offends c2 tableElement := by
  unfold Offends
  rw [hf, hl]

theorem createTableElement_fields (tableName : String)
    (checker : namingAutoIncrementColumnChecker) (tableElement : Option TableElementContext) :
    (createTableElement tableName checker tableElement).level = checker.level ∧
    (createTableElement tableName checker tableElement).format = checker.format ∧
    (createTableElement tableName checker tableElement).maxLength = checker.maxLength := by
  unfold createTableElement
  split
  · exact ⟨rfl, rfl, rfl⟩
  · split
    · exact ⟨rfl, rfl, rfl⟩
    · split
      · split
        · have h := handleColumn_fields checker tableName ‹String› ‹TableElementContext›.Line
          exact ⟨h.2.1, h.2.2.2.1, h.2.2.2.2⟩
        · exact ⟨rfl, rfl, rfl⟩
      · exact ⟨rfl, rfl, rfl⟩

theorem createTableElement_adviceList (tableName : String)
    (checker : namingAutoIncrementColumnChecker) (tableElement : Option TableElementContext) :
    ∃ advices : List Advice,
      (createTableElement tableName checker tableElement).adviceList
        = checker.adviceList ++ advices ∧
      (advices ≠ [] ↔ Offends checker tableElement) ∧
      ∀ a ∈ advices, a.Status = checker.level ∧
        a.Code = .NamingAutoIncrementColumnConventionMismatch := by
  cases tableElement with
  | none =>
    refine ⟨[], by simp [createTableElement], ?_, by simp⟩
    simp only [ne_eq, not_true_eq_false, false_iff]
    rintro ⟨e, cd, cn, fd, he, -⟩
    cases he
  | some element =>
    cases hcd : element.ColumnDefinition with
    | none =>
      refine ⟨[], by simp [createTableElement, hcd], ?_, by simp⟩
      simp only [ne_eq, not_true_eq_false, false_iff]
      rintro ⟨e, cd, cn, fd, he, h1, -⟩
      cases he
      rw [hcd] at h1
      cases h1
    | some columnDefinition =>
      cases hcn : columnDefinition.ColumnName with
      | none =>
        refine ⟨[], by simp [createTableElement, hcd, hcn], ?_, by simp⟩
        simp only [ne_eq, not_true_eq_false, false_iff]
        rintro ⟨e, cd, cn, fd, he, h1, h2, -⟩
        cases he
        rw [hcd] at h1
        cases h1
        rw [hcn] at h2
        cases h2
      | some columnName =>
        cases hfd : columnDefinition.FieldDefinition with
        | none =>
          refine ⟨[], by simp [createTableElement, hcd, hcn, hfd], ?_, by simp⟩
          simp only [ne_eq, not_true_eq_false, false_iff]
          rintro ⟨e, cd, cn, fd, he, h1, h2, h3, -⟩
          cases he
          rw [hcd] at h1
          cases h1
          rw [hfd] at h3
          cases h3
        | some fieldDefinition =>
          by_cases hauto : isAutoIncrement fieldDefinition = true
          · obtain ⟨advices, h1, -, h3, h4⟩ :=
              handleColumn_adviceList checker tableName columnName element.Line
            refine ⟨advices, by simp [createTableElement, hcd, hcn, hfd, hauto, h1], ?_, h4⟩
            rw [h3]
            constructor
            · intro h
              refine ⟨element, columnDefinition, columnName, fieldDefinition, rfl, hcd, hcn,
                hfd, ?_, h⟩
              simpa [isAutoIncrement] using hauto
            · rintro ⟨e, cd, cn, fd, he, h1, h2, h3, -, h5⟩
              cases he
              rw [hcd] at h1
              cases h1
              rw [hcn] at h2
              cases h2
              exact h5
          · refine ⟨[], by simp [createTableElement, hcd, hcn, hfd, hauto], ?_, by simp⟩
            simp only [ne_eq, not_true_eq_false, false_iff]
            rintro ⟨e, cd, cn, fd, he, h1, h2, h3, h4, -⟩
            cases he
            rw [hcd] at h1
            cases h1
            rw [hfd] at h3
            cases h3
            exact hauto (by simpa [isAutoIncrement] using h4)

theorem createTableElement_foldl (tableName : String)
    (tableElementList : List (Option TableElementContext)) :
    ∀ checker : namingAutoIncrementColumnChecker,
    ∃ perElement : List (List Advice),
      List.Forall₂ (fun tableElement advices =>
        (advices ≠ [] ↔ Offends checker tableElement) ∧
        ∀ a ∈ advices, a.Status = checker.level ∧
          a.Code = .NamingAutoIncrementColumnConventionMismatch) tableElementList perElement ∧
      (tableElementList.foldl (createTableElement tableName) checker).adviceList
        = checker.adviceList ++ perElement.flatten := by
  induction tableElementList with
  | nil => exact fun checker => ⟨[], List.Forall₂.nil, by simp⟩
  | cons tableElement rest ih =>
    intro checker
    obtain ⟨advices, h1, h2, h3⟩ := createTableElement_adviceList tableName checker tableElement
    obtain ⟨hl, hf, hm⟩ := createTableElement_fields tableName checker tableElement
    obtain ⟨perRest, h4, h5⟩ := ih (createTableElement tableName checker tableElement)
    refine ⟨advices :: perRest, List.Forall₂.cons ⟨h2, h3⟩ ?_, ?_⟩
    · refine h4.imp ?_
      intro e as h
      rw [hl, offends_congr hf hm] at h
      exact h
    · rw [List.foldl_cons, h5, h1, List.flatten_cons, List.append_assoc]

/-- C21, as amended. Naming advisor on CREATE TABLE: for every checker (rule level, format,
maximum length) and every CREATE TABLE statement with a table name and an element list,
`EnterCreateTable` appends to the advice list, element by element and in order, a list of
advices that is non-empty if and only if the element is a column definition with the
AUTO_INCREMENT attribute whose name fails the format or, the maximum length being positive,
is longer than the maximum length; every advice appended has the rule's level as status and
the mismatch code. So a column without AUTO_INCREMENT produces none. -/
theorem EnterCreateTable_advice (checker : namingAutoIncrementColumnChecker)
    (ctx : CreateTableContext) (tableName : String)
    (tableElementList : List (Option TableElementContext))
    (hname : ctx.TableName = some tableName)
    (hlist : ctx.TableElementList = some tableElementList) :
    ∃ perElement : List (List Advice),
      List.Forall₂ (fun tableElement advices =>
        (advices ≠ [] ↔ Offends checker tableElement) ∧
        ∀ a ∈ advices, a.Status = checker.level ∧
          a.Code = .NamingAutoIncrementColumnConventionMismatch) tableElementList perElement ∧
      (checker.EnterCreateTable ctx).adviceList = checker.adviceList ++ perElement.flatten := by
  unfold EnterCreateTable
  rw [hname, hlist]
  exact createTableElement_foldl tableName tableElementList checker

theorem EnterCreateTable_advice_witness :
    ∃ perElement : List (List Advice),
      List.Forall₂ (fun tableElement advices =>
        (advices ≠ [] ↔ Offends (idChecker 64) tableElement) ∧
        ∀ a ∈ advices, a.Status = (idChecker 64).level ∧
          a.Code = .NamingAutoIncrementColumnConventionMismatch)
        [columnElement "uid" true 1, columnElement "name" false 2] perElement ∧
      ((idChecker 64).EnterCreateTable
          { TableName := some "t"
            TableElementList := some [columnElement "uid" true 1, columnElement "name" false 2] }
        ).adviceList = (idChecker 64).adviceList ++ perElement.flatten :=
  EnterCreateTable_advice (idChecker 64) _ "t" _ rfl rfl

/-- C21, the counterexample: with the maximum length 0, or -1, the AUTO_INCREMENT column `id`
of `CREATE TABLE t (id INT AUTO_INCREMENT)` matches the format and is longer than the maximum
length, and no advice is appended: the length test is guarded by `maxLength > 0`
(line 160). -/
theorem EnterCreateTable_advice_counterexample :
    ((idChecker 0).EnterCreateTable
        { TableName := some "t", TableElementList := some [columnElement "id" true 1] }
      ).adviceList = [] ∧
    isAutoIncrement { AllColumnAttribute := [true] } = true ∧
    (idChecker 0).maxLength < ("id".utf8ByteSize : Int) ∧
    ((idChecker (-1)).EnterCreateTable
        { TableName := some "t", TableElementList := some [columnElement "id" true 1] }
      ).adviceList = [] := by
  refine ⟨?_, rfl, by decide, ?_⟩ <;> decide

/-- C22, the code at two ALTER TABLE statements, with the format `^id$` and the level `Warn`.
For `ALTER TABLE t ADD COLUMN name INT`, whose column is not AUTO_INCREMENT, `Check` returns
a mismatch advice on `name`, not the OK advice; for `ALTER TABLE t DROP COLUMN c` it returns a
mismatch advice on the empty column name. `EnterAlterTable` passes every alter-list item to
`handleColumn` (line 145) without the `isAutoIncrement` test that `EnterCreateTable` makes
(line 98). -/
theorem Check_alterTable :
    Check (fun _ => .ok .Warn) (fun _ => .ok (idFormat, 64))
        (alterTableContext "t"
          [{ ADD_SYMBOL := true, Identifier := some "name"
             FieldDefinition := some { AllColumnAttribute := [] } }])
      = .ok [{ Status := .Warn, Code := .NamingAutoIncrementColumnConventionMismatch
               Title := "naming.column.auto-increment"
               Content := .namingFormat "t" "name" "^id$", Line := 1 }] ∧
    Check (fun _ => .ok .Warn) (fun _ => .ok (idFormat, 64))
        (alterTableContext "t" [{ DROP_SYMBOL := true, ColumnInternalRef := some "c" }])
      = .ok [{ Status := .Warn, Code := .NamingAutoIncrementColumnConventionMismatch
               Title := "naming.column.auto-increment"
               Content := .namingFormat "t" "" "^id$", Line := 1 }] := by
  constructor <;> rfl

end Advisor

end Bytebase
